import Mathlib

/-!
Seed orchestration and configuration loading of the e-commerce backend.

A shallow embedding of `internal/seeds/seeder.go`, `internal/seeds/orders.go`,
`internal/seeds/reviews.go`, `internal/config/app_config.go` and
`internal/database/database.go`.

* Go `int` values are only compared or counted here, so they are `Int` / `Nat`.
* A seed unit's `Seed(db)` mutates the database and may fail: it is a function
  `σ → σ × Option String` over an arbitrary database state `σ`
  (`none` is Go's `nil` error).
* The manager's logger prints wall-clock durations and is not part of the model;
  every `Seed` call and its outcome is recorded in `executed` instead.
-/

namespace Seeds

/-- The `Seeder` interface: `Name()`, `Priority()` and `Seed(db)`. -/
structure Seeder (σ : Type) where
  name : String
  priority : Int
  seed : σ → σ × Option String

/-- The fields of `SeedManager` the orchestration reads and writes. -/
structure SeedManager (σ : Type) where
  db : σ
  seeders : List (Seeder σ)

/-- The Go statement `xs[i], xs[j] = xs[j], xs[i]`. -/
def swapAt {α : Type} (xs : List α) (i j : Nat) : List α :=
  match xs[i]?, xs[j]? with
  | some a, some b => (xs.set i b).set j a
  | _, _ => xs

/-- The body of the inner loop of `sortSeedersByPriority`:
`if seeders[i].Priority() > seeders[j].Priority() { swap }`. -/
def compareSwap {σ : Type} (xs : List (Seeder σ)) (i j : Nat) : List (Seeder σ) :=
  match xs[i]?, xs[j]? with
  | some a, some b => if a.priority > b.priority then swapAt xs i j else xs
  | _, _ => xs

/-- The inner loop `for j := ...; j < len(seeders); j++`, entered at `j`;
`fuel` bounds the number of iterations still to run. -/
def innerLoop {σ : Type} (i : Nat) : Nat → Nat → List (Seeder σ) → List (Seeder σ)
  | 0, _, xs => xs
  | fuel + 1, j, xs =>
    if j < xs.length then innerLoop i fuel (j + 1) (compareSwap xs i j) else xs

/-- The outer loop `for i := ...; i < len(seeders)-1; i++`, entered at `i`. -/
def outerLoop {σ : Type} : Nat → Nat → List (Seeder σ) → List (Seeder σ)
  | 0, _, xs => xs
  | fuel + 1, i, xs =>
    if i + 1 < xs.length then outerLoop fuel (i + 1) (innerLoop i xs.length (i + 1) xs) else xs

/-- `SeedManager.sortSeedersByPriority`, on the slice of seed units. -/
def sortSeedersByPriority {σ : Type} (xs : List (Seeder σ)) : List (Seeder σ) :=
  outerLoop xs.length 0 xs

/-- The local state of `SeedManager.Run` while it walks the seed units. -/
structure RunState (σ : Type) where
  db : σ
  executed : List (Seeder σ × Option String)
  successCount : Nat
  errorCount : Nat
  sleptMs : Nat

/-- The loop `for _, seeder := range sm.seeders` of `Run`. -/
def runLoop {σ : Type} : List (Seeder σ) → RunState σ → RunState σ
  | [], st => st
  | s :: rest, st =>
    match s.seed st.db with
    | (db1, some e) =>
      runLoop rest
        { st with db := db1, executed := st.executed ++ [(s, some e)],
                  errorCount := st.errorCount + 1 }
    | (db1, none) =>
      runLoop rest
        { st with db := db1, executed := st.executed ++ [(s, none)],
                  successCount := st.successCount + 1, sleptMs := st.sleptMs + 100 }

/-- What a call of `Run` or `RunSpecific` leaves behind: the manager afterwards,
the `Seed` calls made (in order, with what each returned), the counters, the
time slept and the returned error. -/
structure RunResult (σ : Type) where
  sm : SeedManager σ
  executed : List (Seeder σ × Option String)
  successCount : Nat
  errorCount : Nat
  sleptMs : Nat
  err : Option String

/-- `SeedManager.Run`. -/
def Run {σ : Type} (sm : SeedManager σ) : RunResult σ :=
  let sorted := sortSeedersByPriority sm.seeders
  let st := runLoop sorted
    { db := sm.db, executed := [], successCount := 0, errorCount := 0, sleptMs := 0 }
  { sm := { db := st.db, seeders := sorted },
    executed := st.executed,
    successCount := st.successCount,
    errorCount := st.errorCount,
    sleptMs := st.sleptMs,
    err := if st.errorCount > 0 then
        some ("seeding completed with " ++ toString st.errorCount ++ " errors")
      else none }

/-- The map built by `for _, name := range seederNames { nameMap[name] = true }`;
a missing key reads as `false`. -/
def nameMap (seederNames : List String) : String → Bool :=
  seederNames.foldl (fun m name => fun k => if k = name then true else m k) (fun _ => false)

/-- Go's `%v` of a `[]string`. -/
def fmtNames (names : List String) : String :=
  "[" ++ " ".intercalate names ++ "]"

/-- `SeedManager.RunSpecific`. -/
def RunSpecific {σ : Type} (sm : SeedManager σ) (seederNames : List String) : RunResult σ :=
  let m := nameMap seederNames
  let filteredSeeders := sm.seeders.filter (fun s => m s.name)
  if filteredSeeders.length = 0 then
    { sm := sm, executed := [], successCount := 0, errorCount := 0, sleptMs := 0,
      err := some ("no seeders found for names: " ++ fmtNames seederNames) }
  else
    Run { sm with seeders := sortSeedersByPriority filteredSeeders }

/-- `SeedManager.ListAvailableSeeders`. -/
def ListAvailableSeeders {σ : Type} (sm : SeedManager σ) : List String :=
  sm.seeders.map (fun s => s.name)

/-- The `Seed` calls of a run over `units`, in the words of the specification:
each unit's `Seed` is called once, in list order, on the database the call before it
left, and what it returned is recorded; an error does not end the run. -/
def seedTrace {σ : Type} : List (Seeder σ) → σ → List (Seeder σ × Option String)
  | [], _ => []
  | s :: rest, db => (s, (s.seed db).2) :: seedTrace rest (s.seed db).1

/-- The database after the `Seed` calls of `seedTrace`. -/
def seedAll {σ : Type} (units : List (Seeder σ)) (db : σ) : σ :=
  units.foldl (fun db s => (s.seed db).1) db

/-- A seed unit over a database that lists the names seeded so far: it appends
its name and fails when told to. -/
def logUnit (name : String) (priority : Int) (fails : Bool) : Seeder (List String) :=
  { name := name, priority := priority,
    seed := fun db => (db ++ [name], if fails then some "boom" else none) }

/-- A seed unit that succeeds without touching the database. -/
def okUnit (name : String) (priority : Int) : Seeder Unit :=
  { name := name, priority := priority, seed := fun db => (db, none) }

/-- A seed unit that always fails. -/
def badUnit (name : String) (priority : Int) : Seeder Unit :=
  { name := name, priority := priority, seed := fun db => (db, some "boom") }

/-- One pass of the inner loop seen from the slot `i`: the unit held in the slot
 is compared with each later unit in turn and exchanged with it when larger. -/
def sweep {σ : Type} (a : Seeder σ) : List (Seeder σ) → Seeder σ × List (Seeder σ)
  | [] => (a, [])
  | y :: ys =>
    if a.priority > y.priority then ((sweep y ys).1, a :: (sweep y ys).2)
    else ((sweep a ys).1, y :: (sweep a ys).2)

/-- The list the nested loops compute, by recursion on the list. -/
def sweepSort {σ : Type} : Nat → List (Seeder σ) → List (Seeder σ)
  | 0, xs => xs
  | _ + 1, [] => []
  | n + 1, a :: rest => (sweep a rest).1 :: sweepSort n (sweep a rest).2

end Seeds

namespace time

/-- The constant `time.Second`, in nanoseconds. -/
def Second : Int := 1000000000

/-- The constant `time.Minute`. -/
def Minute : Int := 60 * Second

/-- The constant `time.Hour`. -/
def Hour : Int := 60 * Minute

end time

namespace strconv

/-- The value of a non-empty run of decimal digits; `none` for anything else. -/
def parseDigits (cs : List Char) : Option Nat :=
  if cs = [] then none
  else
    cs.foldl
      (fun acc c =>
        match acc with
        | none => none
        | some n =>
          if '0' ≤ c ∧ c ≤ '9' then some (n * 10 + (c.toNat - '0'.toNat)) else none)
      (some 0)

/-- Go's `strconv.Atoi` on a 64-bit platform: an optional sign, then decimal digits,
the value within the range of `int`; `none` when Go returns an error. -/
def Atoi (s : String) : Option Int :=
  match s.toList with
  | [] => none
  | c :: cs =>
    if c = '-' then
      match parseDigits cs with
      | some n => if n ≤ 2 ^ 63 then some (-(n : Int)) else none
      | none => none
    else
      match parseDigits (if c = '+' then cs else c :: cs) with
      | some n => if n < 2 ^ 63 then some (n : Int) else none
      | none => none

/-- Go's `strconv.ParseBool`; `none` when Go returns an error. -/
def ParseBool (s : String) : Option Bool :=
  if s = "1" ∨ s = "t" ∨ s = "T" ∨ s = "TRUE" ∨ s = "true" ∨ s = "True" then some true
  else if s = "0" ∨ s = "f" ∨ s = "F" ∨ s = "FALSE" ∨ s = "false" ∨ s = "False" then some false
  else none

end strconv

namespace Config

/-- The Go struct `ServerConfig`; a `time.Duration` is its number of nanoseconds. -/
structure ServerConfig where
  Host : String := ""
  Port : Int := 0
  ReadTimeout : Int := 0
  WriteTimeout : Int := 0
  IdleTimeout : Int := 0
  Environment : String := ""
  deriving DecidableEq

/-- The Go struct `DatabaseConfig`; a `time.Duration` is its number of nanoseconds. -/
structure DatabaseConfig where
  Driver : String := ""
  Host : String := ""
  Port : Int := 0
  User : String := ""
  Password : String := ""
  Database : String := ""
  SSLMode : String := ""
  MaxOpenConns : Int := 0
  MaxIdleConns : Int := 0
  ConnMaxLifetime : Int := 0
  ConnMaxIdleTime : Int := 0
  deriving DecidableEq

/-- The Go struct `RedisConfig`. -/
structure RedisConfig where
  Host : String := ""
  Port : Int := 0
  Password : String := ""
  DB : Int := 0
  deriving DecidableEq

/-- The Go struct `JWTConfig`; a `time.Duration` is its number of nanoseconds. -/
structure JWTConfig where
  Secret : String := ""
  ExpiresIn : Int := 0
  RefreshIn : Int := 0
  Issuer : String := ""
  Audience : String := ""
  deriving DecidableEq

/-- The Go struct `StripeConfig`. -/
structure StripeConfig where
  SecretKey : String := ""
  WebhookSecret : String := ""
  PublishableKey : String := ""
  deriving DecidableEq

/-- The Go struct `LoggingConfig`. -/
structure LoggingConfig where
  Level : String := ""
  Format : String := ""
  Output : String := ""
  Filename : String := ""
  MaxSize : Int := 0
  MaxBackups : Int := 0
  MaxAge : Int := 0
  Compress : Bool := false
  deriving DecidableEq

/-- The Go struct `CacheConfig`; a `time.Duration` is its number of nanoseconds. -/
structure CacheConfig where
  DefaultTTL : Int := 0
  MaxSize : Int := 0
  CleanupInterval : Int := 0
  deriving DecidableEq

/-- The Go struct `MetricsConfig`. -/
structure MetricsConfig where
  Enabled : Bool := false
  Port : Int := 0
  Path : String := ""
  Namespace : String := ""
  deriving DecidableEq

/-- The Go struct `AppConfig`; `{}` is its zero value `AppConfig{}`. -/
structure AppConfig where
  Server : ServerConfig := {}
  Database : DatabaseConfig := {}
  Redis : RedisConfig := {}
  JWT : JWTConfig := {}
  Stripe : StripeConfig := {}
  Logging : LoggingConfig := {}
  Cache : CacheConfig := {}
  Metrics : MetricsConfig := {}
  deriving DecidableEq

/-- What the configuration loader reads from outside the program: the process
environment (`os.Getenv`, the empty string for an unset variable), the file system
(`os.ReadFile`), `json.Unmarshal` into a settings object, and `time.ParseDuration`
(`none` when it returns an error; it computes fractions in floating point and is
left abstract). -/
structure World where
  getenv : String → String
  readFile : String → Except String String
  unmarshal : String → AppConfig → Except String AppConfig
  parseDuration : String → Option Int

/-- The function `getEnv`. -/
def getEnv (w : World) (key defaultValue : String) : String :=
  if w.getenv key ≠ "" then w.getenv key else defaultValue

/-- The function `getEnvAsInt`. -/
def getEnvAsInt (w : World) (key : String) (defaultValue : Int) : Int :=
  if w.getenv key ≠ "" then
    match strconv.Atoi (w.getenv key) with
    | some intValue => intValue
    | none => defaultValue
  else defaultValue

/-- The function `getEnvAsBool`. -/
def getEnvAsBool (w : World) (key : String) (defaultValue : Bool) : Bool :=
  if w.getenv key ≠ "" then
    match strconv.ParseBool (w.getenv key) with
    | some boolValue => boolValue
    | none => defaultValue
  else defaultValue

/-- The function `getEnvAsDuration`. -/
def getEnvAsDuration (w : World) (key : String) (defaultValue : Int) : Int :=
  if w.getenv key ≠ "" then
    match w.parseDuration (w.getenv key) with
    | some duration => duration
    | none => defaultValue
  else defaultValue

/-- The function `loadFromEnv`: one assignment per consulted variable. -/
def loadFromEnv (w : World) (config : AppConfig) : AppConfig :=
  { Server := { config.Server with
      Host := getEnv w "SERVER_HOST" config.Server.Host,
      Port := getEnvAsInt w "SERVER_PORT" config.Server.Port,
      Environment := getEnv w "ENVIRONMENT" config.Server.Environment },
    Database := { config.Database with
      Driver := getEnv w "DB_DRIVER" config.Database.Driver,
      Host := getEnv w "DB_HOST" config.Database.Host,
      Port := getEnvAsInt w "DB_PORT" config.Database.Port,
      User := getEnv w "DB_USER" config.Database.User,
      Password := getEnv w "DB_PASSWORD" config.Database.Password,
      Database := getEnv w "DB_NAME" config.Database.Database,
      SSLMode := getEnv w "DB_SSLMODE" config.Database.SSLMode,
      MaxOpenConns := getEnvAsInt w "DB_MAX_OPEN_CONNS" config.Database.MaxOpenConns,
      MaxIdleConns := getEnvAsInt w "DB_MAX_IDLE_CONNS" config.Database.MaxIdleConns },
    Redis := { config.Redis with
      Host := getEnv w "REDIS_HOST" config.Redis.Host,
      Port := getEnvAsInt w "REDIS_PORT" config.Redis.Port,
      Password := getEnv w "REDIS_PASSWORD" config.Redis.Password,
      DB := getEnvAsInt w "REDIS_DB" config.Redis.DB },
    JWT := { config.JWT with
      Secret := getEnv w "JWT_SECRET" config.JWT.Secret,
      ExpiresIn := getEnvAsDuration w "JWT_EXPIRES_IN" config.JWT.ExpiresIn,
      RefreshIn := getEnvAsDuration w "JWT_REFRESH_IN" config.JWT.RefreshIn,
      Issuer := getEnv w "JWT_ISSUER" config.JWT.Issuer,
      Audience := getEnv w "JWT_AUDIENCE" config.JWT.Audience },
    Stripe := { config.Stripe with
      SecretKey := getEnv w "STRIPE_SECRET_KEY" config.Stripe.SecretKey,
      WebhookSecret := getEnv w "STRIPE_WEBHOOK_SECRET" config.Stripe.WebhookSecret,
      PublishableKey := getEnv w "STRIPE_PUBLISHABLE_KEY" config.Stripe.PublishableKey },
    Logging := { config.Logging with
      Level := getEnv w "LOG_LEVEL" config.Logging.Level,
      Format := getEnv w "LOG_FORMAT" config.Logging.Format,
      Output := getEnv w "LOG_OUTPUT" config.Logging.Output,
      Filename := getEnv w "LOG_FILENAME" config.Logging.Filename,
      MaxSize := getEnvAsInt w "LOG_MAX_SIZE" config.Logging.MaxSize,
      MaxBackups := getEnvAsInt w "LOG_MAX_BACKUPS" config.Logging.MaxBackups,
      MaxAge := getEnvAsInt w "LOG_MAX_AGE" config.Logging.MaxAge,
      Compress := getEnvAsBool w "LOG_COMPRESS" config.Logging.Compress },
    Cache := { config.Cache with
      DefaultTTL := getEnvAsDuration w "CACHE_DEFAULT_TTL" config.Cache.DefaultTTL,
      MaxSize := getEnvAsInt w "CACHE_MAX_SIZE" config.Cache.MaxSize,
      CleanupInterval := getEnvAsDuration w "CACHE_CLEANUP_INTERVAL" config.Cache.CleanupInterval },
    Metrics := { config.Metrics with
      Enabled := getEnvAsBool w "METRICS_ENABLED" config.Metrics.Enabled,
      Port := getEnvAsInt w "METRICS_PORT" config.Metrics.Port,
      Path := getEnv w "METRICS_PATH" config.Metrics.Path,
      Namespace := getEnv w "METRICS_NAMESPACE" config.Metrics.Namespace } }

/-- The function `setDefaults`: a field still at its zero value gets the compiled-in default. -/
def setDefaults (config : AppConfig) : AppConfig :=
  { Server := { config.Server with
      Host := if config.Server.Host = "" then "0.0.0.0" else config.Server.Host,
      Port := if config.Server.Port = 0 then 5001 else config.Server.Port,
      ReadTimeout := if config.Server.ReadTimeout = 0 then
          30 * time.Second else config.Server.ReadTimeout,
      WriteTimeout := if config.Server.WriteTimeout = 0 then
          30 * time.Second else config.Server.WriteTimeout,
      IdleTimeout := if config.Server.IdleTimeout = 0 then
          120 * time.Second else config.Server.IdleTimeout,
      Environment := if config.Server.Environment = "" then
          "development" else config.Server.Environment },
    Database := { config.Database with
      Driver := if config.Database.Driver = "" then "postgres" else config.Database.Driver,
      Host := if config.Database.Host = "" then "localhost" else config.Database.Host,
      Port := if config.Database.Port = 0 then 5432 else config.Database.Port,
      User := if config.Database.User = "" then "jiil" else config.Database.User,
      Password := if config.Database.Password = "" then "juice" else config.Database.Password,
      Database := if config.Database.Database = "" then "ecommerce" else config.Database.Database,
      SSLMode := if config.Database.SSLMode = "" then "disable" else config.Database.SSLMode,
      MaxOpenConns := if config.Database.MaxOpenConns = 0 then 25 else config.Database.MaxOpenConns,
      MaxIdleConns := if config.Database.MaxIdleConns = 0 then 5 else config.Database.MaxIdleConns,
      ConnMaxLifetime := if config.Database.ConnMaxLifetime = 0 then
          5 * time.Minute else config.Database.ConnMaxLifetime,
      ConnMaxIdleTime := if config.Database.ConnMaxIdleTime = 0 then
          1 * time.Minute else config.Database.ConnMaxIdleTime },
    Redis := { config.Redis with
      Host := if config.Redis.Host = "" then "localhost" else config.Redis.Host,
      Port := if config.Redis.Port = 0 then 6379 else config.Redis.Port },
    JWT := { config.JWT with
      Secret := if config.JWT.Secret = "" then "your-secret-key" else config.JWT.Secret,
      ExpiresIn := if config.JWT.ExpiresIn = 0 then 24 * time.Hour else config.JWT.ExpiresIn,
      RefreshIn := if config.JWT.RefreshIn = 0 then 7 * 24 * time.Hour else config.JWT.RefreshIn,
      Issuer := if config.JWT.Issuer = "" then "ecommerce-api" else config.JWT.Issuer,
      Audience := if config.JWT.Audience = "" then "ecommerce-client" else config.JWT.Audience },
    Stripe := config.Stripe,
    Logging := { config.Logging with
      Level := if config.Logging.Level = "" then "info" else config.Logging.Level,
      Format := if config.Logging.Format = "" then "json" else config.Logging.Format,
      Output := if config.Logging.Output = "" then "stdout" else config.Logging.Output },
    Cache := { config.Cache with
      DefaultTTL := if config.Cache.DefaultTTL = 0 then 1 * time.Hour else config.Cache.DefaultTTL,
      MaxSize := if config.Cache.MaxSize = 0 then 1000 else config.Cache.MaxSize,
      CleanupInterval := if config.Cache.CleanupInterval = 0 then
          10 * time.Minute else config.Cache.CleanupInterval },
    Metrics := { config.Metrics with
      Port := if config.Metrics.Port = 0 then 9090 else config.Metrics.Port,
      Path := if config.Metrics.Path = "" then "/metrics" else config.Metrics.Path,
      Namespace := if config.Metrics.Namespace = "" then
          "ecommerce" else config.Metrics.Namespace } }

/-- The function `loadFromFile`: the settings object after a successful read and
parse, or the error. -/
def loadFromFile (w : World) (config : AppConfig) (path : String) : Except String AppConfig :=
  match w.readFile path with
  | .error err => .error err
  | .ok data => w.unmarshal data config

/-- The function `LoadConfig`, with the package variable `globalConfig` passed in
and out (`none` is the nil pointer): the returned pair and the variable afterwards. -/
def LoadConfig (w : World) (configPath : String) (globalConfig : Option AppConfig) :
    Except String AppConfig × Option AppConfig :=
  let config : AppConfig := {}
  if configPath ≠ "" then
    match loadFromFile w config configPath with
    | .error err => (.error ("failed to load config from file: " ++ err), globalConfig)
    | .ok config => (.ok (setDefaults (loadFromEnv w config)),
        some (setDefaults (loadFromEnv w config)))
  else
    (.ok (setDefaults (loadFromEnv w config)), some (setDefaults (loadFromEnv w config)))

/-- The function `GetConfig`: the returned pointer (`none` is nil) and
`globalConfig` afterwards. -/
def GetConfig (w : World) (globalConfig : Option AppConfig) :
    Option AppConfig × Option AppConfig :=
  match globalConfig with
  | none =>
    match LoadConfig w "" none with
    | (.ok config, g) => (some config, g)
    | (.error _, g) => (none, g)
  | some config => (some config, some config)

/-- The value the environment supplies for an integer field: the variable is set,
non-empty and `strconv.Atoi` accepts it. -/
def envInt (w : World) (key : String) : Option Int :=
  if w.getenv key = "" then none else strconv.Atoi (w.getenv key)

/-- The value the environment supplies for a boolean field. -/
def envBool (w : World) (key : String) : Option Bool :=
  if w.getenv key = "" then none else strconv.ParseBool (w.getenv key)

/-- The value the environment supplies for a duration field. -/
def envDuration (w : World) (key : String) : Option Int :=
  if w.getenv key = "" then none else w.parseDuration (w.getenv key)

/-- Precedence for a text field, in the words of the specification: the environment
value if there is one, otherwise the file value if there is one, otherwise the
default; an empty string supplies nothing. -/
def pickString (env file dflt : String) : String :=
  if env ≠ "" then env else if file ≠ "" then file else dflt

/-- Precedence for a numeric field: a non-zero environment value, otherwise (when
the environment supplies nothing) a non-zero file value, otherwise the default.
A zero supplied by the environment selects the default, not the file value. -/
def pickInt (env : Option Int) (file dflt : Int) : Int :=
  match env with
  | some v => if v ≠ 0 then v else dflt
  | none => if file ≠ 0 then file else dflt

/-- The settings object the precedence rule prescribes, field by field, from the
environment, the settings read from the file and the compiled-in defaults (the zero
value for a field without one). -/
def precedenceConfig (w : World) (file : AppConfig) : AppConfig :=
  { Server := {
      Host := pickString (w.getenv "SERVER_HOST") file.Server.Host "0.0.0.0",
      Port := pickInt (envInt w "SERVER_PORT") file.Server.Port 5001,
      ReadTimeout := pickInt none file.Server.ReadTimeout (30 * time.Second),
      WriteTimeout := pickInt none file.Server.WriteTimeout (30 * time.Second),
      IdleTimeout := pickInt none file.Server.IdleTimeout (120 * time.Second),
      Environment := pickString (w.getenv "ENVIRONMENT") file.Server.Environment "development" },
    Database := {
      Driver := pickString (w.getenv "DB_DRIVER") file.Database.Driver "postgres",
      Host := pickString (w.getenv "DB_HOST") file.Database.Host "localhost",
      Port := pickInt (envInt w "DB_PORT") file.Database.Port 5432,
      User := pickString (w.getenv "DB_USER") file.Database.User "jiil",
      Password := pickString (w.getenv "DB_PASSWORD") file.Database.Password "juice",
      Database := pickString (w.getenv "DB_NAME") file.Database.Database "ecommerce",
      SSLMode := pickString (w.getenv "DB_SSLMODE") file.Database.SSLMode "disable",
      MaxOpenConns := pickInt (envInt w "DB_MAX_OPEN_CONNS") file.Database.MaxOpenConns 25,
      MaxIdleConns := pickInt (envInt w "DB_MAX_IDLE_CONNS") file.Database.MaxIdleConns 5,
      ConnMaxLifetime := pickInt none file.Database.ConnMaxLifetime (5 * time.Minute),
      ConnMaxIdleTime := pickInt none file.Database.ConnMaxIdleTime (1 * time.Minute) },
    Redis := {
      Host := pickString (w.getenv "REDIS_HOST") file.Redis.Host "localhost",
      Port := pickInt (envInt w "REDIS_PORT") file.Redis.Port 6379,
      Password := pickString (w.getenv "REDIS_PASSWORD") file.Redis.Password "",
      DB := pickInt (envInt w "REDIS_DB") file.Redis.DB 0 },
    JWT := {
      Secret := pickString (w.getenv "JWT_SECRET") file.JWT.Secret "your-secret-key",
      ExpiresIn := pickInt (envDuration w "JWT_EXPIRES_IN") file.JWT.ExpiresIn (24 * time.Hour),
      RefreshIn := pickInt (envDuration w "JWT_REFRESH_IN") file.JWT.RefreshIn (7 * 24 * time.Hour),
      Issuer := pickString (w.getenv "JWT_ISSUER") file.JWT.Issuer "ecommerce-api",
      Audience := pickString (w.getenv "JWT_AUDIENCE") file.JWT.Audience "ecommerce-client" },
    Stripe := {
      SecretKey := pickString (w.getenv "STRIPE_SECRET_KEY") file.Stripe.SecretKey "",
      WebhookSecret := pickString (w.getenv "STRIPE_WEBHOOK_SECRET") file.Stripe.WebhookSecret "",
      PublishableKey := pickString (w.getenv "STRIPE_PUBLISHABLE_KEY")
          file.Stripe.PublishableKey "" },
    Logging := {
      Level := pickString (w.getenv "LOG_LEVEL") file.Logging.Level "info",
      Format := pickString (w.getenv "LOG_FORMAT") file.Logging.Format "json",
      Output := pickString (w.getenv "LOG_OUTPUT") file.Logging.Output "stdout",
      Filename := pickString (w.getenv "LOG_FILENAME") file.Logging.Filename "",
      MaxSize := pickInt (envInt w "LOG_MAX_SIZE") file.Logging.MaxSize 0,
      MaxBackups := pickInt (envInt w "LOG_MAX_BACKUPS") file.Logging.MaxBackups 0,
      MaxAge := pickInt (envInt w "LOG_MAX_AGE") file.Logging.MaxAge 0,
      Compress := (envBool w "LOG_COMPRESS").getD file.Logging.Compress },
    Cache := {
      DefaultTTL := pickInt (envDuration w "CACHE_DEFAULT_TTL")
          file.Cache.DefaultTTL (1 * time.Hour),
      MaxSize := pickInt (envInt w "CACHE_MAX_SIZE") file.Cache.MaxSize 1000,
      CleanupInterval := pickInt (envDuration w "CACHE_CLEANUP_INTERVAL")
          file.Cache.CleanupInterval (10 * time.Minute) },
    Metrics := {
      Enabled := (envBool w "METRICS_ENABLED").getD file.Metrics.Enabled,
      Port := pickInt (envInt w "METRICS_PORT") file.Metrics.Port 9090,
      Path := pickString (w.getenv "METRICS_PATH") file.Metrics.Path "/metrics",
      Namespace := pickString (w.getenv "METRICS_NAMESPACE") file.Metrics.Namespace "ecommerce" } }

/-- Every field for which `setDefaults` has a default is non-empty / non-zero. -/
def DefaultedFieldsSet (c : AppConfig) : Prop :=
  c.Server.Host ≠ "" ∧
  c.Server.Port ≠ 0 ∧
  c.Server.ReadTimeout ≠ 0 ∧
  c.Server.WriteTimeout ≠ 0 ∧
  c.Server.IdleTimeout ≠ 0 ∧
  c.Server.Environment ≠ "" ∧
  c.Database.Driver ≠ "" ∧
  c.Database.Host ≠ "" ∧
  c.Database.Port ≠ 0 ∧
  c.Database.User ≠ "" ∧
  c.Database.Password ≠ "" ∧
  c.Database.Database ≠ "" ∧
  c.Database.SSLMode ≠ "" ∧
  c.Database.MaxOpenConns ≠ 0 ∧
  c.Database.MaxIdleConns ≠ 0 ∧
  c.Database.ConnMaxLifetime ≠ 0 ∧
  c.Database.ConnMaxIdleTime ≠ 0 ∧
  c.Redis.Host ≠ "" ∧
  c.Redis.Port ≠ 0 ∧
  c.JWT.Secret ≠ "" ∧
  c.JWT.ExpiresIn ≠ 0 ∧
  c.JWT.RefreshIn ≠ 0 ∧
  c.JWT.Issuer ≠ "" ∧
  c.JWT.Audience ≠ "" ∧
  c.Logging.Level ≠ "" ∧
  c.Logging.Format ≠ "" ∧
  c.Logging.Output ≠ "" ∧
  c.Cache.DefaultTTL ≠ 0 ∧
  c.Cache.MaxSize ≠ 0 ∧
  c.Cache.CleanupInterval ≠ 0 ∧
  c.Metrics.Port ≠ 0 ∧
  c.Metrics.Path ≠ "" ∧
  c.Metrics.Namespace ≠ ""

/-- The fields for which `setDefaults` has no default agree in `c` and `d`. -/
def OtherFieldsEqual (c d : AppConfig) : Prop :=
  d.Redis.Password = c.Redis.Password ∧
  d.Redis.DB = c.Redis.DB ∧
  d.Stripe.SecretKey = c.Stripe.SecretKey ∧
  d.Stripe.WebhookSecret = c.Stripe.WebhookSecret ∧
  d.Stripe.PublishableKey = c.Stripe.PublishableKey ∧
  d.Logging.Filename = c.Logging.Filename ∧
  d.Logging.MaxSize = c.Logging.MaxSize ∧
  d.Logging.MaxBackups = c.Logging.MaxBackups ∧
  d.Logging.MaxAge = c.Logging.MaxAge ∧
  d.Logging.Compress = c.Logging.Compress ∧
  d.Metrics.Enabled = c.Metrics.Enabled

/-- The variable is unset or empty. -/
def envBlank (w : World) (key : String) : Prop :=
  w.getenv key = ""

/-- The variable is unset, empty or not an integer. -/
def envBadInt (w : World) (key : String) : Prop :=
  w.getenv key = "" ∨ strconv.Atoi (w.getenv key) = none

/-- The variable is unset, empty or not a boolean. -/
def envBadBool (w : World) (key : String) : Prop :=
  w.getenv key = "" ∨ strconv.ParseBool (w.getenv key) = none

/-- The variable is unset, empty or not a duration. -/
def envBadDuration (w : World) (key : String) : Prop :=
  w.getenv key = "" ∨ w.parseDuration (w.getenv key) = none

/-- An environment with no variable set, no readable file and no duration syntax. -/
def emptyWorld : World :=
  { getenv := fun _ => "",
    readFile := fun _ => .error "open: no such file or directory",
    unmarshal := fun _ c => .ok c,
    parseDuration := fun _ => none }

/-- The empty environment with one variable set. -/
def worldWith (key value : String) : World :=
  { emptyWorld with getenv := fun k => if k = key then value else "" }

/-- A world whose configuration file parses to settings with server port 8080 and
whose environment sets `SERVER_PORT` to `0`. -/
def portWorld : World :=
  { getenv := fun k => if k = "SERVER_PORT" then "0" else "",
    readFile := fun _ => .ok "server port 8080",
    unmarshal := fun _ c => .ok { c with Server := { c.Server with Port := 8080 } },
    parseDuration := fun _ => none }

end Config

namespace Database

/-- The connection pool handle `*sql.DB`: what it was opened with and its limits. -/
structure Handle where
  driverName : String
  dsn : String
  maxOpenConns : Nat := 0
  maxIdleConns : Nat := 0
  deriving DecidableEq

/-- What `InitDatabase` reads from outside the program: the process environment
(`os.Getenv`), the error `sql.Open` returns for a driver and a data source name,
and the error `Ping` returns on a handle (`none` is nil). -/
structure World where
  getenv : String → String
  sqlOpen : String → String → Option String
  ping : Handle → Option String

/-- The outcome of `InitDatabase`: the returned error, the package variable `DB`
afterwards (`none` is nil) and the data source names passed to `sql.Open`. -/
structure InitResult where
  err : Option String
  DB : Option Handle
  opened : List String
  deriving DecidableEq

/-- The function `InitDatabase`, with the package variable `DB` passed in. -/
def InitDatabase (w : World) (DB : Option Handle) : InitResult :=
  let host := w.getenv "DB_HOST"
  let port := w.getenv "DB_PORT"
  let user := w.getenv "DB_USER"
  let password := w.getenv "DB_PASSWORD"
  let dbname := w.getenv "DB_NAME"
  let sslmode := w.getenv "DB_SSLMODE"
  if host = "" ∨ port = "" ∨ user = "" ∨ password = "" ∨ dbname = "" then
    { err := some ("missing required database environment variables: DB_HOST=" ++ host
        ++ ", DB_PORT=" ++ port ++ ", DB_USER=" ++ user ++ ", DB_PASSWORD=" ++ password
        ++ ", DB_NAME=" ++ dbname),
      DB := DB, opened := [] }
  else
    let dsn := "host=" ++ host ++ " port=" ++ port ++ " user=" ++ user ++ " password="
      ++ password ++ " dbname=" ++ dbname ++ " sslmode=" ++ sslmode
    match w.sqlOpen "postgres" dsn with
    | some e => { err := some ("failed to open database: " ++ e), DB := none, opened := [dsn] }
    | none =>
      match w.ping { driverName := "postgres", dsn := dsn } with
      | some e =>
        { err := some ("failed to ping database: " ++ e),
          DB := some { driverName := "postgres", dsn := dsn }, opened := [dsn] }
      | none =>
        { err := none,
          DB := some
            { driverName := "postgres", dsn := dsn, maxOpenConns := 25, maxIdleConns := 5 },
          opened := [dsn] }

/-- An environment with the given values of the six variables, on which `sql.Open`
and `Ping` succeed. -/
def envWorld (host port user password dbname sslmode : String) : World :=
  { getenv := fun k =>
      if k = "DB_HOST" then host else if k = "DB_PORT" then port
      else if k = "DB_USER" then user else if k = "DB_PASSWORD" then password
      else if k = "DB_NAME" then dbname else if k = "DB_SSLMODE" then sslmode else "",
    sqlOpen := fun _ _ => none,
    ping := fun _ => none }

end Database

namespace Seeds

/-- The `float64` operations the order seeder applies to prices, kept abstract:
the constant `0.0`, `+`, `price * float64(quantity)` and the test `price > 0`. -/
structure Arith (μ : Type) where
  zero : μ
  add : μ → μ → μ
  mulQty : μ → Nat → μ
  isPos : μ → Bool

/-- The steps of the order and the review seeder that a run records: the SQL
statements with their arguments, and `sleep`, a `time.Sleep` call of so many
milliseconds, recorded in its place among the statements. A `created_at` value is
recorded as the number of days subtracted from now; the order insert always passes
the total `0.0`. -/
inductive Stmt (μ : Type) where
  | sleep (ms : Nat)
  | selectUserIds
  | selectUsers
  | userExists (id : String)
  | regularUserExists (id : String)
  | selectProductsInStock
  | selectProducts
  | insertOrder (userID status shipping billing : String) (daysAgo : Nat)
  | insertOrderItem (orderID productID : String) (quantity : Nat) (price : μ) (daysAgo : Nat)
  | updateOrderTotal (total : μ) (orderID : String)
  | deleteOrder (orderID : String)
  | insertReview (userID productID : String) (rating : Nat) (comment : String) (daysAgo : Nat)
  deriving DecidableEq

/-- A statement issued to the database: whether the call returned no error, and
the id it returned (for the order insert). -/
structure Event (μ : Type) where
  stmt : Stmt μ
  ok : Bool
  id : String := ""
  deriving DecidableEq

/-- The behaviour of the database behind `*sql.DB`, over its state `σ`: the four
row queries (a row is what `Scan` yields for it, or the scan error), `QueryRow`
with a boolean or an id scanned, and `Exec` (`none` is a nil error). -/
structure Database (σ μ : Type) where
  queryUserIds : σ → σ × Except String (List (Except String String))
  queryUsers : σ → σ × Except String (List (Except String (String × String)))
  queryProductsInStock : σ → σ × Except String (List (Except String (String × μ)))
  queryProducts : σ → σ × Except String (List (Except String (String × String)))
  queryRowBool : Stmt μ → σ → σ × Except String Bool
  queryRowId : Stmt μ → σ → σ × Except String String
  exec : Stmt μ → σ → σ × Option String

/-- What a seed unit threads through its run: the database state, the number of
`rand.Intn` calls made, the statements issued with the `time.Sleep` calls between
them, in order, and the durations slept (in milliseconds). Output to stdout is not
modelled. -/
structure SeedState (σ μ : Type) where
  db : σ
  calls : Nat
  events : List (Event μ)
  sleeps : List Nat

/-- What `Seed` returns, with the state it leaves and its final counter
(`successCount` of the order seeder, `totalReviews` of the review seeder). -/
structure SeedResult (σ μ : Type) where
  err : Option String
  st : SeedState σ μ
  count : Nat

/-- The call `rand.Intn(n)` on the random source `src`, the sequence of raw values
the generator yields; the source seeds it from the clock, so `src` is arbitrary. -/
def Intn {σ μ : Type} (src : Nat → Nat) (n : Nat) (st : SeedState σ μ) :
    Nat × SeedState σ μ :=
  (src st.calls % n, { st with calls := st.calls + 1 })

/-- The call `time.Sleep(ms * time.Millisecond)`: recorded among the statements,
where it happens, and in the list of sleeps. -/
def sleep {σ μ : Type} (ms : Nat) (st : SeedState σ μ) : SeedState σ μ :=
  { st with events := st.events ++ [{ stmt := .sleep ms, ok := true }],
            sleeps := st.sleeps ++ [ms] }

/-- A result without error. -/
def isOk {α : Type} : Except String α → Bool
  | .ok _ => true
  | .error _ => false

/-- The test `err == nil && exists` on the result of an existence query. -/
def existsTrue : Except String Bool → Bool
  | .ok true => true
  | _ => false

/-- The call `db.QueryRow(stmt).Scan(&b)` for a boolean. -/
def queryRowBool {σ μ : Type} (db : Database σ μ) (stmt : Stmt μ) (st : SeedState σ μ) :
    Except String Bool × SeedState σ μ :=
  let r := db.queryRowBool stmt st.db
  (r.2, { st with db := r.1, events := st.events ++ [{ stmt := stmt, ok := isOk r.2 }] })

/-- The id a successful `QueryRow(...).Scan(&id)` stored, the empty string otherwise. -/
def scannedId : Except String String → String
  | .ok id => id
  | .error _ => ""

/-- The call `db.QueryRow(stmt).Scan(&id)` for a returned id. -/
def queryRowId {σ μ : Type} (db : Database σ μ) (stmt : Stmt μ) (st : SeedState σ μ) :
    Except String String × SeedState σ μ :=
  let r := db.queryRowId stmt st.db
  (r.2, { st with db := r.1,
                  events := st.events ++ [{ stmt := stmt, ok := isOk r.2, id := scannedId r.2 }] })

/-- The call `db.Exec(stmt)`; the returned value is the error. -/
def exec {σ μ : Type} (db : Database σ μ) (stmt : Stmt μ) (st : SeedState σ μ) :
    Option String × SeedState σ μ :=
  let r := db.exec stmt st.db
  (r.2, { st with db := r.1, events := st.events ++ [{ stmt := stmt, ok := r.2.isNone }] })

/-- The element type of the order seeder's user list. -/
structure OrderUser where
  ID : String
  deriving DecidableEq

/-- The element type of the order seeder's product list. -/
structure OrderProduct (μ : Type) where
  ID : String
  Price : μ

/-- The local variables of the order-items loop. -/
structure ItemsState (μ : Type) where
  usedProducts : List String
  itemsAdded : Nat
  total : μ

namespace OrderSeeder

/-- The constant `maxRetries` of `getRegularUsers`. -/
def maxRetries : Nat := 3

/-- The constant `maxAttempts` of the product pick. -/
def maxAttempts : Nat := 20

/-- The slice `orderStatuses`. -/
def orderStatuses : List String :=
  ["pending", "processing", "shipped", "delivered", "cancelled"]

/-- The slice `addresses` of `generateAddress`. -/
def addresses : List String :=
  [ "\x7b\"street\": \"123 Main St\", \"city\": \"New York\", \"state\": \"NY\", \"zip\": \"10001\", \"country\": \"USA\"\x7d",
    "\x7b\"street\": \"456 Oak Ave\", \"city\": \"Los Angeles\", \"state\": \"CA\", \"zip\": \"90210\", \"country\": \"USA\"\x7d",
    "\x7b\"street\": \"789 Pine Rd\", \"city\": \"Chicago\", \"state\": \"IL\", \"zip\": \"60601\", \"country\": \"USA\"\x7d",
    "\x7b\"street\": \"321 Elm St\", \"city\": \"Houston\", \"state\": \"TX\", \"zip\": \"77001\", \"country\": \"USA\"\x7d",
    "\x7b\"street\": \"654 Maple Dr\", \"city\": \"Phoenix\", \"state\": \"AZ\", \"zip\": \"85001\", \"country\": \"USA\"\x7d",
    "\x7b\"street\": \"987 Cedar Ln\", \"city\": \"Philadelphia\", \"state\": \"PA\", \"zip\": \"19101\", \"country\": \"USA\"\x7d",
    "\x7b\"street\": \"147 Birch Way\", \"city\": \"San Antonio\", \"state\": \"TX\", \"zip\": \"78201\", \"country\": \"USA\"\x7d",
    "\x7b\"street\": \"258 Spruce St\", \"city\": \"San Diego\", \"state\": \"CA\", \"zip\": \"92101\", \"country\": \"USA\"\x7d",
    "\x7b\"street\": \"369 Willow Ave\", \"city\": \"Dallas\", \"state\": \"TX\", \"zip\": \"75201\", \"country\": \"USA\"\x7d",
    "\x7b\"street\": \"741 Poplar Rd\", \"city\": \"San Jose\", \"state\": \"CA\", \"zip\": \"95101\", \"country\": \"USA\"\x7d",
    "\x7b\"street\": \"852 Beach Blvd\", \"city\": \"Miami\", \"state\": \"FL\", \"zip\": \"33101\", \"country\": \"USA\"\x7d",
    "\x7b\"street\": \"963 Mountain Rd\", \"city\": \"Denver\", \"state\": \"CO\", \"zip\": \"80201\", \"country\": \"USA\"\x7d",
    "\x7b\"street\": \"159 Lake Dr\", \"city\": \"Seattle\", \"state\": \"WA\", \"zip\": \"98101\", \"country\": \"USA\"\x7d",
    "\x7b\"street\": \"753 Park Ave\", \"city\": \"Boston\", \"state\": \"MA\", \"zip\": \"02101\", \"country\": \"USA\"\x7d",
    "\x7b\"street\": \"951 Broadway\", \"city\": \"Nashville\", \"state\": \"TN\", \"zip\": \"37201\", \"country\": \"USA\"\x7d" ]

/-- The function `generateAddress`. -/
def generateAddress {σ μ : Type} (src : Nat → Nat) (st : SeedState σ μ) :
    String × SeedState σ μ :=
  let r := Intn src addresses.length st
  (addresses.getD r.1 "", r.2)

/-- The call `db.Query` of `getRegularUsers`. -/
def queryUserIds {σ μ : Type} (db : Database σ μ) (st : SeedState σ μ) :
    Except String (List (Except String String)) × SeedState σ μ :=
  let r := db.queryUserIds st.db
  (r.2, { st with db := r.1,
                  events := st.events ++ [{ stmt := .selectUserIds, ok := isOk r.2 }] })

/-- The loop `for rows.Next()` of `getRegularUsers`: a row that does not scan is
skipped, a row with a non-empty id is kept when the existence query says so. -/
def scanUsers {σ μ : Type} (db : Database σ μ) :
    List (Except String String) → List OrderUser → SeedState σ μ →
      List OrderUser × SeedState σ μ
  | [], users, st => (users, st)
  | .error _ :: rows, users, st => scanUsers db rows users st
  | .ok id :: rows, users, st =>
    if id ≠ "" then
      let c := queryRowBool db (.userExists id) st
      if existsTrue c.1 then scanUsers db rows (users ++ [{ ID := id }]) c.2
      else scanUsers db rows users c.2
    else scanUsers db rows users st

/-- The loop `for retry := ...; retry < maxRetries; retry++` of `getRegularUsers`,
entered at `retry` with the variables `users` and `err` of the function; `fuel`
bounds the iterations still to run. The error of a failed query lives in a variable
of the loop body and never reaches `err`. -/
def retryLoop {σ μ : Type} (db : Database σ μ) :
    Nat → Nat → List OrderUser → Option String → SeedState σ μ →
      (List OrderUser × Option String) × SeedState σ μ
  | 0, _, users, err, st => ((users, err), st)
  | fuel + 1, retry, users, err, st =>
    if retry < maxRetries then
      let q := queryUserIds db (if retry > 0 then sleep ((retry + 1) * 500) st else st)
      match q.1 with
      | .error _ => retryLoop db fuel (retry + 1) users err q.2
      | .ok rows =>
        let r := scanUsers db rows [] q.2
        if r.1.length > 0 then ((r.1, err), r.2)
        else retryLoop db fuel (retry + 1) r.1 err r.2
    else ((users, err), st)

/-- The method `OrderSeeder.getRegularUsers`: the returned users and error. -/
def getRegularUsers {σ μ : Type} (db : Database σ μ) (st : SeedState σ μ) :
    (List OrderUser × Option String) × SeedState σ μ :=
  retryLoop db maxRetries 0 [] none (sleep 500 st)

/-- The loop `for rows.Next()` of `getProducts`: a scan error ends the function,
a row is kept when its id is non-empty and its price positive. -/
def scanProducts {μ : Type} (ar : Arith μ) :
    List (Except String (String × μ)) → List (OrderProduct μ) →
      Except String (List (OrderProduct μ))
  | [], products => .ok products
  | .error e :: _, _ => .error e
  | .ok row :: rows, products =>
    if row.1 ≠ "" ∧ ar.isPos row.2 = true then
      scanProducts ar rows (products ++ [{ ID := row.1, Price := row.2 }])
    else scanProducts ar rows products

/-- The method `OrderSeeder.getProducts`. -/
def getProducts {σ μ : Type} (ar : Arith μ) (db : Database σ μ) (st : SeedState σ μ) :
    Except String (List (OrderProduct μ)) × SeedState σ μ :=
  let r := db.queryProductsInStock st.db
  match r.2 with
  | .error e =>
    (.error e, { st with db := r.1,
                         events := st.events ++ [{ stmt := .selectProductsInStock, ok := false }] })
  | .ok rows =>
    (scanProducts ar rows [],
      { st with db := r.1,
                events := st.events ++ [{ stmt := .selectProductsInStock, ok := true }] })

/-- The loop `for attempts < maxAttempts` that picks a product not yet used in
the order: the product last picked and whether it was unused. -/
def pickLoop {σ μ : Type} (src : Nat → Nat) (products : List (OrderProduct μ))
    (usedProducts : List String) :
    Nat → Nat → OrderProduct μ → SeedState σ μ → (OrderProduct μ × Bool) × SeedState σ μ
  | 0, _, product, st => ((product, false), st)
  | fuel + 1, attempts, product, st =>
    if attempts < maxAttempts then
      let r := Intn src products.length st
      let picked := products.getD r.1 product
      if picked.ID ∉ usedProducts then ((picked, true), r.2)
      else pickLoop src products usedProducts fuel (attempts + 1) picked r.2
    else ((product, false), st)

/-- The product an iteration of the items loop settles on: the unused one found,
or any product after twenty used picks. -/
def pickProduct {σ μ : Type} (ar : Arith μ) (src : Nat → Nat)
    (products : List (OrderProduct μ)) (usedProducts : List String) (st : SeedState σ μ) :
    OrderProduct μ × SeedState σ μ :=
  let p := pickLoop src products usedProducts maxAttempts 0 { ID := "", Price := ar.zero } st
  if p.1.2 then (p.1.1, p.2)
  else
    let r := Intn src products.length p.2
    (products.getD r.1 p.1.1, r.2)

/-- The rest of an iteration of the items loop once the product is settled: mark
it used, draw the quantity, add to the total, insert the order line. -/
def addItem {σ μ : Type} (ar : Arith μ) (db : Database σ μ) (src : Nat → Nat)
    (orderID : String) (daysAgo : Nat) (product : OrderProduct μ) (items : ItemsState μ)
    (st : SeedState σ μ) : ItemsState μ × SeedState σ μ :=
  let q := Intn src 3 st
  let quantity := 1 + q.1
  let total := ar.add items.total (ar.mulQty product.Price quantity)
  let e := exec db (.insertOrderItem orderID product.ID quantity product.Price daysAgo) q.2
  match e.1 with
  | some _ =>
    ({ usedProducts := product.ID :: items.usedProducts, itemsAdded := items.itemsAdded,
       total := total }, e.2)
  | none =>
    ({ usedProducts := product.ID :: items.usedProducts, itemsAdded := items.itemsAdded + 1,
       total := total }, e.2)

/-- The loop `for j := 0; j < numItems; j++`, with the number of iterations left. -/
def itemsLoop {σ μ : Type} (ar : Arith μ) (db : Database σ μ) (src : Nat → Nat)
    (products : List (OrderProduct μ)) (orderID : String) (daysAgo : Nat) :
    Nat → ItemsState μ → SeedState σ μ → ItemsState μ × SeedState σ μ
  | 0, items, st => (items, st)
  | n + 1, items, st =>
    let p := pickProduct ar src products items.usedProducts st
    let a := addItem ar db src orderID daysAgo p.1 items p.2
    itemsLoop ar db src products orderID daysAgo n a.1 a.2

/-- The end of an iteration of the orders loop: persist the total and count the
order when a line was added, delete the order otherwise. -/
def finishOrder {σ μ : Type} (db : Database σ μ) (orderID : String) (items : ItemsState μ)
    (successCount : Nat) (st : SeedState σ μ) : Nat × SeedState σ μ :=
  if items.itemsAdded > 0 then
    let u := exec db (.updateOrderTotal items.total orderID) st
    match u.1 with
    | some _ => (successCount, u.2)
    | none => (successCount + 1, u.2)
  else (successCount, (exec db (.deleteOrder orderID) st).2)

/-- An iteration of the orders loop from the order insert on, the user, the number
of items, the status and the date being drawn. -/
def createOrder {σ μ : Type} (ar : Arith μ) (db : Database σ μ) (src : Nat → Nat)
    (products : List (OrderProduct μ)) (userID : String) (numItems : Nat) (status : String)
    (daysAgo : Nat) (successCount : Nat) (st : SeedState σ μ) : Nat × SeedState σ μ :=
  let shipping := generateAddress src st
  let billing := generateAddress src shipping.2
  let ins := queryRowId db (.insertOrder userID status shipping.1 billing.1 daysAgo) billing.2
  match ins.1 with
  | .error _ => (successCount, ins.2)
  | .ok orderID =>
    let items := itemsLoop ar db src products orderID daysAgo numItems
      { usedProducts := [], itemsAdded := 0, total := ar.zero } ins.2
    finishOrder db orderID items.1 successCount items.2

/-- The body of the loop `for i := 0; i < numOrders; i++`. -/
def orderBody {σ μ : Type} (ar : Arith μ) (db : Database σ μ) (src : Nat → Nat)
    (users : List OrderUser) (products : List (OrderProduct μ)) (successCount : Nat)
    (st : SeedState σ μ) : Nat × SeedState σ μ :=
  let u := Intn src users.length st
  let user := users.getD u.1 { ID := "" }
  let c := queryRowBool db (.regularUserExists user.ID) u.2
  if existsTrue c.1 then
    let n := Intn src 5 c.2
    let s := Intn src orderStatuses.length n.2
    let d := Intn src 180 s.2
    createOrder ar db src products user.ID (1 + n.1) (orderStatuses.getD s.1 "") d.1
      successCount d.2
  else (successCount, c.2)

/-- The loop `for i := 0; i < numOrders; i++`, with the number of iterations left. -/
def ordersLoop {σ μ : Type} (ar : Arith μ) (db : Database σ μ) (src : Nat → Nat)
    (users : List OrderUser) (products : List (OrderProduct μ)) :
    Nat → Nat → SeedState σ μ → Nat × SeedState σ μ
  | 0, successCount, st => (successCount, st)
  | n + 1, successCount, st =>
    let b := orderBody ar db src users products successCount st
    ordersLoop ar db src users products n b.1 b.2

/-- The method `OrderSeeder.Seed`. -/
def Seed {σ μ : Type} (ar : Arith μ) (db : Database σ μ) (src : Nat → Nat)
    (st : SeedState σ μ) : SeedResult σ μ :=
  let g := getRegularUsers db st
  match g.1.2 with
  | some e => { err := some ("failed to get users: " ++ e), st := g.2, count := 0 }
  | none =>
    if g.1.1.length = 0 then
      { err := some "no regular users found for seeding orders", st := g.2, count := 0 }
    else
      let p := getProducts ar db g.2
      match p.1 with
      | .error e => { err := some ("failed to get products: " ++ e), st := p.2, count := 0 }
      | .ok products =>
        if products.length = 0 then
          { err := some "no products found for seeding orders", st := p.2, count := 0 }
        else
          let n := Intn src 51 p.2
          let r := ordersLoop ar db src g.1.1 products (50 + n.1) 0 n.2
          { err := none, st := r.2, count := r.1 }

end OrderSeeder

/-- The element type of the review seeder's user list. -/
structure ReviewUser where
  ID : String
  Name : String
  deriving DecidableEq

/-- The element type of the review seeder's product list. -/
structure ReviewProduct where
  ID : String
  Name : String
  deriving DecidableEq

/-- The local variables of the reviews loop of one product. -/
structure ReviewsState where
  usedUsers : List String
  reviewsAdded : Nat

namespace ReviewSeeder

/-- The constant `maxRetries` of `getRegularUsers`. -/
def maxRetries : Nat := 3

/-- The constant `maxAttempts` of the user pick. -/
def maxAttempts : Nat := 30

/-- The map `comments` of `generateComment`; a rating without entry reads as the
empty slice. -/
def comments : Nat → List String
  | 5 =>
    [ "Excellent product! Highly recommend it.",
      "Amazing quality and fast delivery.",
      "Perfect! Exactly what I was looking for.",
      "Outstanding product, will definitely buy again.",
      "Love it! Great value for money.",
      "Fantastic quality and great customer service.",
      "Best purchase I\x27ve made in a while!",
      "Absolutely perfect, exceeded my expectations.",
      "Wonderful product, very satisfied!",
      "Top quality, highly recommended!",
      "This product is amazing! Worth every penny.",
      "Exceeded all my expectations. 5 stars!",
      "Perfect in every way. So happy with this purchase." ]
  | 4 =>
    [ "Very good product, minor issues but overall satisfied.",
      "Good quality, would recommend with minor reservations.",
      "Nice product, works as expected.",
      "Pretty good, meets most of my needs.",
      "Solid product, good value.",
      "Good quality, fast shipping.",
      "Works well, happy with the purchase.",
      "Nice product, minor improvements could be made.",
      "Good overall, would buy again.",
      "Quality product, satisfied with purchase.",
      "Very good, but could use some improvements.",
      "Solid product for the price. Happy with it." ]
  | 3 =>
    [ "Average product, nothing special.",
      "Okay quality, could be better.",
      "Decent product, meets basic needs.",
      "Average experience, neither good nor bad.",
      "Fair quality, works but has room for improvement.",
      "Okay for the price, nothing exceptional.",
      "Average product, does the job.",
      "Decent quality, could be improved.",
      "Fair value, meets expectations.",
      "Average product, works as described.",
      "Nothing special, but does what it\x27s supposed to.",
      "Mediocre quality. Expected better for the price." ]
  | 2 =>
    [ "Below average quality, not what I expected.",
      "Disappointed with the quality.",
      "Poor build quality, doesn\x27t last long.",
      "Not worth the money, quality issues.",
      "Below expectations, has several problems.",
      "Poor quality control, defective item.",
      "Not satisfied, quality is lacking.",
      "Disappointing purchase, wouldn\x27t recommend.",
      "Poor value for money.",
      "Quality issues, not as described.",
      "Had high hopes but was let down.",
      "Would not buy again. Too many issues." ]
  | 1 =>
    [ "Terrible product, complete waste of money.",
      "Worst purchase ever, avoid this product.",
      "Completely broken upon arrival.",
      "Poor quality, doesn\x27t work at all.",
      "Waste of money, very disappointed.",
      "Defective product, terrible experience.",
      "Awful quality, would not recommend.",
      "Complete failure, avoid at all costs.",
      "Terrible experience, poor customer service.",
      "Worst product I\x27ve ever bought.",
      "Absolute garbage. Want my money back.",
      "Stay away from this product. Complete disappointment." ]
  | _ => []

/-- The function `generateComment`. -/
def generateComment {σ μ : Type} (src : Nat → Nat) (rating : Nat) (_productName : String)
    (st : SeedState σ μ) : String × SeedState σ μ :=
  let commentList := comments rating
  if commentList.length = 0 then ("No comment provided.", st)
  else
    let r := Intn src commentList.length st
    (commentList.getD r.1 "", r.2)

/-- The call `db.Query` of `getRegularUsers`. -/
def queryUsers {σ μ : Type} (db : Database σ μ) (st : SeedState σ μ) :
    Except String (List (Except String (String × String))) × SeedState σ μ :=
  let r := db.queryUsers st.db
  (r.2, { st with db := r.1,
                  events := st.events ++ [{ stmt := .selectUsers, ok := isOk r.2 }] })

/-- The loop `for rows.Next()` of `getRegularUsers`. -/
def scanUsers {σ μ : Type} (db : Database σ μ) :
    List (Except String (String × String)) → List ReviewUser → SeedState σ μ →
      List ReviewUser × SeedState σ μ
  | [], users, st => (users, st)
  | .error _ :: rows, users, st => scanUsers db rows users st
  | .ok row :: rows, users, st =>
    if row.1 ≠ "" then
      let c := queryRowBool db (.userExists row.1) st
      if existsTrue c.1 then scanUsers db rows (users ++ [{ ID := row.1, Name := row.2 }]) c.2
      else scanUsers db rows users c.2
    else scanUsers db rows users st

/-- The loop `for retry := ...; retry < maxRetries; retry++` of `getRegularUsers`,
entered at `retry` with the variable `users`; `fuel` bounds the iterations still
to run. -/
def retryLoop {σ μ : Type} (db : Database σ μ) :
    Nat → Nat → List ReviewUser → SeedState σ μ → List ReviewUser × SeedState σ μ
  | 0, _, users, st => (users, st)
  | fuel + 1, retry, users, st =>
    if retry < maxRetries then
      let q := queryUsers db (if retry > 0 then sleep ((retry + 1) * 500) st else st)
      match q.1 with
      | .error _ => retryLoop db fuel (retry + 1) users q.2
      | .ok rows =>
        let r := scanUsers db rows [] q.2
        if r.1.length > 0 then (r.1, r.2)
        else retryLoop db fuel (retry + 1) r.1 r.2
    else (users, st)

/-- The method `ReviewSeeder.getRegularUsers`. -/
def getRegularUsers {σ μ : Type} (db : Database σ μ) (st : SeedState σ μ) :
    Except String (List ReviewUser) × SeedState σ μ :=
  let r := retryLoop db maxRetries 0 [] (sleep 500 st)
  if r.1.length = 0 then
    (.error ("no regular users found after " ++ toString maxRetries ++ " retries"), r.2)
  else (.ok r.1, r.2)

/-- The loop `for rows.Next()` of `getProducts`: a scan error ends the function,
a row is kept when its id and its name are non-empty. -/
def scanProducts :
    List (Except String (String × String)) → List ReviewProduct →
      Except String (List ReviewProduct)
  | [], products => .ok products
  | .error e :: _, _ => .error e
  | .ok row :: rows, products =>
    if row.1 ≠ "" ∧ row.2 ≠ "" then
      scanProducts rows (products ++ [{ ID := row.1, Name := row.2 }])
    else scanProducts rows products

/-- The method `ReviewSeeder.getProducts`. -/
def getProducts {σ μ : Type} (db : Database σ μ) (st : SeedState σ μ) :
    Except String (List ReviewProduct) × SeedState σ μ :=
  let r := db.queryProducts st.db
  match r.2 with
  | .error e =>
    (.error e, { st with db := r.1,
                         events := st.events ++ [{ stmt := .selectProducts, ok := false }] })
  | .ok rows =>
    (scanProducts rows [],
      { st with db := r.1, events := st.events ++ [{ stmt := .selectProducts, ok := true }] })

/-- The loop `for attempts < maxAttempts` that picks a user who has not yet
reviewed the product: the user last picked and whether one was found. -/
def pickLoop {σ μ : Type} (src : Nat → Nat) (users : List ReviewUser)
    (usedUsers : List String) :
    Nat → Nat → ReviewUser → SeedState σ μ → (ReviewUser × Bool) × SeedState σ μ
  | 0, _, user, st => ((user, false), st)
  | fuel + 1, attempts, user, st =>
    if attempts < maxAttempts then
      let r := Intn src users.length st
      let picked := users.getD r.1 user
      if picked.ID ∉ usedUsers then ((picked, true), r.2)
      else pickLoop src users usedUsers fuel (attempts + 1) picked r.2
    else ((user, false), st)

/-- The body of the loop `for i := 0; i < numReviews; i++`. -/
def reviewBody {σ μ : Type} (db : Database σ μ) (src : Nat → Nat) (users : List ReviewUser)
    (product : ReviewProduct) (rs : ReviewsState) (st : SeedState σ μ) :
    ReviewsState × SeedState σ μ :=
  let p := pickLoop src users rs.usedUsers maxAttempts 0 { ID := "", Name := "" } st
  if p.1.2 then
    let user := p.1.1
    let c := queryRowBool db (.userExists user.ID) p.2
    if existsTrue c.1 then
      let rt := Intn src 5 c.2
      let cm := generateComment src (1 + rt.1) product.Name rt.2
      let d := Intn src 90 cm.2
      let e := exec db (.insertReview user.ID product.ID (1 + rt.1) cm.1 d.1) d.2
      match e.1 with
      | some _ => ({ usedUsers := user.ID :: rs.usedUsers, reviewsAdded := rs.reviewsAdded }, e.2)
      | none =>
        ({ usedUsers := user.ID :: rs.usedUsers, reviewsAdded := rs.reviewsAdded + 1 }, e.2)
    else ({ usedUsers := user.ID :: rs.usedUsers, reviewsAdded := rs.reviewsAdded }, c.2)
  else (rs, p.2)

/-- The loop `for i := 0; i < numReviews; i++`, with the number of iterations left. -/
def reviewsLoop {σ μ : Type} (db : Database σ μ) (src : Nat → Nat) (users : List ReviewUser)
    (product : ReviewProduct) :
    Nat → ReviewsState → SeedState σ μ → ReviewsState × SeedState σ μ
  | 0, rs, st => (rs, st)
  | n + 1, rs, st =>
    let b := reviewBody db src users product rs st
    reviewsLoop db src users product n b.1 b.2

/-- The body of the loop `for _, product := range products`. -/
def productBody {σ μ : Type} (db : Database σ μ) (src : Nat → Nat) (users : List ReviewUser)
    (product : ReviewProduct) (totalReviews : Nat) (st : SeedState σ μ) :
    Nat × SeedState σ μ :=
  let n := Intn src 16 st
  if n.1 = 0 then (totalReviews, n.2)
  else
    let r := reviewsLoop db src users product n.1 { usedUsers := [], reviewsAdded := 0 } n.2
    if r.1.reviewsAdded > 0 then (totalReviews + r.1.reviewsAdded, r.2)
    else (totalReviews, r.2)

/-- The loop `for _, product := range products`. -/
def productsLoop {σ μ : Type} (db : Database σ μ) (src : Nat → Nat) (users : List ReviewUser) :
    List ReviewProduct → Nat → SeedState σ μ → Nat × SeedState σ μ
  | [], totalReviews, st => (totalReviews, st)
  | product :: rest, totalReviews, st =>
    let b := productBody db src users product totalReviews st
    productsLoop db src users rest b.1 b.2

/-- The method `ReviewSeeder.Seed`. -/
def Seed {σ μ : Type} (db : Database σ μ) (src : Nat → Nat) (st : SeedState σ μ) :
    SeedResult σ μ :=
  let g := getRegularUsers db st
  match g.1 with
  | .error e => { err := some ("failed to get users: " ++ e), st := g.2, count := 0 }
  | .ok users =>
    if users.length = 0 then
      { err := some "no regular users found for seeding reviews", st := g.2, count := 0 }
    else
      let p := getProducts db g.2
      match p.1 with
      | .error e => { err := some ("failed to get products: " ++ e), st := p.2, count := 0 }
      | .ok products =>
        if products.length = 0 then
          { err := some "no products found for seeding reviews", st := p.2, count := 0 }
        else
          let r := productsLoop db src users products 0 p.2
          { err := none, st := r.2, count := r.1 }

end ReviewSeeder

/-- Integer prices: on integral values of this size `float64` arithmetic is exact. -/
def intArith : Arith Int :=
  { zero := 0, add := fun a b => a + b, mulQty := fun p q => p * q, isPos := fun p => decide (p > 0) }

/-- The state a seed unit starts from on the database state `s`. -/
def freshState {σ μ : Type} (s : σ) : SeedState σ μ :=
  { db := s, calls := 0, events := [], sleeps := [] }

/-- A database with one user and one product in which only the first order passes
the user check and the first order line insert fails; its state counts the user
checks and the order line inserts made. -/
def flakyDB : Database (Nat × Nat) Int :=
  { queryUserIds := fun s => (s, .ok [.ok "u1"]),
    queryUsers := fun s => (s, .ok [.ok ("u1", "Ann")]),
    queryProductsInStock := fun s => (s, .ok [.ok ("p1", 10)]),
    queryProducts := fun s => (s, .ok [.ok ("p1", "Lamp")]),
    queryRowBool := fun stmt s =>
      match stmt with
      | .regularUserExists _ => ((s.1 + 1, s.2), .ok (decide (s.1 = 0)))
      | _ => (s, .ok true),
    queryRowId := fun _ s => (s, .ok "o1"),
    exec := fun stmt s =>
      match stmt with
      | .insertOrderItem _ _ _ _ _ => ((s.1, s.2 + 1), if s.2 = 0 then some "insert failed" else none)
      | _ => (s, none) }

/-- A random source whose third value is 1 and every other value 0. -/
def twoItemsSrc : Nat → Nat :=
  fun k => if k = 2 then 1 else 0

/-- Whether the statement is an insert of an order line. -/
def isLineInsert {μ : Type} : Stmt μ → Bool
  | .insertOrderItem _ _ _ _ _ => true
  | _ => false

/-- Whether the statement is the update of an order total. -/
def isTotalUpdate {μ : Type} : Stmt μ → Bool
  | .updateOrderTotal _ _ => true
  | _ => false

/-- Whether the statement is one of the three inserts. -/
def isInsert {μ : Type} : Stmt μ → Bool
  | .insertOrder _ _ _ _ _ => true
  | .insertOrderItem _ _ _ _ _ => true
  | .insertReview _ _ _ _ _ => true
  | _ => false

/-- Whether the statement is one of the two user-list queries of `getRegularUsers`. -/
def isUserQuery {μ : Type} : Stmt μ → Bool
  | .selectUserIds => true
  | .selectUsers => true
  | _ => false

/-- Whether the statement is a user existence query. -/
def isUserCheck {μ : Type} : Stmt μ → Bool
  | .userExists _ => true
  | _ => false

/-- One attempt of `OrderSeeder.getRegularUsers`: the user-list query and the scan
of its rows; no users when the query fails. -/
def OrderSeeder.attempt {σ μ : Type} (db : Database σ μ) (st : SeedState σ μ) :
    List OrderUser × SeedState σ μ :=
  match (OrderSeeder.queryUserIds db st).1 with
  | .error _ => ([], (OrderSeeder.queryUserIds db st).2)
  | .ok rows => OrderSeeder.scanUsers db rows [] (OrderSeeder.queryUserIds db st).2

/-- One attempt of `ReviewSeeder.getRegularUsers`. -/
def ReviewSeeder.attempt {σ μ : Type} (db : Database σ μ) (st : SeedState σ μ) :
    List ReviewUser × SeedState σ μ :=
  match (ReviewSeeder.queryUsers db st).1 with
  | .error _ => ([], (ReviewSeeder.queryUsers db st).2)
  | .ok rows => ReviewSeeder.scanUsers db rows [] (ReviewSeeder.queryUsers db st).2

/-- The attempts of `OrderSeeder.getRegularUsers` in the words of the retry rule:
sleep 500 ms and try; if that yields no users sleep 1000 ms and try again; if that
yields none either sleep 1500 ms and try a last time. -/
def OrderSeeder.threeAttempts {σ μ : Type} (db : Database σ μ) (st : SeedState σ μ) :
    List OrderUser × SeedState σ μ :=
  if (OrderSeeder.attempt db (sleep 500 st)).1.length > 0 then
    OrderSeeder.attempt db (sleep 500 st)
  else if (OrderSeeder.attempt db
      (sleep 1000 (OrderSeeder.attempt db (sleep 500 st)).2)).1.length > 0 then
    OrderSeeder.attempt db (sleep 1000 (OrderSeeder.attempt db (sleep 500 st)).2)
  else
    OrderSeeder.attempt db
      (sleep 1500 (OrderSeeder.attempt db
        (sleep 1000 (OrderSeeder.attempt db (sleep 500 st)).2)).2)

/-- The attempts of `ReviewSeeder.getRegularUsers`, by the same rule. -/
def ReviewSeeder.threeAttempts {σ μ : Type} (db : Database σ μ) (st : SeedState σ μ) :
    List ReviewUser × SeedState σ μ :=
  if (ReviewSeeder.attempt db (sleep 500 st)).1.length > 0 then
    ReviewSeeder.attempt db (sleep 500 st)
  else if (ReviewSeeder.attempt db
      (sleep 1000 (ReviewSeeder.attempt db (sleep 500 st)).2)).1.length > 0 then
    ReviewSeeder.attempt db (sleep 1000 (ReviewSeeder.attempt db (sleep 500 st)).2)
  else
    ReviewSeeder.attempt db
      (sleep 1500 (ReviewSeeder.attempt db
        (sleep 1000 (ReviewSeeder.attempt db (sleep 500 st)).2)).2)

/-- Whether the step is a sleep. -/
def isSleep {μ : Type} : Stmt μ → Bool
  | .sleep _ => true
  | _ => false

/-- The steps of one attempt of the retry rule: a sleep of `ms` milliseconds, then
the user-list query, then user existence queries only. -/
def AttemptBlock {μ : Type} (ms : Nat) (block : List (Event μ)) : Prop :=
  ∃ q checks, block = { stmt := .sleep ms, ok := true } :: q :: checks ∧
    isUserQuery q.stmt = true ∧ ∀ e ∈ checks, isUserCheck e.stmt = true

/-- The steps of the first `n` attempts of the retry rule: the sleep before the
first attempt is 500 ms, before the second 1000 ms, before the third 1500 ms. -/
def RetryBlocks {μ : Type} (new : List (Event μ)) (n : Nat) : Prop :=
  ∃ b1 b2 b3, AttemptBlock 500 b1 ∧ AttemptBlock 1000 b2 ∧ AttemptBlock 1500 b3 ∧
    ((n = 1 ∧ new = b1) ∨ (n = 2 ∧ new = b1 ++ b2) ∨ (n = 3 ∧ new = b1 ++ b2 ++ b3))

/-- What a run of the retry rule leaves behind: the steps `new` of `n` attempts,
each a sleep followed by the user-list query and existence queries, so `n` user-list
queries in all, and the sleeps 500, 1000, 1500 ms up to the `n`-th. -/
def RetryTrace {σ μ : Type} (before after : SeedState σ μ) (n : Nat) : Prop :=
  1 ≤ n ∧ n ≤ 3 ∧
  (∃ new, after.events = before.events ++ new ∧
    new.countP (fun e => isUserQuery e.stmt) = n ∧
    (∀ e ∈ new, isSleep e.stmt = true ∨ isUserQuery e.stmt = true ∨
      isUserCheck e.stmt = true) ∧
    RetryBlocks new n) ∧
  after.sleeps = before.sleeps ++ [500, 1000, 1500].take n ∧
  ([500, 1000, 1500].take n).sum ≤ 3000

/-- The statements issued between two states of a run contain no insert. -/
def NoInsertSince {σ μ : Type} (before after : SeedState σ μ) : Prop :=
  ∃ new, after.events = before.events ++ new ∧ ∀ e ∈ new, isInsert e.stmt = false

/-- A database without rows: every query succeeds and yields nothing. -/
def emptyDB : Database Unit Int :=
  { queryUserIds := fun s => (s, .ok []),
    queryUsers := fun s => (s, .ok []),
    queryProductsInStock := fun s => (s, .ok []),
    queryProducts := fun s => (s, .ok []),
    queryRowBool := fun _ s => (s, .ok false),
    queryRowId := fun _ s => (s, .error "no rows in result set"),
    exec := fun _ s => (s, none) }

/-- A database whose every call fails. -/
def downDB : Database Unit Int :=
  { queryUserIds := fun s => (s, .error "connection refused"),
    queryUsers := fun s => (s, .error "connection refused"),
    queryProductsInStock := fun s => (s, .error "connection refused"),
    queryProducts := fun s => (s, .error "connection refused"),
    queryRowBool := fun _ s => (s, .error "connection refused"),
    queryRowId := fun _ s => (s, .error "connection refused"),
    exec := fun _ s => (s, some "connection refused") }

/-- Whether the step writes nothing: one of the queries, or a sleep. -/
def isRead {μ : Type} : Stmt μ → Bool
  | .sleep _ => true
  | .selectUserIds => true
  | .selectUsers => true
  | .userExists _ => true
  | .regularUserExists _ => true
  | .selectProductsInStock => true
  | .selectProducts => true
  | _ => false

/-- Whether the statement inserts a line of the order `orderID`. -/
def isLineOf {μ : Type} (orderID : String) : Stmt μ → Bool
  | .insertOrderItem oid _ _ _ _ => decide (oid = orderID)
  | _ => false

/-- The ids of the orders in storage after the statements of a run, over a storage
model in which an order insert that succeeded stores the order under the id it
returned and a delete takes effect. -/
def replayOrders {μ : Type} : List (Event μ) → List String → List String
  | [], present => present
  | e :: rest, present =>
    match e.stmt with
    | .insertOrder _ _ _ _ _ => replayOrders rest (if e.ok then present ++ [e.id] else present)
    | .deleteOrder orderID => replayOrders rest (present.filter (fun x => x ≠ orderID))
    | _ => replayOrders rest present

/-- The orders in storage after a run that started on no order of its own. -/
def storedOrders {μ : Type} (events : List (Event μ)) : List String :=
  replayOrders events []

/-- Some order line of the order was inserted successfully. -/
def hasLine {μ : Type} (orderID : String) (events : List (Event μ)) : Prop :=
  ∃ e ∈ events, e.ok = true ∧ isLineOf orderID e.stmt = true

/-- The number of order totals persisted successfully. -/
def totalsPersisted {μ : Type} (events : List (Event μ)) : Nat :=
  events.countP (fun e => e.ok && isTotalUpdate e.stmt)

/-- A database like `flakyDB` in which every order line insert fails. -/
def noLinesDB : Database (Nat × Nat) Int :=
  { flakyDB with
    exec := fun stmt s =>
      match stmt with
      | .insertOrderItem _ _ _ _ _ => (s, some "insert failed")
      | _ => (s, none) }

/-- Appending these statements keeps every stored order with a line. -/
def Good {μ : Type} (new : List (Event μ)) : Prop :=
  ∀ E : List (Event μ), (∀ oid ∈ storedOrders E, hasLine oid E) →
    ∀ oid ∈ storedOrders (E ++ new), hasLine oid (E ++ new)

/-- The user ids of the review inserts issued for the product, successful or not,
in order. -/
def reviewAttempts {μ : Type} (productID : String) : List (Event μ) → List String
  | [] => []
  | e :: rest =>
    match e.stmt with
    | .insertReview userID pid _ _ _ =>
      if pid = productID then userID :: reviewAttempts productID rest
      else reviewAttempts productID rest
    | _ => reviewAttempts productID rest

/-- The user ids of the review rows inserted for the product: the inserts that
succeeded. -/
def reviewers {μ : Type} (productID : String) (events : List (Event μ)) : List String :=
  reviewAttempts productID (events.filter (fun e => e.ok))

/-- A database with two users and one product on which every call succeeds. -/
def reviewDB : Database Unit Int :=
  { queryUserIds := fun s => (s, .ok [.ok "u1", .ok "u2"]),
    queryUsers := fun s => (s, .ok [.ok ("u1", "Ann"), .ok ("u2", "Bob")]),
    queryProductsInStock := fun s => (s, .ok [.ok ("p1", 10)]),
    queryProducts := fun s => (s, .ok [.ok ("p1", "Lamp")]),
    queryRowBool := fun _ s => (s, .ok true),
    queryRowId := fun _ s => (s, .ok "o1"),
    exec := fun _ s => (s, none) }

/-- A random source that asks for three reviews and then always picks the first
user: its first value is 3, every other value 0. -/
def threeReviewsSrc : Nat → Nat :=
  fun k => if k = 0 then 3 else 0

end Seeds

/-! ## Seed orchestration: the sort and the run loop -/

namespace Seeds

theorem sweep_length {σ : Type} (a : Seeder σ) (ys : List (Seeder σ)) :
    (sweep a ys).2.length = ys.length := by
  induction ys generalizing a with
  | nil => rfl
  | cons y ys ih =>
    unfold sweep
    split <;> simp [ih]

theorem getElem?_append_cons_length {α : Type} (pre tl : List α) (a : α) :
    (pre ++ a :: tl)[pre.length]? = some a := by
  rw [List.getElem?_append_right (Nat.le_refl _)]
  simp

theorem getElem?_append_cons_mid {α : Type} (pre mid rest : List α) (a b : α) :
    (pre ++ a :: (mid ++ b :: rest))[pre.length + 1 + mid.length]? = some b := by
  rw [List.getElem?_append_right (by omega)]
  have : pre.length + 1 + mid.length - pre.length = mid.length + 1 := by omega
  rw [this, List.getElem?_cons_succ]
  exact getElem?_append_cons_length mid rest b

theorem swapAt_append {α : Type} (pre mid rest : List α) (a b : α) :
    swapAt (pre ++ a :: (mid ++ b :: rest)) pre.length (pre.length + 1 + mid.length)
      = pre ++ b :: (mid ++ a :: rest) := by
  have h1 := getElem?_append_cons_length pre (mid ++ b :: rest) a
  have h2 := getElem?_append_cons_mid pre mid rest a b
  unfold swapAt
  rw [h1, h2]
  simp only
  rw [List.set_append_right _ _ (by omega)]
  simp only [Nat.sub_self, List.set_cons_zero]
  rw [List.set_append_right _ _ (by omega)]
  have : pre.length + 1 + mid.length - pre.length = mid.length + 1 := by omega
  rw [this, List.set_cons_succ, List.set_append_right _ _ (by omega)]
  simp

theorem compareSwap_append {σ : Type} (pre mid rest : List (Seeder σ)) (a b : Seeder σ) :
    compareSwap (pre ++ a :: (mid ++ b :: rest)) pre.length (pre.length + 1 + mid.length)
      = if a.priority > b.priority then pre ++ b :: (mid ++ a :: rest)
        else pre ++ a :: (mid ++ b :: rest) := by
  have h1 := getElem?_append_cons_length pre (mid ++ b :: rest) a
  have h2 := getElem?_append_cons_mid pre mid rest a b
  unfold compareSwap
  rw [h1, h2]
  simp only
  rw [swapAt_append]

theorem innerLoop_append {σ : Type} (pre : List (Seeder σ)) :
    ∀ (rest : List (Seeder σ)) (a : Seeder σ) (mid : List (Seeder σ)) (fuel : Nat),
      rest.length ≤ fuel →
      innerLoop pre.length fuel (pre.length + 1 + mid.length) (pre ++ a :: (mid ++ rest))
        = pre ++ (sweep a rest).1 :: (mid ++ (sweep a rest).2) := by
  intro rest
  induction rest with
  | nil =>
    intro a mid fuel _
    cases fuel with
    | zero => simp [innerLoop, sweep]
    | succ f =>
      have hlen : ¬ pre.length + 1 + mid.length < (pre ++ a :: (mid ++ [])).length := by
        simp; omega
      rw [innerLoop, if_neg hlen]
      simp [sweep]
  | cons y ys ih =>
    intro a mid fuel hf
    cases fuel with
    | zero => simp at hf
    | succ f =>
      have hlen : pre.length + 1 + mid.length < (pre ++ a :: (mid ++ y :: ys)).length := by
        simp; omega
      rw [innerLoop, if_pos hlen, compareSwap_append]
      have hf1 : ys.length ≤ f := by simpa using hf
      by_cases hlt : a.priority > y.priority
      · rw [if_pos hlt]
        have := ih y (mid ++ [a]) f hf1
        simp only [List.length_append, List.length_singleton, List.append_assoc,
          List.singleton_append] at this
        rw [show pre.length + 1 + mid.length + 1 = pre.length + 1 + (mid.length + 1) by omega,
          this]
        simp [sweep, hlt]
      · rw [if_neg hlt]
        have := ih a (mid ++ [y]) f hf1
        simp only [List.length_append, List.length_singleton, List.append_assoc,
          List.singleton_append] at this
        rw [show pre.length + 1 + mid.length + 1 = pre.length + 1 + (mid.length + 1) by omega,
          this]
        simp [sweep, hlt]

theorem outerLoop_append {σ : Type} :
    ∀ (fuel : Nat) (pre xs : List (Seeder σ)), xs.length ≤ fuel →
      outerLoop fuel pre.length (pre ++ xs) = pre ++ sweepSort fuel xs := by
  intro fuel
  induction fuel with
  | zero =>
    intro pre xs _
    simp [outerLoop, sweepSort]
  | succ f ih =>
    intro pre xs hf
    match xs, hf with
    | [], _ => simp [outerLoop, sweepSort]
    | [a], _ =>
      cases f <;> simp [outerLoop, sweepSort, sweep]
    | a :: b :: rest, hf =>
      have hlen : pre.length + 1 < (pre ++ a :: b :: rest).length := by simp
      rw [outerLoop, if_pos hlen]
      have hin := innerLoop_append pre (b :: rest) a [] (pre ++ a :: b :: rest).length
        (by simp; omega)
      simp only [List.length_nil, Nat.add_zero, List.nil_append] at hin
      rw [hin]
      have hl : (sweep a (b :: rest)).2.length ≤ f := by
        rw [sweep_length]; simpa using hf
      have := ih (pre ++ [(sweep a (b :: rest)).1]) (sweep a (b :: rest)).2 hl
      simp only [List.length_append, List.length_singleton, List.append_assoc,
        List.singleton_append] at this
      rw [this]
      simp [sweepSort]

theorem sortSeedersByPriority_eq {σ : Type} (xs : List (Seeder σ)) :
    sortSeedersByPriority xs = sweepSort xs.length xs := by
  have := outerLoop_append xs.length [] xs (Nat.le_refl _)
  simpa [sortSeedersByPriority] using this

theorem sweep_perm {σ : Type} (a : Seeder σ) (ys : List (Seeder σ)) :
    ((sweep a ys).1 :: (sweep a ys).2).Perm (a :: ys) := by
  induction ys generalizing a with
  | nil => simp [sweep]
  | cons y ys ih =>
    unfold sweep
    split
    · exact ((List.Perm.swap _ _ _).trans ((ih y).cons a))
    · exact ((List.Perm.swap _ _ _).trans ((ih a).cons y)).trans (List.Perm.swap _ _ _)

theorem sweep_fst_le {σ : Type} (a : Seeder σ) (ys : List (Seeder σ)) :
    (sweep a ys).1.priority ≤ a.priority := by
  induction ys generalizing a with
  | nil => simp [sweep]
  | cons y ys ih =>
    unfold sweep
    split
    · next h => exact le_trans (ih y) (le_of_lt h)
    · exact ih a

theorem sweep_fst_le_snd {σ : Type} (a : Seeder σ) (ys : List (Seeder σ)) :
    ∀ z ∈ (sweep a ys).2, (sweep a ys).1.priority ≤ z.priority := by
  induction ys generalizing a with
  | nil => simp [sweep]
  | cons y ys ih =>
    unfold sweep
    split
    · next h =>
      intro z hz
      rcases List.mem_cons.mp hz with rfl | hz
      · exact le_trans (sweep_fst_le y ys) (le_of_lt h)
      · exact ih y z hz
    · next h =>
      intro z hz
      rcases List.mem_cons.mp hz with rfl | hz
      · exact le_trans (sweep_fst_le a ys) (not_lt.mp h)
      · exact ih a z hz

theorem sweep_of_le {σ : Type} (a : Seeder σ) (ys : List (Seeder σ))
    (h : ∀ y ∈ ys, a.priority ≤ y.priority) : sweep a ys = (a, ys) := by
  induction ys with
  | nil => rfl
  | cons y ys ih =>
    have hy : ¬ a.priority > y.priority := not_lt.mpr (h y (List.mem_cons_self _ _))
    have hrest := ih (fun z hz => h z (List.mem_cons_of_mem _ hz))
    simp [sweep, hy, hrest]

theorem sweepSort_perm {σ : Type} :
    ∀ (n : Nat) (xs : List (Seeder σ)), (sweepSort n xs).Perm xs := by
  intro n
  induction n with
  | zero => intro xs; simp [sweepSort]
  | succ n ih =>
    intro xs
    cases xs with
    | nil => simp [sweepSort]
    | cons a rest =>
      simp only [sweepSort]
      exact ((ih (sweep a rest).2).cons _).trans (sweep_perm a rest)

theorem sweepSort_sorted {σ : Type} :
    ∀ (n : Nat) (xs : List (Seeder σ)), xs.length ≤ n →
      (sweepSort n xs).Pairwise (fun a b => a.priority ≤ b.priority) := by
  intro n
  induction n with
  | zero =>
    intro xs h
    have : xs = [] := List.length_eq_zero.mp (Nat.le_zero.mp h)
    simp [sweepSort, this]
  | succ n ih =>
    intro xs h
    cases xs with
    | nil => simp [sweepSort]
    | cons a rest =>
      simp only [sweepSort]
      refine List.Pairwise.cons ?_ (ih _ ?_)
      · intro z hz
        exact sweep_fst_le_snd a rest z ((sweepSort_perm n _).subset hz)
      · rw [sweep_length]; simpa using h

theorem sweepSort_of_sorted {σ : Type} :
    ∀ (n : Nat) (xs : List (Seeder σ)),
      xs.Pairwise (fun a b => a.priority ≤ b.priority) → sweepSort n xs = xs := by
  intro n
  induction n with
  | zero => intro xs _; simp [sweepSort]
  | succ n ih =>
    intro xs h
    cases xs with
    | nil => simp [sweepSort]
    | cons a rest =>
      have hp := List.pairwise_cons.mp h
      simp only [sweepSort, sweep_of_le a rest hp.1, ih rest hp.2]

theorem sort_perm {σ : Type} (xs : List (Seeder σ)) : (sortSeedersByPriority xs).Perm xs := by
  rw [sortSeedersByPriority_eq]; exact sweepSort_perm _ _

theorem sort_sorted {σ : Type} (xs : List (Seeder σ)) :
    (sortSeedersByPriority xs).Pairwise (fun a b => a.priority ≤ b.priority) := by
  rw [sortSeedersByPriority_eq]; exact sweepSort_sorted _ _ (Nat.le_refl _)

theorem sort_of_sorted {σ : Type} (xs : List (Seeder σ))
    (h : xs.Pairwise (fun a b => a.priority ≤ b.priority)) : sortSeedersByPriority xs = xs := by
  rw [sortSeedersByPriority_eq]; exact sweepSort_of_sorted _ _ h

theorem sort_idem {σ : Type} (xs : List (Seeder σ)) :
    sortSeedersByPriority (sortSeedersByPriority xs) = sortSeedersByPriority xs :=
  sort_of_sorted _ (sort_sorted xs)

theorem sort_strict {σ : Type} (xs : List (Seeder σ))
    (h : xs.Pairwise (fun a b => a.priority ≠ b.priority)) :
    (sortSeedersByPriority xs).Pairwise (fun a b => a.priority < b.priority) := by
  have hne : (sortSeedersByPriority xs).Pairwise (fun a b => a.priority ≠ b.priority) :=
    (sort_perm xs).symm.pairwise h (fun hab => fun e => hab e.symm)
  exact (sort_sorted xs).imp₂ (fun _ _ hle hn => lt_of_le_of_ne hle hn) hne

theorem strict_sorted_unique {σ : Type} (xs ys : List (Seeder σ)) (hp : xs.Perm ys)
    (hx : xs.Pairwise (fun a b => a.priority < b.priority))
    (hy : ys.Pairwise (fun a b => a.priority < b.priority)) : xs = ys := by
  haveI : IsAntisymm (Seeder σ) (fun a b => a.priority < b.priority) :=
    ⟨fun a b h1 h2 => absurd h1 (not_lt.mpr (le_of_lt h2))⟩
  exact List.eq_of_perm_of_sorted hp hx hy

/-- The `Seed` calls `runLoop` adds are the units it walks, in order. -/
theorem runLoop_executed {σ : Type} (xs : List (Seeder σ)) (st : RunState σ) :
    (runLoop xs st).executed.map Prod.fst = st.executed.map Prod.fst ++ xs := by
  induction xs generalizing st with
  | nil => simp [runLoop]
  | cons s rest ih =>
    unfold runLoop
    split <;> simp [ih]

/-- The counters of `runLoop` count the failed and the successful `Seed` calls. -/
theorem runLoop_counts {σ : Type} (xs : List (Seeder σ)) (st : RunState σ)
    (he : st.errorCount = st.executed.countP (fun x => x.2.isSome))
    (hs : st.successCount = st.executed.countP (fun x => x.2.isNone)) :
    (runLoop xs st).errorCount = (runLoop xs st).executed.countP (fun x => x.2.isSome) ∧
    (runLoop xs st).successCount = (runLoop xs st).executed.countP (fun x => x.2.isNone) := by
  induction xs generalizing st with
  | nil => exact ⟨he, hs⟩
  | cons s rest ih =>
    unfold runLoop
    split
    · apply ih <;> simp [he, hs, List.countP_append]
    · apply ih <;> simp [he, hs, List.countP_append]

theorem run_executed {σ : Type} (sm : SeedManager σ) :
    (Run sm).executed.map Prod.fst = sortSeedersByPriority sm.seeders := by
  simp [Run, runLoop_executed]

theorem run_counts {σ : Type} (sm : SeedManager σ) :
    (Run sm).errorCount = (Run sm).executed.countP (fun x => x.2.isSome) ∧
    (Run sm).successCount = (Run sm).executed.countP (fun x => x.2.isNone) := by
  simpa [Run] using runLoop_counts (sortSeedersByPriority sm.seeders)
    { db := sm.db, executed := [], successCount := 0, errorCount := 0, sleptMs := 0 }
    (by simp) (by simp)

theorem nameMap_eq (names : List String) (k : String) : nameMap names k = decide (k ∈ names) := by
  have key : ∀ (l : List String) (m : String → Bool),
      l.foldl (fun m name => fun k => if k = name then true else m k) m k
        = (m k || decide (k ∈ l)) := by
    intro l
    induction l with
    | nil => intro m; simp
    | cons a l ih =>
      intro m
      rw [List.foldl_cons, ih]
      by_cases h : k = a <;> simp [h]
  rw [nameMap, key]
  simp

/-- The database `runLoop` leaves is the one obtained by applying every unit's
`Seed` once, in order, whatever each returned. -/
theorem runLoop_db {σ : Type} (xs : List (Seeder σ)) (st : RunState σ) :
    (runLoop xs st).db = xs.foldl (fun db s => (s.seed db).1) st.db := by
  induction xs generalizing st with
  | nil => rfl
  | cons s rest ih =>
    unfold runLoop
    split
    · next h => simp [ih, h]
    · next h => simp [ih, h]

/-- Every recorded outcome is what the unit's `Seed` returned on some database. -/
theorem runLoop_outcomes {σ : Type} (xs : List (Seeder σ)) (st : RunState σ)
    (h : ∀ x ∈ st.executed, ∃ db, (x.1.seed db).2 = x.2) :
    ∀ x ∈ (runLoop xs st).executed, ∃ db, (x.1.seed db).2 = x.2 := by
  induction xs generalizing st with
  | nil => exact h
  | cons s rest ih =>
    unfold runLoop
    split
    · next db1 e hs =>
      apply ih
      intro x hx
      rcases List.mem_append.mp hx with hx | hx
      · exact h x hx
      · rw [List.mem_singleton.mp hx]; exact ⟨st.db, by simp [hs]⟩
    · next db1 hs =>
      apply ih
      intro x hx
      rcases List.mem_append.mp hx with hx | hx
      · exact h x hx
      · rw [List.mem_singleton.mp hx]; exact ⟨st.db, by simp [hs]⟩

theorem filter_nameMap {σ : Type} (xs : List (Seeder σ)) (names : List String) :
    xs.filter (fun s => nameMap names s.name) = xs.filter (fun s => decide (s.name ∈ names)) := by
  congr 1
  funext s
  exact nameMap_eq names s.name

theorem runSpecific_of_match {σ : Type} (sm : SeedManager σ) (names : List String)
    (h : ∃ s ∈ sm.seeders, s.name ∈ names) :
    RunSpecific sm names =
      Run { sm with seeders :=
        sortSeedersByPriority (sm.seeders.filter (fun s => decide (s.name ∈ names))) } := by
  obtain ⟨s, hs, hn⟩ := h
  have hmem : s ∈ sm.seeders.filter (fun s => decide (s.name ∈ names)) := by
    simp [List.mem_filter, hs, hn]
  have hne : (sm.seeders.filter (fun s => decide (s.name ∈ names))).length ≠ 0 := by
    intro h0
    rw [List.length_eq_zero.mp h0] at hmem
    exact absurd hmem (List.not_mem_nil _)
  unfold RunSpecific
  simp only [filter_nameMap]
  rw [if_neg hne]

/-- The loop of `Run` records the `Seed` calls of `seedTrace`. -/
theorem runLoop_trace {σ : Type} (xs : List (Seeder σ)) (st : RunState σ) :
    (runLoop xs st).executed = st.executed ++ seedTrace xs st.db := by
  induction xs generalizing st with
  | nil => simp [runLoop, seedTrace]
  | cons s rest ih =>
    unfold runLoop
    split
    · next db1 e h => simp [ih, seedTrace, h]
    · next db1 h => simp [ih, seedTrace, h]

theorem run_trace {σ : Type} (sm : SeedManager σ) :
    (Run sm).executed = seedTrace (sortSeedersByPriority sm.seeders) sm.db := by
  simp [Run, runLoop_trace]

theorem run_db {σ : Type} (sm : SeedManager σ) :
    (Run sm).sm.db = seedAll (sortSeedersByPriority sm.seeders) sm.db := by
  simp [Run, runLoop_db, seedAll]

theorem run_executed_length {σ : Type} (sm : SeedManager σ) :
    (Run sm).executed.length = sm.seeders.length := by
  have h := congrArg List.length (run_executed sm)
  rw [List.length_map] at h
  rw [h]; exact (sort_perm _).length_eq

/-- C1: for seed units with pairwise distinct priorities, `Run` calls the `Seed`
operations in strictly ascending priority order: its calls are those of `seedTrace`
over the strictly sorted unit list, each on the database the call before it left,
the database afterwards is the one these calls leave, the list is a rearrangement of
the registered units, and neither depends on the registration order. Units
registered with priorities 4, 1, 2, 5, 3 and names O, C, P, R, U are executed as
C, P, U, O, R. -/
theorem run_ascending_priority_order :
    (∀ (σ : Type) (sm : SeedManager σ),
      sm.seeders.Pairwise (fun a b => a.priority ≠ b.priority) →
        (sortSeedersByPriority sm.seeders).Pairwise (fun a b => a.priority < b.priority) ∧
        (Run sm).executed = seedTrace (sortSeedersByPriority sm.seeders) sm.db ∧
        (Run sm).sm.db = seedAll (sortSeedersByPriority sm.seeders) sm.db ∧
        ((Run sm).executed.map Prod.fst).Pairwise (fun a b => a.priority < b.priority) ∧
        ((Run sm).executed.map Prod.fst).Perm sm.seeders ∧
        ∀ sm2 : SeedManager σ, sm2.seeders.Perm sm.seeders → sm2.db = sm.db →
          (Run sm2).executed.map Prod.fst = (Run sm).executed.map Prod.fst ∧
          (Run sm2).sm.db = (Run sm).sm.db) ∧
    (∀ (σ : Type) (db : σ) (fO fC fP fR fU : σ → σ × Option String),
      (Run { db := db, seeders := [⟨"O", 4, fO⟩, ⟨"C", 1, fC⟩, ⟨"P", 2, fP⟩, ⟨"R", 5, fR⟩,
          ⟨"U", 3, fU⟩] }).executed.map (fun r => r.1.name) = ["C", "P", "U", "O", "R"] ∧
      (Run { db := db, seeders := [⟨"O", 4, fO⟩, ⟨"C", 1, fC⟩, ⟨"P", 2, fP⟩, ⟨"R", 5, fR⟩,
          ⟨"U", 3, fU⟩] }).sm.db = (fR (fO (fU (fP (fC db).1).1).1).1).1) := by
  constructor
  · intro σ sm hd
    have hex := run_executed sm
    refine ⟨sort_strict _ hd, run_trace sm, run_db sm, ?_, ?_, ?_⟩
    · rw [hex]; exact sort_strict _ hd
    · rw [hex]; exact sort_perm _
    · intro sm2 hp hdb
      have hd2 : sm2.seeders.Pairwise (fun a b => a.priority ≠ b.priority) :=
        hp.symm.pairwise hd (fun hab => fun e => hab e.symm)
      have hsame : sortSeedersByPriority sm2.seeders = sortSeedersByPriority sm.seeders :=
        strict_sorted_unique _ _
          (((sort_perm sm2.seeders).trans hp).trans (sort_perm sm.seeders).symm)
          (sort_strict _ hd2) (sort_strict _ hd)
      rw [run_executed, run_executed, run_db, run_db, hsame, hdb]
      exact ⟨rfl, rfl⟩
  · intro σ db fO fC fP fR fU
    have h : ∀ (l : List (Seeder σ × Option String)),
        l.map (fun r => r.1.name) = (l.map Prod.fst).map (fun s => s.name) := by
      intro l; simp
    have hsort : sortSeedersByPriority
        ([⟨"O", 4, fO⟩, ⟨"C", 1, fC⟩, ⟨"P", 2, fP⟩, ⟨"R", 5, fR⟩, ⟨"U", 3, fU⟩] :
          List (Seeder σ))
        = [⟨"C", 1, fC⟩, ⟨"P", 2, fP⟩, ⟨"U", 3, fU⟩, ⟨"O", 4, fO⟩, ⟨"R", 5, fR⟩] := by
      rw [sortSeedersByPriority_eq]
      simp [sweepSort, sweep]
    constructor
    · rw [h, run_executed, hsort]
      rfl
    · rw [run_db, hsort]
      rfl

/-- C1, at the registration order of the example, with units that log their names
in the database. -/
theorem run_ascending_priority_order_witness :
    [logUnit "O" 4 false, logUnit "C" 1 true, logUnit "P" 2 false, logUnit "R" 5 false,
        logUnit "U" 3 false].Pairwise (fun a b => a.priority ≠ b.priority) ∧
    ((Run { db := [], seeders := [logUnit "O" 4 false, logUnit "C" 1 true,
        logUnit "P" 2 false, logUnit "R" 5 false, logUnit "U" 3 false] }).executed.map
        Prod.fst).Pairwise (fun a b => a.priority < b.priority) ∧
    (Run { db := [], seeders := [logUnit "O" 4 false, logUnit "C" 1 true,
        logUnit "P" 2 false, logUnit "R" 5 false, logUnit "U" 3 false] }).executed.map
        (fun r => r.1.name) = ["C", "P", "U", "O", "R"] ∧
    (Run { db := [], seeders := [logUnit "O" 4 false, logUnit "C" 1 true,
        logUnit "P" 2 false, logUnit "R" 5 false, logUnit "U" 3 false] }).sm.db
      = ["C", "P", "U", "O", "R"] := by
  have hd : [logUnit "O" 4 false, logUnit "C" 1 true, logUnit "P" 2 false,
      logUnit "R" 5 false, logUnit "U" 3 false].Pairwise
      (fun a b => a.priority ≠ b.priority) := by
    simp [logUnit]
  exact ⟨hd, (run_ascending_priority_order.1 (List String) _ hd).2.2.2.1, by decide, by decide⟩

/-- C2 as stated fails: with priorities A=2, B=2, C=1 registered in that order the
sort yields C, B, A, so the two units of priority 2 swap their registration order. -/
theorem sort_not_stable :
    (sortSeedersByPriority [okUnit "A" 2, okUnit "B" 2, okUnit "C" 1]).map (fun s => s.name)
      = ["C", "B", "A"] ∧
    ((sortSeedersByPriority [okUnit "A" 2, okUnit "B" 2, okUnit "C" 1]).filter
        (fun s => decide (s.priority = 2))).map (fun s => s.name) ≠
      ([okUnit "A" 2, okUnit "B" 2, okUnit "C" 1].filter
        (fun s => decide (s.priority = 2))).map (fun s => s.name) := by
  decide

/-- C2, amended: `sortSeedersByPriority` rearranges the registered units into
non-decreasing priority order, and a list already in non-decreasing priority order
is returned as it is (there ties keep their registration order). -/
theorem sort_sorted_perm_fixes_sorted {σ : Type} (xs : List (Seeder σ)) :
    (sortSeedersByPriority xs).Pairwise (fun a b => a.priority ≤ b.priority) ∧
    (sortSeedersByPriority xs).Perm xs ∧
    (xs.Pairwise (fun a b => a.priority ≤ b.priority) → sortSeedersByPriority xs = xs) :=
  ⟨sort_sorted xs, sort_perm xs, sort_of_sorted xs⟩

/-- C3: whatever each unit's `Seed` returns, `Run` calls `Seed` once on every
registered unit: the calls are the sorted unit list, a rearrangement of the
registered list, each recorded outcome is what that unit returned, and the
database afterwards has every unit's effect applied once, in that order. -/
theorem run_seeds_every_unit_once {σ : Type} (sm : SeedManager σ) :
    (Run sm).executed.map Prod.fst = sortSeedersByPriority sm.seeders ∧
    ((Run sm).executed.map Prod.fst).Perm sm.seeders ∧
    (Run sm).executed.length = sm.seeders.length ∧
    (∀ x ∈ (Run sm).executed, ∃ db, (x.1.seed db).2 = x.2) ∧
    (Run sm).sm.db =
      (sortSeedersByPriority sm.seeders).foldl (fun db s => (s.seed db).1) sm.db := by
  refine ⟨run_executed sm, ?_, ?_, ?_, ?_⟩
  · rw [run_executed]; exact sort_perm _
  · exact run_executed_length sm
  · exact runLoop_outcomes _ _ (by simp)
  · simp [Run, runLoop_db]

/-- C4: `Run` returns nil exactly when no unit's `Seed`, called in turn on the
database the call before it left, returned an error; otherwise it returns
"seeding completed with n errors" where n is the number of these calls that returned
an error, and successes plus n is the number of registered units. -/
theorem run_reports_failure_count {σ : Type} (sm : SeedManager σ) :
    (Run sm).executed = seedTrace (sortSeedersByPriority sm.seeders) sm.db ∧
    ((Run sm).err = none ↔
      ∀ x ∈ seedTrace (sortSeedersByPriority sm.seeders) sm.db, x.2 = none) ∧
    (Run sm).errorCount
      = (seedTrace (sortSeedersByPriority sm.seeders) sm.db).countP (fun x => x.2.isSome) ∧
    (Run sm).successCount
      = (seedTrace (sortSeedersByPriority sm.seeders) sm.db).countP (fun x => x.2.isNone) ∧
    ((Run sm).err ≠ none →
      (Run sm).err
        = some ("seeding completed with " ++ toString (Run sm).errorCount ++ " errors")) ∧
    (Run sm).successCount + (Run sm).errorCount = sm.seeders.length := by
  obtain ⟨he, hs⟩ := run_counts sm
  have htr := run_trace sm
  have herr : (Run sm).err = if (Run sm).errorCount > 0 then
      some ("seeding completed with " ++ toString (Run sm).errorCount ++ " errors")
      else none := rfl
  have hlen : (Run sm).executed.length = sm.seeders.length := run_executed_length sm
  refine ⟨htr, ?_, htr ▸ he, htr ▸ hs, ?_, ?_⟩
  · rw [← htr, herr, he]
    constructor
    · intro h x hx
      by_cases hc : List.countP (fun x => x.2.isSome) (Run sm).executed > 0
      · rw [if_pos hc] at h; cases h
      · have h0 : List.countP (fun x => x.2.isSome) (Run sm).executed = 0 := by omega
        have := (List.countP_eq_zero.mp h0) x hx
        simpa using this
    · intro h
      have h0 : List.countP (fun x => x.2.isSome) (Run sm).executed = 0 := by
        apply List.countP_eq_zero.mpr
        intro x hx
        simp [h x hx]
      rw [h0]; simp
  · intro hne
    rw [herr] at hne ⊢
    by_cases hc : (Run sm).errorCount > 0
    · rw [if_pos hc]
    · rw [if_neg hc] at hne; exact absurd rfl hne
  · rw [← hlen, he, hs]
    have := List.length_eq_countP_add_countP (fun x : Seeder σ × Option String => x.2.isSome)
      (Run sm).executed
    rw [this, Nat.add_comm]
    congr 1
    apply List.countP_congr
    intro x _
    cases x.2 <;> simp

/-- C4, at three units that log their names, of which two fail, and at the same
units when none fails. -/
theorem run_reports_failure_count_witness :
    (Run { db := [], seeders := [logUnit "b" 2 true, logUnit "a" 1 false,
        logUnit "c" 3 true] }).err = some "seeding completed with 2 errors" ∧
    (Run { db := [], seeders := [logUnit "b" 2 true, logUnit "a" 1 false,
        logUnit "c" 3 true] }).executed.map (fun r => (r.1.name, r.2))
      = [("a", none), ("b", some "boom"), ("c", some "boom")] ∧
    (Run { db := [], seeders := [logUnit "b" 2 true, logUnit "a" 1 false,
        logUnit "c" 3 true] }).sm.db = ["a", "b", "c"] ∧
    (Run { db := [], seeders := [logUnit "b" 2 false, logUnit "a" 1 false,
        logUnit "c" 3 false] }).err = none ∧
    (Run { db := [], seeders := [logUnit "b" 2 true, logUnit "a" 1 false,
        logUnit "c" 3 true] }).successCount
      + (Run { db := [], seeders := [logUnit "b" 2 true, logUnit "a" 1 false,
        logUnit "c" 3 true] }).errorCount = 3 :=
  ⟨by decide, by decide, by decide, by decide,
    (run_reports_failure_count { db := [], seeders := [logUnit "b" 2 true,
      logUnit "a" 1 false, logUnit "c" 3 true] }).2.2.2.2.2⟩

/-- C5: when no registered unit's name occurs in the name list (the empty list
included), `RunSpecific` returns the "no seeders found" error, calls no `Seed`
and leaves the manager, its unit list included, as it was. -/
theorem runSpecific_no_match {σ : Type} (sm : SeedManager σ) (names : List String)
    (hno : ∀ s ∈ sm.seeders, s.name ∉ names) :
    (RunSpecific sm names).err = some ("no seeders found for names: " ++ fmtNames names) ∧
    (RunSpecific sm names).executed = [] ∧
    (RunSpecific sm names).sm = sm := by
  have hnil : sm.seeders.filter (fun s => nameMap names s.name) = [] := by
    rw [filter_nameMap]
    apply List.filter_eq_nil_iff.mpr
    intro s hs
    simpa using hno s hs
  unfold RunSpecific
  simp [hnil]

/-- C5, at the empty name list and at a list of unknown names. -/
theorem runSpecific_no_match_witness :
    ((RunSpecific { db := (), seeders := [okUnit "categories" 1, badUnit "products" 2] }
        []).err = some "no seeders found for names: []" ∧
      (RunSpecific { db := (), seeders := [okUnit "categories" 1, badUnit "products" 2] }
        []).executed = []) ∧
    ((RunSpecific { db := (), seeders := [okUnit "categories" 1, badUnit "products" 2] }
        ["users", "orders"]).err = some "no seeders found for names: [users orders]" ∧
      (RunSpecific { db := (), seeders := [okUnit "categories" 1, badUnit "products" 2] }
        ["users", "orders"]).executed = []) := by
  have h1 := runSpecific_no_match
    { db := (), seeders := [okUnit "categories" 1, badUnit "products" 2] } []
    (by simp)
  have h2 := runSpecific_no_match
    { db := (), seeders := [okUnit "categories" 1, badUnit "products" 2] } ["users", "orders"]
    (by simp [okUnit, badUnit])
  exact ⟨⟨h1.1.trans (by decide), h1.2.1⟩, ⟨h2.1.trans (by decide), h2.2.1⟩⟩

/-- C6: when some registered unit's name occurs in the name list, `RunSpecific`
calls `Seed` once on each registered unit whose name occurs in the list and on no
other unit, in ascending priority order: its calls are those of `seedTrace` over the
sorted list of the matching units, each on the database the call before it left, and
the database afterwards is the one these calls leave; a name list that selects the
same registered units (repeated or unknown names aside) gives exactly the same run. -/
theorem runSpecific_runs_matching_units {σ : Type} (sm : SeedManager σ) (names : List String)
    (hmatch : ∃ s ∈ sm.seeders, s.name ∈ names) :
    (RunSpecific sm names).executed
      = seedTrace (sortSeedersByPriority
          (sm.seeders.filter (fun s => decide (s.name ∈ names)))) sm.db ∧
    (RunSpecific sm names).sm.db
      = seedAll (sortSeedersByPriority
          (sm.seeders.filter (fun s => decide (s.name ∈ names)))) sm.db ∧
    (RunSpecific sm names).executed.map Prod.fst
      = sortSeedersByPriority (sm.seeders.filter (fun s => decide (s.name ∈ names))) ∧
    ((RunSpecific sm names).executed.map Prod.fst).Perm
      (sm.seeders.filter (fun s => decide (s.name ∈ names))) ∧
    ((RunSpecific sm names).executed.map Prod.fst).Pairwise
      (fun a b => a.priority ≤ b.priority) ∧
    (∀ names2 : List String, (∀ s ∈ sm.seeders, s.name ∈ names2 ↔ s.name ∈ names) →
      RunSpecific sm names2 = RunSpecific sm names) := by
  have hex : (RunSpecific sm names).executed.map Prod.fst
      = sortSeedersByPriority (sm.seeders.filter (fun s => decide (s.name ∈ names))) := by
    rw [runSpecific_of_match sm names hmatch, run_executed]
    exact sort_idem _
  refine ⟨?_, ?_, hex, ?_, ?_, ?_⟩
  · rw [runSpecific_of_match sm names hmatch, run_trace]
    simp only [sort_idem]
  · rw [runSpecific_of_match sm names hmatch, run_db]
    simp only [sort_idem]
  · rw [hex]; exact sort_perm _
  · rw [hex]; exact sort_sorted _
  · intro names2 hiff
    have hmatch2 : ∃ s ∈ sm.seeders, s.name ∈ names2 := by
      obtain ⟨s, hs, hn⟩ := hmatch
      exact ⟨s, hs, (hiff s hs).mpr hn⟩
    have hf : sm.seeders.filter (fun s => decide (s.name ∈ names2))
        = sm.seeders.filter (fun s => decide (s.name ∈ names)) := by
      apply List.filter_congr
      intro s hs
      simp [hiff s hs]
    rw [runSpecific_of_match sm names hmatch, runSpecific_of_match sm names2 hmatch2, hf]

/-- C6, at a name list with a repeated and an unknown name, with units that log
their names in the database. -/
theorem runSpecific_runs_matching_units_witness :
    (∃ s ∈ [logUnit "orders" 4 false, logUnit "categories" 1 false, logUnit "products" 2 true],
      s.name ∈ ["products", "nothing", "orders", "products"]) ∧
    (RunSpecific { db := [], seeders := [logUnit "orders" 4 false,
        logUnit "categories" 1 false, logUnit "products" 2 true] }
        ["products", "nothing", "orders", "products"]).executed.map
        (fun r => (r.1.name, r.2)) = [("products", some "boom"), ("orders", none)] ∧
    (RunSpecific { db := [], seeders := [logUnit "orders" 4 false,
        logUnit "categories" 1 false, logUnit "products" 2 true] }
        ["products", "nothing", "orders", "products"]).sm.db = ["products", "orders"] ∧
    ((RunSpecific { db := [], seeders := [logUnit "orders" 4 false,
        logUnit "categories" 1 false, logUnit "products" 2 true] }
        ["products", "nothing", "orders", "products"]).executed.map
        Prod.fst).Pairwise (fun a b => a.priority ≤ b.priority) := by
  have hm : ∃ s ∈ [logUnit "orders" 4 false, logUnit "categories" 1 false,
      logUnit "products" 2 true], s.name ∈ ["products", "nothing", "orders", "products"] :=
    ⟨logUnit "orders" 4 false, by simp, by simp [logUnit]⟩
  exact ⟨hm, by decide, by decide,
    (runSpecific_runs_matching_units
      { db := [], seeders := [logUnit "orders" 4 false, logUnit "categories" 1 false,
          logUnit "products" 2 true] }
      ["products", "nothing", "orders", "products"] hm).2.2.2.2.1⟩

end Seeds

/-! ## Configuration loading -/

namespace Config

theorem getEnv_of_blank (w : World) (key d : String) (h : envBlank w key) :
    getEnv w key d = d := by
  unfold envBlank at h
  simp [getEnv, h]

theorem getEnvAsInt_of_bad (w : World) (key : String) (d : Int) (h : envBadInt w key) :
    getEnvAsInt w key d = d := by
  unfold getEnvAsInt
  rcases h with h | h
  · simp [h]
  · simp [h]

theorem getEnvAsBool_of_bad (w : World) (key : String) (d : Bool) (h : envBadBool w key) :
    getEnvAsBool w key d = d := by
  unfold getEnvAsBool
  rcases h with h | h
  · simp [h]
  · simp [h]

theorem getEnvAsDuration_of_bad (w : World) (key : String) (d : Int)
    (h : envBadDuration w key) : getEnvAsDuration w key d = d := by
  unfold getEnvAsDuration
  rcases h with h | h
  · simp [h]
  · simp [h]

theorem pickString_getEnv (w : World) (key file dflt : String) :
    pickString (w.getenv key) file dflt
      = if getEnv w key file = "" then dflt else getEnv w key file := by
  unfold pickString getEnv
  by_cases h1 : w.getenv key = "" <;> by_cases h2 : file = "" <;> simp [h1, h2]

theorem pickString_getEnv_zero (w : World) (key file : String) :
    pickString (w.getenv key) file "" = getEnv w key file := by
  unfold pickString getEnv
  by_cases h1 : w.getenv key = "" <;> by_cases h2 : file = "" <;> simp [h1, h2]

theorem pickInt_getEnvAsInt (w : World) (key : String) (file dflt : Int) :
    pickInt (envInt w key) file dflt
      = if getEnvAsInt w key file = 0 then dflt else getEnvAsInt w key file := by
  unfold pickInt envInt getEnvAsInt
  by_cases h1 : w.getenv key = ""
  · by_cases h2 : file = 0 <;> simp [h1, h2]
  · cases h3 : strconv.Atoi (w.getenv key) with
    | none => by_cases h2 : file = 0 <;> simp [h1, h2]
    | some v => by_cases h2 : v = 0 <;> simp [h1, h2]

theorem pickInt_getEnvAsInt_zero (w : World) (key : String) (file : Int) :
    pickInt (envInt w key) file 0 = getEnvAsInt w key file := by
  unfold pickInt envInt getEnvAsInt
  by_cases h1 : w.getenv key = ""
  · by_cases h2 : file = 0 <;> simp [h1, h2]
  · cases h3 : strconv.Atoi (w.getenv key) with
    | none => by_cases h2 : file = 0 <;> simp [h1, h2]
    | some v => by_cases h2 : v = 0 <;> simp [h1, h2]

theorem pickInt_getEnvAsDuration (w : World) (key : String) (file dflt : Int) :
    pickInt (envDuration w key) file dflt
      = if getEnvAsDuration w key file = 0 then dflt else getEnvAsDuration w key file := by
  unfold pickInt envDuration getEnvAsDuration
  by_cases h1 : w.getenv key = ""
  · by_cases h2 : file = 0 <;> simp [h1, h2]
  · cases h3 : w.parseDuration (w.getenv key) with
    | none => by_cases h2 : file = 0 <;> simp [h1, h2]
    | some v => by_cases h2 : v = 0 <;> simp [h1, h2]

theorem pickInt_none (file dflt : Int) :
    pickInt none file dflt = if file = 0 then dflt else file := by
  unfold pickInt
  by_cases h2 : file = 0 <;> simp [h2]

theorem getD_envBool (w : World) (key : String) (file : Bool) :
    (envBool w key).getD file = getEnvAsBool w key file := by
  unfold envBool getEnvAsBool
  by_cases h1 : w.getenv key = ""
  · simp [h1]
  · cases h3 : strconv.ParseBool (w.getenv key) <;> simp [h1]

/-- The two later stages of `LoadConfig` compute the precedence rule's settings. -/
theorem setDefaults_loadFromEnv (w : World) (file : AppConfig) :
    setDefaults (loadFromEnv w file) = precedenceConfig w file := by
  unfold precedenceConfig
  simp only [pickString_getEnv_zero, pickInt_getEnvAsInt_zero, getD_envBool]
  simp only [pickString_getEnv, pickInt_getEnvAsInt, pickInt_getEnvAsDuration, pickInt_none]
  rfl

theorem ite_default_ne {α : Type} [DecidableEq α] (x z d : α) (h : d ≠ z) :
    (if x = z then d else x) ≠ z := by
  by_cases hx : x = z
  · rw [if_pos hx]; exact h
  · rw [if_neg hx]; exact hx

theorem setDefaults_defaulted (c : AppConfig) : DefaultedFieldsSet (setDefaults c) := by
  unfold DefaultedFieldsSet
  repeat' apply And.intro
  all_goals exact ite_default_ne _ _ _ (by decide)

theorem loadConfig_empty_path (w : World) (g : Option AppConfig) :
    LoadConfig w "" g
      = (.ok (setDefaults (loadFromEnv w {})), some (setDefaults (loadFromEnv w {}))) := by
  unfold LoadConfig
  rw [if_neg (by simp)]

theorem loadConfig_file_error (w : World) (path : String) (g : Option AppConfig) (e : String)
    (hp : path ≠ "") (hf : loadFromFile w {} path = .error e) :
    LoadConfig w path g = (.error ("failed to load config from file: " ++ e), g) := by
  unfold LoadConfig
  rw [if_pos hp, hf]

theorem loadConfig_file_ok (w : World) (path : String) (g : Option AppConfig)
    (file : AppConfig) (hp : path ≠ "") (hf : loadFromFile w {} path = .ok file) :
    LoadConfig w path g
      = (.ok (setDefaults (loadFromEnv w file)), some (setDefaults (loadFromEnv w file))) := by
  unfold LoadConfig
  rw [if_pos hp, hf]

theorem loadFromFile_error_iff (w : World) (c : AppConfig) (path : String) :
    (∃ e, loadFromFile w c path = .error e) ↔
      ((∃ e, w.readFile path = .error e) ∨
        ∃ data e, w.readFile path = .ok data ∧ w.unmarshal data c = .error e) := by
  unfold loadFromFile
  cases hr : w.readFile path with
  | error e => simp
  | ok data => simp

theorem loadConfig_ok_cases (w : World) (path : String) (g : Option AppConfig)
    (cfg : AppConfig) (h : (LoadConfig w path g).1 = .ok cfg) :
    ∃ file, cfg = setDefaults (loadFromEnv w file) ∧ (LoadConfig w path g).2 = some cfg := by
  by_cases hp : path = ""
  · subst hp
    rw [loadConfig_empty_path] at h ⊢
    exact ⟨_, (Except.ok.inj h).symm, by rw [← Except.ok.inj h]⟩
  · cases hf : loadFromFile w {} path with
    | error e => rw [loadConfig_file_error w path g e hp hf] at h; cases h
    | ok file =>
      rw [loadConfig_file_ok w path g file hp hf] at h ⊢
      exact ⟨file, (Except.ok.inj h).symm, by rw [← Except.ok.inj h]⟩

/-- C7 as stated fails: with `SERVER_PORT=0` the environment supplies the integer 0
for the server port, yet `LoadConfig` produces the default 5001, also when the file
supplies 8080. -/
theorem loadConfig_env_zero_yields_default :
    strconv.Atoi ((worldWith "SERVER_PORT" "0").getenv "SERVER_PORT") = some 0 ∧
    (∃ cfg, (LoadConfig (worldWith "SERVER_PORT" "0") "" none).1 = .ok cfg ∧
      cfg.Server.Port = 5001) ∧
    (∃ file cfg, loadFromFile portWorld {} "config.json" = .ok file ∧
      file.Server.Port = 8080 ∧
      (LoadConfig portWorld "config.json" none).1 = .ok cfg ∧ cfg.Server.Port = 5001) :=
  ⟨by decide, ⟨_, rfl, by decide⟩, ⟨_, _, rfl, by decide, rfl, by decide⟩⟩

/-- C7, amended: the settings `LoadConfig` produces are, field by field, those of
the precedence rule defaults < file < environment in which an empty string or a zero
supplies nothing: a text field takes the non-empty environment value, else the
non-empty file value, else the default; a numeric field takes the non-zero parsed
environment value, else (the variable being unset, empty or unparsable) the non-zero
file value, else the default; a boolean takes the parsed environment value, else the
file value. -/
theorem loadConfig_precedence (w : World) (g : Option AppConfig) :
    (LoadConfig w "" g).1 = .ok (precedenceConfig w {}) ∧
    (∀ (path : String) (file : AppConfig), path ≠ "" → loadFromFile w {} path = .ok file →
      (LoadConfig w path g).1 = .ok (precedenceConfig w file)) := by
  constructor
  · rw [loadConfig_empty_path, setDefaults_loadFromEnv]
  · intro path file hp hf
    rw [loadConfig_file_ok w path g file hp hf, setDefaults_loadFromEnv]

/-- C8 as stated fails: after `setDefaults` on the zero settings the Redis password
and database index, the Stripe keys, the log file name and limits and the two
booleans are still empty / zero. -/
theorem setDefaults_leaves_zero_fields :
    (setDefaults {}).Redis.Password = "" ∧ (setDefaults {}).Redis.DB = 0 ∧
    (setDefaults {}).Stripe.SecretKey = "" ∧ (setDefaults {}).Stripe.WebhookSecret = "" ∧
    (setDefaults {}).Stripe.PublishableKey = "" ∧ (setDefaults {}).Logging.Filename = "" ∧
    (setDefaults {}).Logging.MaxSize = 0 ∧ (setDefaults {}).Logging.MaxBackups = 0 ∧
    (setDefaults {}).Logging.MaxAge = 0 ∧ (setDefaults {}).Logging.Compress = false ∧
    (setDefaults {}).Metrics.Enabled = false ∧
    (∃ cfg, (LoadConfig emptyWorld "" none).1 = .ok cfg ∧ cfg.Stripe.SecretKey = "") :=
  ⟨rfl, rfl, rfl, rfl, rfl, rfl, rfl, rfl, rfl, rfl, rfl, _, rfl, rfl⟩

/-- C8, amended: after `setDefaults`, and so in every settings object `LoadConfig`
returns, every field that has a compiled-in default is non-empty / non-zero; the
fields without one (Redis password and database index, the Stripe keys, the log
file name, size, backups, age and compression, the metrics switch) are left as
they were. -/
theorem setDefaults_fills_defaulted_fields :
    (∀ c : AppConfig, DefaultedFieldsSet (setDefaults c) ∧ OtherFieldsEqual c (setDefaults c)) ∧
    (∀ (w : World) (path : String) (g : Option AppConfig) (cfg : AppConfig),
      (LoadConfig w path g).1 = .ok cfg → DefaultedFieldsSet cfg) := by
  constructor
  · intro c
    refine ⟨setDefaults_defaulted c, ?_⟩
    unfold OtherFieldsEqual
    repeat' apply And.intro
    all_goals rfl
  · intro w path g cfg h
    obtain ⟨file, rfl, _⟩ := loadConfig_ok_cases w path g cfg h
    exact setDefaults_defaulted _

/-- C9: every variable `loadFromEnv` consults that is unset, empty or (for an
integer, boolean or duration field) not parsable leaves its field as it was before
the call; the fields with no variable are never changed; `loadFromEnv` returns a
settings object for every environment, it has no error result. -/
theorem loadFromEnv_ignores_bad_variables (w : World) (c : AppConfig) :
    (envBlank w "SERVER_HOST" → (loadFromEnv w c).Server.Host = c.Server.Host) ∧
    (envBadInt w "SERVER_PORT" → (loadFromEnv w c).Server.Port = c.Server.Port) ∧
    (envBlank w "ENVIRONMENT" → (loadFromEnv w c).Server.Environment = c.Server.Environment) ∧
    (envBlank w "DB_DRIVER" → (loadFromEnv w c).Database.Driver = c.Database.Driver) ∧
    (envBlank w "DB_HOST" → (loadFromEnv w c).Database.Host = c.Database.Host) ∧
    (envBadInt w "DB_PORT" → (loadFromEnv w c).Database.Port = c.Database.Port) ∧
    (envBlank w "DB_USER" → (loadFromEnv w c).Database.User = c.Database.User) ∧
    (envBlank w "DB_PASSWORD" → (loadFromEnv w c).Database.Password = c.Database.Password) ∧
    (envBlank w "DB_NAME" → (loadFromEnv w c).Database.Database = c.Database.Database) ∧
    (envBlank w "DB_SSLMODE" → (loadFromEnv w c).Database.SSLMode = c.Database.SSLMode) ∧
    (envBadInt w "DB_MAX_OPEN_CONNS" →
      (loadFromEnv w c).Database.MaxOpenConns = c.Database.MaxOpenConns) ∧
    (envBadInt w "DB_MAX_IDLE_CONNS" →
      (loadFromEnv w c).Database.MaxIdleConns = c.Database.MaxIdleConns) ∧
    (envBlank w "REDIS_HOST" → (loadFromEnv w c).Redis.Host = c.Redis.Host) ∧
    (envBadInt w "REDIS_PORT" → (loadFromEnv w c).Redis.Port = c.Redis.Port) ∧
    (envBlank w "REDIS_PASSWORD" → (loadFromEnv w c).Redis.Password = c.Redis.Password) ∧
    (envBadInt w "REDIS_DB" → (loadFromEnv w c).Redis.DB = c.Redis.DB) ∧
    (envBlank w "JWT_SECRET" → (loadFromEnv w c).JWT.Secret = c.JWT.Secret) ∧
    (envBadDuration w "JWT_EXPIRES_IN" → (loadFromEnv w c).JWT.ExpiresIn = c.JWT.ExpiresIn) ∧
    (envBadDuration w "JWT_REFRESH_IN" → (loadFromEnv w c).JWT.RefreshIn = c.JWT.RefreshIn) ∧
    (envBlank w "JWT_ISSUER" → (loadFromEnv w c).JWT.Issuer = c.JWT.Issuer) ∧
    (envBlank w "JWT_AUDIENCE" → (loadFromEnv w c).JWT.Audience = c.JWT.Audience) ∧
    (envBlank w "STRIPE_SECRET_KEY" → (loadFromEnv w c).Stripe.SecretKey = c.Stripe.SecretKey) ∧
    (envBlank w "STRIPE_WEBHOOK_SECRET" →
      (loadFromEnv w c).Stripe.WebhookSecret = c.Stripe.WebhookSecret) ∧
    (envBlank w "STRIPE_PUBLISHABLE_KEY" →
      (loadFromEnv w c).Stripe.PublishableKey = c.Stripe.PublishableKey) ∧
    (envBlank w "LOG_LEVEL" → (loadFromEnv w c).Logging.Level = c.Logging.Level) ∧
    (envBlank w "LOG_FORMAT" → (loadFromEnv w c).Logging.Format = c.Logging.Format) ∧
    (envBlank w "LOG_OUTPUT" → (loadFromEnv w c).Logging.Output = c.Logging.Output) ∧
    (envBlank w "LOG_FILENAME" → (loadFromEnv w c).Logging.Filename = c.Logging.Filename) ∧
    (envBadInt w "LOG_MAX_SIZE" → (loadFromEnv w c).Logging.MaxSize = c.Logging.MaxSize) ∧
    (envBadInt w "LOG_MAX_BACKUPS" → (loadFromEnv w c).Logging.MaxBackups = c.Logging.MaxBackups) ∧
    (envBadInt w "LOG_MAX_AGE" → (loadFromEnv w c).Logging.MaxAge = c.Logging.MaxAge) ∧
    (envBadBool w "LOG_COMPRESS" → (loadFromEnv w c).Logging.Compress = c.Logging.Compress) ∧
    (envBadDuration w "CACHE_DEFAULT_TTL" →
      (loadFromEnv w c).Cache.DefaultTTL = c.Cache.DefaultTTL) ∧
    (envBadInt w "CACHE_MAX_SIZE" → (loadFromEnv w c).Cache.MaxSize = c.Cache.MaxSize) ∧
    (envBadDuration w "CACHE_CLEANUP_INTERVAL" →
      (loadFromEnv w c).Cache.CleanupInterval = c.Cache.CleanupInterval) ∧
    (envBadBool w "METRICS_ENABLED" → (loadFromEnv w c).Metrics.Enabled = c.Metrics.Enabled) ∧
    (envBadInt w "METRICS_PORT" → (loadFromEnv w c).Metrics.Port = c.Metrics.Port) ∧
    (envBlank w "METRICS_PATH" → (loadFromEnv w c).Metrics.Path = c.Metrics.Path) ∧
    (envBlank w "METRICS_NAMESPACE" → (loadFromEnv w c).Metrics.Namespace = c.Metrics.Namespace) ∧
    (loadFromEnv w c).Server.ReadTimeout = c.Server.ReadTimeout ∧
    (loadFromEnv w c).Server.WriteTimeout = c.Server.WriteTimeout ∧
    (loadFromEnv w c).Server.IdleTimeout = c.Server.IdleTimeout ∧
    (loadFromEnv w c).Database.ConnMaxLifetime = c.Database.ConnMaxLifetime ∧
    (loadFromEnv w c).Database.ConnMaxIdleTime = c.Database.ConnMaxIdleTime := by
  repeat' apply And.intro
  all_goals first
    | exact getEnv_of_blank w _ _
    | exact getEnvAsInt_of_bad w _ _
    | exact getEnvAsBool_of_bad w _ _
    | exact getEnvAsDuration_of_bad w _ _
    | rfl

/-- C9, at an environment whose `SERVER_PORT` is not an integer and whose
`LOG_COMPRESS` is unset. -/
theorem loadFromEnv_ignores_bad_variables_witness :
    envBadInt (worldWith "SERVER_PORT" "80a0") "SERVER_PORT" ∧
    (loadFromEnv (worldWith "SERVER_PORT" "80a0")
      { Server := { Port := 7000 } }).Server.Port = 7000 ∧
    envBadBool (worldWith "SERVER_PORT" "80a0") "LOG_COMPRESS" ∧
    (loadFromEnv (worldWith "SERVER_PORT" "80a0")
      { Logging := { Compress := true } }).Logging.Compress = true := by
  have h1 : envBadInt (worldWith "SERVER_PORT" "80a0") "SERVER_PORT" := Or.inr (by decide)
  have h2 : envBadBool (worldWith "SERVER_PORT" "80a0") "LOG_COMPRESS" := Or.inl (by decide)
  exact ⟨h1,
    (loadFromEnv_ignores_bad_variables (worldWith "SERVER_PORT" "80a0")
      { Server := { Port := 7000 } }).2.1 h1,
    h2,
    (loadFromEnv_ignores_bad_variables (worldWith "SERVER_PORT" "80a0")
      { Logging := { Compress := true } }).2.2.2.2.2.2.2.2.2.2.2.2.2.2.2.2.2.2.2.2.2.2.2.2.2.2.2.2.2.2.2.1 h2⟩

/-- C10: `LoadConfig` returns an error exactly when the path is non-empty and
reading or parsing the file fails; then it returns no settings object and leaves
`globalConfig` as it was; with the empty path it succeeds and stores the settings
it returns; `GetConfig` never returns nil. -/
theorem loadConfig_fails_only_on_file (w : World) (path : String) (g : Option AppConfig) :
    ((∃ e, (LoadConfig w path g).1 = .error e) ↔
      path ≠ "" ∧ ((∃ e, w.readFile path = .error e) ∨
        ∃ data e, w.readFile path = .ok data ∧ w.unmarshal data {} = .error e)) ∧
    ((∃ e, (LoadConfig w path g).1 = .error e) → (LoadConfig w path g).2 = g) ∧
    (∀ cfg, (LoadConfig w path g).1 = .ok cfg → (LoadConfig w path g).2 = some cfg) ∧
    (∃ cfg, LoadConfig w "" g = (.ok cfg, some cfg)) ∧
    (GetConfig w g).1 ≠ none ∧ (GetConfig w g).2 ≠ none := by
  have herr : (∃ e, (LoadConfig w path g).1 = .error e) ↔
      path ≠ "" ∧ ∃ e, loadFromFile w {} path = .error e := by
    by_cases hp : path = ""
    · subst hp
      rw [loadConfig_empty_path]
      simp
    · cases hf : loadFromFile w {} path with
      | error e => rw [loadConfig_file_error w path g e hp hf]; simp [hp]
      | ok file => rw [loadConfig_file_ok w path g file hp hf]; simp
  refine ⟨?_, ?_, ?_, ?_, ?_, ?_⟩
  · rw [herr, loadFromFile_error_iff]
  · intro h
    obtain ⟨hp, e, hf⟩ := herr.mp h
    rw [loadConfig_file_error w path g e hp hf]
  · intro cfg h
    exact (loadConfig_ok_cases w path g cfg h).choose_spec.2
  · exact ⟨_, loadConfig_empty_path w g⟩
  · cases g with
    | none => simp [GetConfig, loadConfig_empty_path]
    | some c => simp [GetConfig]
  · cases g with
    | none => simp [GetConfig, loadConfig_empty_path]
    | some c => simp [GetConfig]

/-- C10, at a path that cannot be read. -/
theorem loadConfig_fails_only_on_file_witness :
    (LoadConfig emptyWorld "missing.json" none).1
      = .error "failed to load config from file: open: no such file or directory" ∧
    (LoadConfig emptyWorld "missing.json" none).2 = none ∧
    (GetConfig emptyWorld none).1 ≠ none := by
  have h := loadConfig_fails_only_on_file emptyWorld "missing.json" none
  exact ⟨rfl, h.2.1 ⟨_, rfl⟩, h.2.2.2.2.1⟩

end Config

/-! ## Database connector -/

namespace Database

/-- C11 fails on the code: `InitDatabase` reads `DB_SSLMODE` like the other five
variables but does not test it. In every environment in which the other five are
set, it calls `sql.Open`, with the value of `DB_SSLMODE` in the data source name,
whether that value is blank or not; at the environment with `DB_SSLMODE` blank and
the other five set it returns no error, opens a connection with an empty `sslmode`
and replaces the shared handle. -/
theorem initDatabase_blank_sslmode_opens :
    (∀ (w : World) (DB : Option Handle),
      w.getenv "DB_HOST" ≠ "" → w.getenv "DB_PORT" ≠ "" → w.getenv "DB_USER" ≠ "" →
      w.getenv "DB_PASSWORD" ≠ "" → w.getenv "DB_NAME" ≠ "" →
        (InitDatabase w DB).opened
          = ["host=" ++ w.getenv "DB_HOST" ++ " port=" ++ w.getenv "DB_PORT" ++ " user="
              ++ w.getenv "DB_USER" ++ " password=" ++ w.getenv "DB_PASSWORD" ++ " dbname="
              ++ w.getenv "DB_NAME" ++ " sslmode=" ++ w.getenv "DB_SSLMODE"] ∧
        (w.sqlOpen "postgres" ("host=" ++ w.getenv "DB_HOST" ++ " port=" ++ w.getenv "DB_PORT"
              ++ " user=" ++ w.getenv "DB_USER" ++ " password=" ++ w.getenv "DB_PASSWORD"
              ++ " dbname=" ++ w.getenv "DB_NAME" ++ " sslmode=" ++ w.getenv "DB_SSLMODE")
            = none →
          (InitDatabase w DB).DB ≠ none)) ∧
    (envWorld "localhost" "5432" "shop" "secret" "ecommerce" "").getenv "DB_SSLMODE" = "" ∧
    (InitDatabase (envWorld "localhost" "5432" "shop" "secret" "ecommerce" "") none).err
      = none ∧
    (InitDatabase (envWorld "localhost" "5432" "shop" "secret" "ecommerce" "") none).opened
      = ["host=localhost port=5432 user=shop password=secret dbname=ecommerce sslmode="] ∧
    (InitDatabase (envWorld "localhost" "5432" "shop" "secret" "ecommerce" "") none).DB
      ≠ none := by
  refine ⟨?_, by decide, by decide, by decide, by decide⟩
  intro w DB h1 h2 h3 h4 h5
  have hno : ¬ (w.getenv "DB_HOST" = "" ∨ w.getenv "DB_PORT" = "" ∨ w.getenv "DB_USER" = "" ∨
      w.getenv "DB_PASSWORD" = "" ∨ w.getenv "DB_NAME" = "") := by
    rintro (h | h | h | h | h)
    · exact h1 h
    · exact h2 h
    · exact h3 h
    · exact h4 h
    · exact h5 h
  unfold InitDatabase
  simp only []
  rw [if_neg hno]
  constructor
  · split
    · rfl
    · split <;> rfl
  · intro hopen
    rw [hopen]
    simp only []
    split <;> simp

/-- What the test of `InitDatabase` covers: when at least one of the five variables
`DB_HOST`, `DB_PORT`, `DB_USER`, `DB_PASSWORD`, `DB_NAME` is blank, it returns the
missing-variables error (which prints the five values), calls `sql.Open` not at
all and leaves the shared handle as it was. -/
theorem initDatabase_missing_variable (w : World) (DB : Option Handle)
    (hblank : w.getenv "DB_HOST" = "" ∨ w.getenv "DB_PORT" = "" ∨ w.getenv "DB_USER" = "" ∨
      w.getenv "DB_PASSWORD" = "" ∨ w.getenv "DB_NAME" = "") :
    (InitDatabase w DB).err
      = some ("missing required database environment variables: DB_HOST="
        ++ w.getenv "DB_HOST" ++ ", DB_PORT=" ++ w.getenv "DB_PORT" ++ ", DB_USER="
        ++ w.getenv "DB_USER" ++ ", DB_PASSWORD=" ++ w.getenv "DB_PASSWORD" ++ ", DB_NAME="
        ++ w.getenv "DB_NAME") ∧
    (InitDatabase w DB).opened = [] ∧
    (InitDatabase w DB).DB = DB := by
  unfold InitDatabase
  simp only []
  rw [if_pos hblank]
  exact ⟨rfl, rfl, rfl⟩

/-- The test of `InitDatabase` at an environment without `DB_PASSWORD`. -/
theorem initDatabase_missing_variable_at_blank_password :
    (InitDatabase (envWorld "localhost" "5432" "shop" "" "ecommerce" "disable") none).err
      = some ("missing required database environment variables: DB_HOST=localhost, "
        ++ "DB_PORT=5432, DB_USER=shop, DB_PASSWORD=, DB_NAME=ecommerce") ∧
    (InitDatabase (envWorld "localhost" "5432" "shop" "" "ecommerce" "disable") none).opened
      = [] ∧
    (InitDatabase (envWorld "localhost" "5432" "shop" "" "ecommerce" "disable") none).DB
      = none := by
  have h := initDatabase_missing_variable
    (envWorld "localhost" "5432" "shop" "" "ecommerce" "disable") none
    (Or.inr (Or.inr (Or.inr (Or.inl (by decide)))))
  exact ⟨h.1.trans (by decide), h.2.1, h.2.2⟩

end Database

/-! ## Seed units: orders and reviews -/

namespace Seeds

set_option maxRecDepth 100000

@[simp]
theorem Intn_events {σ μ : Type} (src : Nat → Nat) (n : Nat) (st : SeedState σ μ) :
    (Intn src n st).2.events = st.events := rfl

@[simp]
theorem Intn_sleeps {σ μ : Type} (src : Nat → Nat) (n : Nat) (st : SeedState σ μ) :
    (Intn src n st).2.sleeps = st.sleeps := rfl

@[simp]
theorem sleep_events {σ μ : Type} (ms : Nat) (st : SeedState σ μ) :
    (sleep ms st).events = st.events ++ [{ stmt := .sleep ms, ok := true }] := rfl

@[simp]
theorem sleep_sleeps {σ μ : Type} (ms : Nat) (st : SeedState σ μ) :
    (sleep ms st).sleeps = st.sleeps ++ [ms] := rfl

@[simp]
theorem queryRowBool_events {σ μ : Type} (db : Database σ μ) (stmt : Stmt μ)
    (st : SeedState σ μ) :
    (queryRowBool db stmt st).2.events
      = st.events ++ [{ stmt := stmt, ok := isOk (queryRowBool db stmt st).1 }] := rfl

@[simp]
theorem queryRowBool_sleeps {σ μ : Type} (db : Database σ μ) (stmt : Stmt μ)
    (st : SeedState σ μ) : (queryRowBool db stmt st).2.sleeps = st.sleeps := rfl

@[simp]
theorem queryRowId_events {σ μ : Type} (db : Database σ μ) (stmt : Stmt μ)
    (st : SeedState σ μ) :
    (queryRowId db stmt st).2.events
      = st.events ++ [{ stmt := stmt, ok := isOk (queryRowId db stmt st).1,
                        id := scannedId (queryRowId db stmt st).1 }] := rfl

@[simp]
theorem exec_events {σ μ : Type} (db : Database σ μ) (stmt : Stmt μ)
    (st : SeedState σ μ) :
    (exec db stmt st).2.events
      = st.events ++ [{ stmt := stmt, ok := (exec db stmt st).1.isNone }] := rfl

theorem AttemptBlock.facts {μ : Type} {ms : Nat} {b : List (Event μ)}
    (h : AttemptBlock ms b) :
    b.countP (fun e => isUserQuery e.stmt) = 1 ∧
    ∀ e ∈ b, isSleep e.stmt = true ∨ isUserQuery e.stmt = true ∨
      isUserCheck e.stmt = true := by
  obtain ⟨q, checks, rfl, hq, hc⟩ := h
  constructor
  · have h0 : checks.countP (fun e => isUserQuery e.stmt) = 0 := by
      apply List.countP_eq_zero.mpr
      intro e he
      have := hc e he
      cases hst : e.stmt <;> simp [hst, isUserCheck] at this
      simp [isUserQuery]
    rw [List.countP_cons_of_neg _ _ (by simp [isUserQuery]),
      List.countP_cons_of_pos _ _ (by simpa using hq), h0]
  · intro e he
    rcases List.mem_cons.mp he with rfl | he
    · exact Or.inl rfl
    · rcases List.mem_cons.mp he with rfl | he
      · exact Or.inr (Or.inl hq)
      · exact Or.inr (Or.inr (hc e he))

/-- The steps of `n` attempts, with the matching sleeps, make a retry trace. -/
theorem RetryTrace.of_blocks {σ μ : Type} (before after : SeedState σ μ) (n : Nat)
    (new : List (Event μ)) (h1 : 1 ≤ n) (h3 : n ≤ 3)
    (he : after.events = before.events ++ new) (hb : RetryBlocks new n)
    (hs : after.sleeps = before.sleeps ++ [500, 1000, 1500].take n) :
    RetryTrace before after n := by
  have hsum : ([500, 1000, 1500].take n).sum ≤ 3000 := by
    interval_cases n <;> simp
  refine ⟨h1, h3, ⟨new, he, ?_, ?_, hb⟩, hs, hsum⟩
  · obtain ⟨b1, b2, b3, a1, a2, a3, h | h | h⟩ := hb
    · rw [h.2, h.1]; exact a1.facts.1
    · rw [h.2, h.1, List.countP_append, a1.facts.1, a2.facts.1]
    · rw [h.2, h.1, List.countP_append, List.countP_append, a1.facts.1, a2.facts.1,
        a3.facts.1]
  · intro e hmem
    obtain ⟨b1, b2, b3, a1, a2, a3, h | h | h⟩ := hb
    · rw [h.2] at hmem; exact a1.facts.2 e hmem
    · rw [h.2] at hmem
      rcases List.mem_append.mp hmem with hm | hm
      · exact a1.facts.2 e hm
      · exact a2.facts.2 e hm
    · rw [h.2] at hmem
      rcases List.mem_append.mp hmem with hm | hm
      · rcases List.mem_append.mp hm with hm | hm
        · exact a1.facts.2 e hm
        · exact a2.facts.2 e hm
      · exact a3.facts.2 e hm

namespace OrderSeeder

@[simp]
theorem queryUserIds_events {σ μ : Type} (db : Database σ μ) (st : SeedState σ μ) :
    (queryUserIds db st).2.events
      = st.events ++ [{ stmt := .selectUserIds, ok := isOk (queryUserIds db st).1 }] := rfl

@[simp]
theorem queryUserIds_sleeps {σ μ : Type} (db : Database σ μ) (st : SeedState σ μ) :
    (queryUserIds db st).2.sleeps = st.sleeps := rfl

/-- The row scan issues user existence queries only and does not sleep. -/
theorem scanUsers_spec {σ μ : Type} (db : Database σ μ) (rows : List (Except String String)) :
    ∀ (users : List OrderUser) (st : SeedState σ μ),
      (scanUsers db rows users st).2.sleeps = st.sleeps ∧
      ∃ new, (scanUsers db rows users st).2.events = st.events ++ new ∧
        ∀ e ∈ new, isUserCheck e.stmt = true := by
  induction rows with
  | nil => intro users st; exact ⟨rfl, [], by simp [scanUsers], by simp⟩
  | cons row rows ih =>
    intro users st
    cases row with
    | error e => simpa [scanUsers] using ih users st
    | ok id =>
      simp only [scanUsers]
      by_cases hid : id = ""
      · simpa [hid] using ih users st
      · rw [if_pos hid]
        have key : ∀ us : List OrderUser,
            (scanUsers db rows us (queryRowBool db (.userExists id) st).2).2.sleeps = st.sleeps ∧
            ∃ new, (scanUsers db rows us (queryRowBool db (.userExists id) st).2).2.events
                = st.events ++ new ∧ ∀ e ∈ new, isUserCheck e.stmt = true := by
          intro us
          obtain ⟨hs, new, hn, hp⟩ := ih us (queryRowBool db (.userExists id) st).2
          refine ⟨by rw [hs]; rfl,
            { stmt := .userExists id, ok := isOk (queryRowBool db (.userExists id) st).1 } :: new,
            by rw [hn]; simp, ?_⟩
          intro e he
          rcases List.mem_cons.mp he with rfl | he
          · rfl
          · exact hp e he
        split
        · exact key _
        · exact key _

/-- One attempt issues the user-list query once, then existence queries only, and
does not sleep. -/
theorem attempt_spec {σ μ : Type} (db : Database σ μ) (st : SeedState σ μ) :
    (attempt db st).2.sleeps = st.sleeps ∧
    ∃ ok new, (attempt db st).2.events
        = st.events ++ { stmt := .selectUserIds, ok := ok } :: new ∧
      ∀ e ∈ new, isUserCheck e.stmt = true := by
  unfold attempt
  split
  · exact ⟨rfl, isOk (queryUserIds db st).1, [], by simp, by simp⟩
  · next rows h =>
    obtain ⟨hs, new, hn, hp⟩ := scanUsers_spec db rows [] (queryUserIds db st).2
    exact ⟨by rw [hs]; rfl, isOk (queryUserIds db st).1, new, by rw [hn]; simp, hp⟩

/-- The variable `err` of `getRegularUsers` is never assigned in the loop. -/
theorem retryLoop_err {σ μ : Type} (db : Database σ μ) :
    ∀ (fuel retry : Nat) (users : List OrderUser) (err : Option String) (st : SeedState σ μ),
      (retryLoop db fuel retry users err st).1.2 = err := by
  intro fuel
  induction fuel with
  | zero => intro retry users err st; rfl
  | succ fuel ih =>
    intro retry users err st
    simp only [retryLoop]
    by_cases h : retry < maxRetries
    · rw [if_pos h]
      generalize queryUserIds db (if retry > 0 then sleep ((retry + 1) * 500) st else st) = q
      rcases q with ⟨q1, q2⟩
      cases q1 with
      | error e => exact ih _ _ _ _
      | ok rows =>
        simp only []
        split
        · rfl
        · exact ih _ _ _ _
    · rw [if_neg h]

/-- One iteration of the retry loop, entered with no users yet. -/
theorem retryLoop_step {σ μ : Type} (db : Database σ μ) (fuel retry : Nat)
    (err : Option String) (st : SeedState σ μ) (h : retry < 3) :
    retryLoop db (fuel + 1) retry [] err st =
      if (attempt db (if retry > 0 then sleep ((retry + 1) * 500) st else st)).1.length > 0 then
        (((attempt db (if retry > 0 then sleep ((retry + 1) * 500) st else st)).1, err),
          (attempt db (if retry > 0 then sleep ((retry + 1) * 500) st else st)).2)
      else
        retryLoop db fuel (retry + 1) [] err
          (attempt db (if retry > 0 then sleep ((retry + 1) * 500) st else st)).2 := by
  have h3 : retry < maxRetries := h
  simp only [retryLoop, if_pos h3, attempt]
  cases hq : (queryUserIds db (if retry > 0 then sleep ((retry + 1) * 500) st else st)).1 with
  | error e => simp
  | ok rows =>
    simp only []
    by_cases hl : (scanUsers db rows []
        (queryUserIds db (if retry > 0 then sleep ((retry + 1) * 500) st else st)).2).1.length > 0
    · rw [if_pos hl, if_pos hl]
    · rw [if_neg hl, if_neg hl]
      have : (scanUsers db rows []
          (queryUserIds db (if retry > 0 then sleep ((retry + 1) * 500) st else st)).2).1 = [] :=
        List.length_eq_zero.mp (by omega)
      rw [this]

/-- The retry loop of `getRegularUsers`, unrolled: at most three attempts, the
first one that yields users ends the loop. -/
theorem getRegularUsers_unrolled {σ μ : Type} (db : Database σ μ) (st : SeedState σ μ) :
    getRegularUsers db st =
      if (attempt db (sleep 500 st)).1.length > 0 then
        (((attempt db (sleep 500 st)).1, none), (attempt db (sleep 500 st)).2)
      else if (attempt db (sleep 1000 (attempt db (sleep 500 st)).2)).1.length > 0 then
        (((attempt db (sleep 1000 (attempt db (sleep 500 st)).2)).1, none),
          (attempt db (sleep 1000 (attempt db (sleep 500 st)).2)).2)
      else
        (((attempt db (sleep 1500
            (attempt db (sleep 1000 (attempt db (sleep 500 st)).2)).2)).1, none),
          (attempt db (sleep 1500
            (attempt db (sleep 1000 (attempt db (sleep 500 st)).2)).2)).2) := by
  unfold getRegularUsers maxRetries
  rw [retryLoop_step db 2 0 none _ (by omega)]
  simp only [gt_iff_lt, lt_self_iff_false, if_false]
  split
  · rfl
  · rw [retryLoop_step db 1 1 none _ (by omega)]
    simp only [gt_iff_lt, Nat.lt_one_iff, Nat.one_pos, if_true]
    split
    · rfl
    · rw [retryLoop_step db 0 2 none _ (by omega)]
      simp only [gt_iff_lt, Nat.ofNat_pos, if_true]
      split
      · rfl
      · next h =>
        have : (attempt db (sleep ((2 + 1) * 500)
            (attempt db (sleep ((1 + 1) * 500) (attempt db (sleep 500 st)).2)).2)).1 = [] :=
          List.length_eq_zero.mp (by omega)
        simp [retryLoop, this]

theorem getRegularUsers_eq_threeAttempts {σ μ : Type} (db : Database σ μ)
    (st : SeedState σ μ) :
    getRegularUsers db st = (((threeAttempts db st).1, none), (threeAttempts db st).2) := by
  rw [getRegularUsers_unrolled]
  unfold threeAttempts
  split
  · rfl
  · split
    · rfl
    · rfl

/-- A sleep and the attempt after it, as a change of the state: the sleep, then the
user-list query, then existence queries. -/
theorem sleep_attempt_block {σ μ : Type} (db : Database σ μ) (ms : Nat)
    (st : SeedState σ μ) :
    (attempt db (sleep ms st)).2.sleeps = st.sleeps ++ [ms] ∧
    ∃ b, (attempt db (sleep ms st)).2.events = st.events ++ b ∧ AttemptBlock ms b := by
  obtain ⟨hs, ok, new, hn, hp⟩ := attempt_spec db (sleep ms st)
  refine ⟨by rw [hs]; rfl,
    ⟨.sleep ms, true, ""⟩ :: ⟨.selectUserIds, ok, ""⟩ :: new, by rw [hn, sleep_events]; simp,
    ⟨⟨.selectUserIds, ok, ""⟩, new, rfl, rfl, hp⟩⟩

/-- The three attempts leave the trace of the retry rule: one to three attempts,
each a sleep of 500, 1000, 1500 ms followed by its user-list query, and they end
before the third only with users. -/
theorem threeAttempts_trace {σ μ : Type} (db : Database σ μ) (st : SeedState σ μ) :
    ∃ n, RetryTrace st (threeAttempts db st).2 n ∧
      (n < 3 → (threeAttempts db st).1 ≠ []) := by
  obtain ⟨s1, b1, e1, a1⟩ := sleep_attempt_block db 500 st
  obtain ⟨s2, b2, e2, a2⟩ := sleep_attempt_block db 1000 (attempt db (sleep 500 st)).2
  obtain ⟨s3, b3, e3, a3⟩ := sleep_attempt_block db 1500
    (attempt db (sleep 1000 (attempt db (sleep 500 st)).2)).2
  unfold threeAttempts
  split
  · next h =>
    refine ⟨1, RetryTrace.of_blocks _ _ 1 b1 (by omega) (by omega) e1
      ⟨b1, b2, b3, a1, a2, a3, Or.inl ⟨rfl, rfl⟩⟩ (by rw [s1]; rfl), ?_⟩
    intro _ h0
    rw [h0] at h
    simp at h
  · split
    · next h =>
      refine ⟨2, RetryTrace.of_blocks _ _ 2 (b1 ++ b2) (by omega) (by omega)
        (by rw [e2, e1, List.append_assoc])
        ⟨b1, b2, b3, a1, a2, a3, Or.inr (Or.inl ⟨rfl, rfl⟩)⟩ (by rw [s2, s1]; simp), ?_⟩
      intro _ h0
      rw [h0] at h
      simp at h
    · refine ⟨3, RetryTrace.of_blocks _ _ 3 (b1 ++ b2 ++ b3) (by omega) (by omega)
        (by rw [e3, e2, e1, List.append_assoc, List.append_assoc, List.append_assoc])
        ⟨b1, b2, b3, a1, a2, a3, Or.inr (Or.inr ⟨rfl, rfl⟩)⟩ (by rw [s3, s2, s1]; simp), ?_⟩
      intro h; omega

end OrderSeeder

namespace ReviewSeeder

@[simp]
theorem queryUsers_events {σ μ : Type} (db : Database σ μ) (st : SeedState σ μ) :
    (queryUsers db st).2.events
      = st.events ++ [{ stmt := .selectUsers, ok := isOk (queryUsers db st).1 }] := rfl

@[simp]
theorem queryUsers_sleeps {σ μ : Type} (db : Database σ μ) (st : SeedState σ μ) :
    (queryUsers db st).2.sleeps = st.sleeps := rfl

/-- The row scan issues user existence queries only and does not sleep. -/
theorem review_scanUsers_spec {σ μ : Type} (db : Database σ μ) (rows : List (Except String (String × String))) :
    ∀ (users : List ReviewUser) (st : SeedState σ μ),
      (scanUsers db rows users st).2.sleeps = st.sleeps ∧
      ∃ new, (scanUsers db rows users st).2.events = st.events ++ new ∧
        ∀ e ∈ new, isUserCheck e.stmt = true := by
  induction rows with
  | nil => intro users st; exact ⟨rfl, [], by simp [scanUsers], by simp⟩
  | cons row rows ih =>
    intro users st
    cases row with
    | error e => simpa [scanUsers] using ih users st
    | ok row =>
      simp only [scanUsers]
      by_cases hid : row.1 = ""
      · simpa [hid] using ih users st
      · rw [if_pos hid]
        have key : ∀ us : List ReviewUser,
            (scanUsers db rows us (queryRowBool db (.userExists row.1) st).2).2.sleeps = st.sleeps ∧
            ∃ new, (scanUsers db rows us (queryRowBool db (.userExists row.1) st).2).2.events
                = st.events ++ new ∧ ∀ e ∈ new, isUserCheck e.stmt = true := by
          intro us
          obtain ⟨hs, new, hn, hp⟩ := ih us (queryRowBool db (.userExists row.1) st).2
          refine ⟨by rw [hs]; rfl,
            { stmt := .userExists row.1, ok := isOk (queryRowBool db (.userExists row.1) st).1 } :: new,
            by rw [hn]; simp, ?_⟩
          intro e he
          rcases List.mem_cons.mp he with rfl | he
          · rfl
          · exact hp e he
        split
        · exact key _
        · exact key _

/-- One attempt issues the user-list query once, then existence queries only, and
does not sleep. -/
theorem review_attempt_spec {σ μ : Type} (db : Database σ μ) (st : SeedState σ μ) :
    (attempt db st).2.sleeps = st.sleeps ∧
    ∃ ok new, (attempt db st).2.events
        = st.events ++ { stmt := .selectUsers, ok := ok } :: new ∧
      ∀ e ∈ new, isUserCheck e.stmt = true := by
  unfold attempt
  split
  · exact ⟨rfl, isOk (queryUsers db st).1, [], by simp, by simp⟩
  · next rows h =>
    obtain ⟨hs, new, hn, hp⟩ := review_scanUsers_spec db rows [] (queryUsers db st).2
    exact ⟨by rw [hs]; rfl, isOk (queryUsers db st).1, new, by rw [hn]; simp, hp⟩

/-- One iteration of the retry loop, entered with no users yet. -/
theorem review_retryLoop_step {σ μ : Type} (db : Database σ μ) (fuel retry : Nat)
    (st : SeedState σ μ) (h : retry < 3) :
    retryLoop db (fuel + 1) retry [] st =
      if (attempt db (if retry > 0 then sleep ((retry + 1) * 500) st else st)).1.length > 0 then
        attempt db (if retry > 0 then sleep ((retry + 1) * 500) st else st)
      else
        retryLoop db fuel (retry + 1) []
          (attempt db (if retry > 0 then sleep ((retry + 1) * 500) st else st)).2 := by
  have h3 : retry < maxRetries := h
  simp only [retryLoop, if_pos h3, attempt]
  cases hq : (queryUsers db (if retry > 0 then sleep ((retry + 1) * 500) st else st)).1 with
  | error e => simp
  | ok rows =>
    simp only []
    by_cases hl : (scanUsers db rows []
        (queryUsers db (if retry > 0 then sleep ((retry + 1) * 500) st else st)).2).1.length > 0
    · rw [if_pos hl, if_pos hl]
    · rw [if_neg hl, if_neg hl]
      have : (scanUsers db rows []
          (queryUsers db (if retry > 0 then sleep ((retry + 1) * 500) st else st)).2).1 = [] :=
        List.length_eq_zero.mp (by omega)
      rw [this]

/-- The retry loop of `getRegularUsers` makes the three attempts of the rule. -/
theorem retryLoop_eq_threeAttempts {σ μ : Type} (db : Database σ μ) (st : SeedState σ μ) :
    retryLoop db maxRetries 0 [] (sleep 500 st) = threeAttempts db st := by
  unfold maxRetries threeAttempts
  rw [review_retryLoop_step db 2 0 _ (by omega)]
  simp only [gt_iff_lt, lt_self_iff_false, if_false]
  split
  · rfl
  · rw [review_retryLoop_step db 1 1 _ (by omega)]
    simp only [gt_iff_lt, Nat.lt_one_iff, Nat.one_pos, if_true]
    split
    · rfl
    · rw [review_retryLoop_step db 0 2 _ (by omega)]
      simp only [gt_iff_lt, Nat.ofNat_pos, if_true]
      split
      · rfl
      · next h =>
        have : (attempt db (sleep ((2 + 1) * 500)
            (attempt db (sleep ((1 + 1) * 500) (attempt db (sleep 500 st)).2)).2)).1 = [] :=
          List.length_eq_zero.mp (by omega)
        rw [retryLoop]
        exact Prod.ext this.symm rfl

theorem review_getRegularUsers_eq_threeAttempts {σ μ : Type} (db : Database σ μ)
    (st : SeedState σ μ) :
    getRegularUsers db st =
      (if (threeAttempts db st).1.length = 0 then
        (.error "no regular users found after 3 retries", (threeAttempts db st).2)
      else (.ok (threeAttempts db st).1, (threeAttempts db st).2)) := by
  unfold getRegularUsers
  simp only [retryLoop_eq_threeAttempts]
  split
  · rw [show ("no regular users found after " ++ toString maxRetries ++ " retries" : String)
      = "no regular users found after 3 retries" by decide]
  · rfl

/-- A sleep and the attempt after it, as a change of the state: the sleep, then the
user-list query, then existence queries. -/
theorem review_sleep_attempt_block {σ μ : Type} (db : Database σ μ) (ms : Nat)
    (st : SeedState σ μ) :
    (attempt db (sleep ms st)).2.sleeps = st.sleeps ++ [ms] ∧
    ∃ b, (attempt db (sleep ms st)).2.events = st.events ++ b ∧ AttemptBlock ms b := by
  obtain ⟨hs, ok, new, hn, hp⟩ := review_attempt_spec db (sleep ms st)
  refine ⟨by rw [hs]; rfl,
    ⟨.sleep ms, true, ""⟩ :: ⟨.selectUsers, ok, ""⟩ :: new, by rw [hn, sleep_events]; simp,
    ⟨⟨.selectUsers, ok, ""⟩, new, rfl, rfl, hp⟩⟩

/-- The three attempts leave the trace of the retry rule: one to three attempts,
each a sleep of 500, 1000, 1500 ms followed by its user-list query, and they end
before the third only with users. -/
theorem review_threeAttempts_trace {σ μ : Type} (db : Database σ μ) (st : SeedState σ μ) :
    ∃ n, RetryTrace st (threeAttempts db st).2 n ∧
      (n < 3 → (threeAttempts db st).1 ≠ []) := by
  obtain ⟨s1, b1, e1, a1⟩ := review_sleep_attempt_block db 500 st
  obtain ⟨s2, b2, e2, a2⟩ := review_sleep_attempt_block db 1000 (attempt db (sleep 500 st)).2
  obtain ⟨s3, b3, e3, a3⟩ := review_sleep_attempt_block db 1500
    (attempt db (sleep 1000 (attempt db (sleep 500 st)).2)).2
  unfold threeAttempts
  split
  · next h =>
    refine ⟨1, RetryTrace.of_blocks _ _ 1 b1 (by omega) (by omega) e1
      ⟨b1, b2, b3, a1, a2, a3, Or.inl ⟨rfl, rfl⟩⟩ (by rw [s1]; rfl), ?_⟩
    intro _ h0
    rw [h0] at h
    simp at h
  · split
    · next h =>
      refine ⟨2, RetryTrace.of_blocks _ _ 2 (b1 ++ b2) (by omega) (by omega)
        (by rw [e2, e1, List.append_assoc])
        ⟨b1, b2, b3, a1, a2, a3, Or.inr (Or.inl ⟨rfl, rfl⟩)⟩ (by rw [s2, s1]; simp), ?_⟩
      intro _ h0
      rw [h0] at h
      simp at h
    · refine ⟨3, RetryTrace.of_blocks _ _ 3 (b1 ++ b2 ++ b3) (by omega) (by omega)
        (by rw [e3, e2, e1, List.append_assoc, List.append_assoc, List.append_assoc])
        ⟨b1, b2, b3, a1, a2, a3, Or.inr (Or.inr ⟨rfl, rfl⟩)⟩ (by rw [s3, s2, s1]; simp), ?_⟩
      intro h; omega

end ReviewSeeder

theorem append_ne_of_prefix (p q e1 e2 : String) (n : Nat) (hp : n ≤ p.data.length)
    (hq : n ≤ q.data.length) (hne : p.data.take n ≠ q.data.take n) : p ++ e1 ≠ q ++ e2 := by
  intro h
  have h2 := congrArg (fun s => s.data.take n) h
  simp only [String.data_append] at h2
  rw [List.take_append_of_le_length hp, List.take_append_of_le_length hq] at h2
  exact hne h2

theorem ne_of_prefix (p q e2 : String) (n : Nat) (hp : n ≤ p.data.length)
    (hq : n ≤ q.data.length) (hne : p.data.take n ≠ q.data.take n) : p ≠ q ++ e2 := by
  have := append_ne_of_prefix p q "" e2 n hp hq hne
  simpa using this

theorem isInsert_of_retry_stmt {μ : Type} (s : Stmt μ)
    (h : isSleep s = true ∨ isUserQuery s = true ∨ isUserCheck s = true) :
    isInsert s = false := by
  cases s <;> simp [isSleep, isUserQuery, isUserCheck] at h <;> rfl

theorem RetryTrace.noInsert {σ μ : Type} {before after : SeedState σ μ} {n : Nat}
    (h : RetryTrace before after n) : NoInsertSince before after := by
  obtain ⟨_, _, ⟨new, he, _, hp, _⟩, _, _⟩ := h
  exact ⟨new, he, fun e hm => isInsert_of_retry_stmt e.stmt (hp e hm)⟩

theorem NoInsertSince.trans {σ μ : Type} {a b c : SeedState σ μ}
    (h1 : NoInsertSince a b) (h2 : NoInsertSince b c) : NoInsertSince a c := by
  obtain ⟨n1, e1, p1⟩ := h1
  obtain ⟨n2, e2, p2⟩ := h2
  refine ⟨n1 ++ n2, by rw [e2, e1, List.append_assoc], ?_⟩
  intro e he
  rcases List.mem_append.mp he with he | he
  · exact p1 e he
  · exact p2 e he

namespace OrderSeeder

theorem getRegularUsers_err {σ μ : Type} (db : Database σ μ) (st : SeedState σ μ) :
    (getRegularUsers db st).1.2 = none :=
  retryLoop_err db _ _ _ _ _

theorem getRegularUsers_trace {σ μ : Type} (db : Database σ μ) (st : SeedState σ μ) :
    ∃ n, RetryTrace st (getRegularUsers db st).2 n ∧
      (n < 3 → (getRegularUsers db st).1.1 ≠ []) := by
  rw [getRegularUsers_eq_threeAttempts]
  exact threeAttempts_trace db st

theorem getProducts_noInsert {σ μ : Type} (ar : Arith μ) (db : Database σ μ)
    (st : SeedState σ μ) : NoInsertSince st (getProducts ar db st).2 := by
  unfold getProducts
  simp only []
  split
  · exact ⟨_, rfl, by simp [isInsert]⟩
  · exact ⟨_, rfl, by simp [isInsert]⟩

/-- The three outcomes of `Seed` before any order is attempted. -/
theorem seed_cases {σ μ : Type} (ar : Arith μ) (db : Database σ μ) (src : Nat → Nat)
    (st : SeedState σ μ) :
    ((getRegularUsers db st).1.1 = [] →
      Seed ar db src st = { err := some "no regular users found for seeding orders",
                            st := (getRegularUsers db st).2, count := 0 }) ∧
    ((getRegularUsers db st).1.1 ≠ [] →
      ∀ e, (getProducts ar db (getRegularUsers db st).2).1 = .error e →
        Seed ar db src st = { err := some ("failed to get products: " ++ e),
                              st := (getProducts ar db (getRegularUsers db st).2).2,
                              count := 0 }) ∧
    ((getRegularUsers db st).1.1 ≠ [] →
      (getProducts ar db (getRegularUsers db st).2).1 = .ok [] →
        Seed ar db src st = { err := some "no products found for seeding orders",
                              st := (getProducts ar db (getRegularUsers db st).2).2,
                              count := 0 }) ∧
    ((getRegularUsers db st).1.1 ≠ [] →
      ∀ products, products ≠ [] →
        (getProducts ar db (getRegularUsers db st).2).1 = .ok products →
        Seed ar db src st =
          { err := none,
            st := (ordersLoop ar db src (getRegularUsers db st).1.1 products
              (50 + (Intn src 51 (getProducts ar db (getRegularUsers db st).2).2).1) 0
              (Intn src 51 (getProducts ar db (getRegularUsers db st).2).2).2).2,
            count := (ordersLoop ar db src (getRegularUsers db st).1.1 products
              (50 + (Intn src 51 (getProducts ar db (getRegularUsers db st).2).2).1) 0
              (Intn src 51 (getProducts ar db (getRegularUsers db st).2).2).2).1 }) := by
  have herr := getRegularUsers_err db st
  refine ⟨?_, ?_, ?_, ?_⟩
  · intro hu
    simp only [Seed, herr, hu, List.length_nil, if_true]
  · intro hu e he
    have hl : ¬ (getRegularUsers db st).1.1.length = 0 := fun h => hu (List.length_eq_zero.mp h)
    simp only [Seed, herr, hl, if_false, he]
  · intro hu he
    have hl : ¬ (getRegularUsers db st).1.1.length = 0 := fun h => hu (List.length_eq_zero.mp h)
    simp only [Seed, herr, hl, if_false, he, List.length_nil, if_true]
  · intro hu products hp he
    have hl : ¬ (getRegularUsers db st).1.1.length = 0 := fun h => hu (List.length_eq_zero.mp h)
    have hl2 : ¬ products.length = 0 := fun h => hp (List.length_eq_zero.mp h)
    simp only [Seed, herr, hl, if_false, he, hl2]

end OrderSeeder

namespace ReviewSeeder

theorem review_getRegularUsers_trace {σ μ : Type} (db : Database σ μ) (st : SeedState σ μ) :
    ∃ n, RetryTrace st (getRegularUsers db st).2 n ∧
      (n < 3 → ∃ users, (getRegularUsers db st).1 = .ok users ∧ users ≠ []) := by
  obtain ⟨n, ht, hn⟩ := review_threeAttempts_trace db st
  rw [review_getRegularUsers_eq_threeAttempts]
  split
  · next h0 =>
    refine ⟨n, ht, ?_⟩
    intro h3
    exact absurd (List.length_eq_zero.mp h0) (hn h3)
  · next h0 =>
    exact ⟨n, ht, fun _ => ⟨_, rfl, fun h => h0 (by rw [h]; rfl)⟩⟩

theorem review_getProducts_noInsert {σ μ : Type} (db : Database σ μ) (st : SeedState σ μ) :
    NoInsertSince st (getProducts db st).2 := by
  unfold getProducts
  simp only []
  split
  · exact ⟨_, rfl, by simp [isInsert]⟩
  · exact ⟨_, rfl, by simp [isInsert]⟩

/-- The outcomes of `Seed` before any review is attempted. -/
theorem review_seed_cases {σ μ : Type} (db : Database σ μ) (src : Nat → Nat) (st : SeedState σ μ) :
    ((threeAttempts db st).1 = [] →
      Seed db src st =
        { err := some "failed to get users: no regular users found after 3 retries",
          st := (getRegularUsers db st).2, count := 0 }) ∧
    ((threeAttempts db st).1 ≠ [] →
      ∀ e, (getProducts db (getRegularUsers db st).2).1 = .error e →
        Seed db src st = { err := some ("failed to get products: " ++ e),
                           st := (getProducts db (getRegularUsers db st).2).2, count := 0 }) ∧
    ((threeAttempts db st).1 ≠ [] →
      (getProducts db (getRegularUsers db st).2).1 = .ok [] →
        Seed db src st = { err := some "no products found for seeding reviews",
                           st := (getProducts db (getRegularUsers db st).2).2, count := 0 }) ∧
    ((threeAttempts db st).1 ≠ [] →
      ∀ products, products ≠ [] →
        (getProducts db (getRegularUsers db st).2).1 = .ok products →
        Seed db src st =
          { err := none,
            st := (productsLoop db src (threeAttempts db st).1 products 0
              (getProducts db (getRegularUsers db st).2).2).2,
            count := (productsLoop db src (threeAttempts db st).1 products 0
              (getProducts db (getRegularUsers db st).2).2).1 }) := by
  refine ⟨?_, ?_, ?_, ?_⟩
  · intro hu
    have hg : (getRegularUsers db st).1 = .error "no regular users found after 3 retries" := by
      rw [review_getRegularUsers_eq_threeAttempts, hu]; rfl
    simp only [Seed, hg]
    rfl
  · intro hu e he
    have hl : ¬ (threeAttempts db st).1.length = 0 := fun h => hu (List.length_eq_zero.mp h)
    have hg : (getRegularUsers db st).1 = .ok (threeAttempts db st).1 := by
      rw [review_getRegularUsers_eq_threeAttempts, if_neg hl]
    simp only [Seed, hg, hl, if_false, he]
  · intro hu he
    have hl : ¬ (threeAttempts db st).1.length = 0 := fun h => hu (List.length_eq_zero.mp h)
    have hg : (getRegularUsers db st).1 = .ok (threeAttempts db st).1 := by
      rw [review_getRegularUsers_eq_threeAttempts, if_neg hl]
    simp only [Seed, hg, hl, if_false, he, List.length_nil, if_true]
  · intro hu products hp he
    have hl : ¬ (threeAttempts db st).1.length = 0 := fun h => hu (List.length_eq_zero.mp h)
    have hl2 : ¬ products.length = 0 := fun h => hp (List.length_eq_zero.mp h)
    have hg : (getRegularUsers db st).1 = .ok (threeAttempts db st).1 := by
      rw [review_getRegularUsers_eq_threeAttempts, if_neg hl]
    simp only [Seed, hg, hl, if_false, he, hl2]

end ReviewSeeder

/-- C12: when the user list is still empty after the retries, or the product list
is empty, `OrderSeeder.Seed` and `ReviewSeeder.Seed` return an error that names the
missing prerequisite and issue no insert, whatever the random source. -/
theorem seed_fails_without_prerequisites {σ μ : Type} (ar : Arith μ) (db : Database σ μ)
    (src : Nat → Nat) (st : SeedState σ μ) :
    ((OrderSeeder.getRegularUsers db st).1.1 = [] →
      (OrderSeeder.Seed ar db src st).err = some "no regular users found for seeding orders" ∧
      NoInsertSince st (OrderSeeder.Seed ar db src st).st) ∧
    ((OrderSeeder.getProducts ar db (OrderSeeder.getRegularUsers db st).2).1 = .ok [] →
      ((OrderSeeder.Seed ar db src st).err = some "no regular users found for seeding orders" ∨
        (OrderSeeder.Seed ar db src st).err = some "no products found for seeding orders") ∧
      NoInsertSince st (OrderSeeder.Seed ar db src st).st) ∧
    ((ReviewSeeder.retryLoop db ReviewSeeder.maxRetries 0 [] (sleep 500 st)).1 = [] →
      (ReviewSeeder.Seed db src st).err
        = some "failed to get users: no regular users found after 3 retries" ∧
      NoInsertSince st (ReviewSeeder.Seed db src st).st) ∧
    ((ReviewSeeder.getProducts db (ReviewSeeder.getRegularUsers db st).2).1 = .ok [] →
      ((ReviewSeeder.Seed db src st).err
          = some "failed to get users: no regular users found after 3 retries" ∨
        (ReviewSeeder.Seed db src st).err = some "no products found for seeding reviews") ∧
      NoInsertSince st (ReviewSeeder.Seed db src st).st) := by
  obtain ⟨no, hto, _⟩ := OrderSeeder.getRegularUsers_trace db st
  obtain ⟨nr, htr, _⟩ := ReviewSeeder.review_getRegularUsers_trace db st
  have hpo := OrderSeeder.getProducts_noInsert ar db (OrderSeeder.getRegularUsers db st).2
  have hpr := ReviewSeeder.review_getProducts_noInsert db (ReviewSeeder.getRegularUsers db st).2
  obtain ⟨o1, _, o3, _⟩ := OrderSeeder.seed_cases ar db src st
  obtain ⟨r1, _, r3, _⟩ := ReviewSeeder.review_seed_cases db src st
  refine ⟨?_, ?_, ?_, ?_⟩
  · intro hu
    rw [o1 hu]
    exact ⟨rfl, hto.noInsert⟩
  · intro hp
    by_cases hu : (OrderSeeder.getRegularUsers db st).1.1 = []
    · rw [o1 hu]
      exact ⟨Or.inl rfl, hto.noInsert⟩
    · rw [o3 hu hp]
      exact ⟨Or.inr rfl, hto.noInsert.trans hpo⟩
  · intro hu
    rw [ReviewSeeder.retryLoop_eq_threeAttempts] at hu
    rw [r1 hu]
    exact ⟨rfl, htr.noInsert⟩
  · intro hp
    by_cases hu : (ReviewSeeder.threeAttempts db st).1 = []
    · rw [r1 hu]
      exact ⟨Or.inl rfl, htr.noInsert⟩
    · rw [r3 hu hp]
      exact ⟨Or.inr rfl, htr.noInsert.trans hpr⟩

/-- C12, on a database without rows. -/
theorem seed_fails_without_prerequisites_witness :
    (OrderSeeder.getRegularUsers emptyDB (freshState ())).1.1 = [] ∧
    (OrderSeeder.Seed intArith emptyDB twoItemsSrc (freshState ())).err
      = some "no regular users found for seeding orders" ∧
    (ReviewSeeder.Seed emptyDB twoItemsSrc (freshState ())).err
      = some "failed to get users: no regular users found after 3 retries" ∧
    (OrderSeeder.Seed intArith emptyDB twoItemsSrc (freshState ())).st.events
      = [{ stmt := .sleep 500, ok := true }, { stmt := .selectUserIds, ok := true },
         { stmt := .sleep 1000, ok := true }, { stmt := .selectUserIds, ok := true },
         { stmt := .sleep 1500, ok := true }, { stmt := .selectUserIds, ok := true }] := by
  have h : (OrderSeeder.getRegularUsers emptyDB (freshState ())).1.1 = [] := by decide
  have hr : (ReviewSeeder.retryLoop emptyDB ReviewSeeder.maxRetries 0 []
      (sleep 500 (freshState ()))).1 = [] := by decide
  exact ⟨h,
    ((seed_fails_without_prerequisites intArith emptyDB twoItemsSrc (freshState ())).1 h).1,
    ((seed_fails_without_prerequisites intArith emptyDB twoItemsSrc
      (freshState ())).2.2.1 hr).1,
    by decide⟩

/-- C16: in both seeders `getRegularUsers` makes the attempts of the retry rule:
it sleeps 500 ms and then queries the users; while an attempt yields no user it
sleeps 1000 ms, then 1500 ms, and queries again, three queries at most; the first
attempt with a user ends it. In the recorded steps every attempt is its sleep
followed by its user-list query (`RetryTrace`), and the sleeps add up to at most
3000 ms. -/
theorem getRegularUsers_retry_schedule {σ μ : Type} (db : Database σ μ)
    (st : SeedState σ μ) :
    OrderSeeder.getRegularUsers db st
      = (((OrderSeeder.threeAttempts db st).1, none), (OrderSeeder.threeAttempts db st).2) ∧
    (∃ n, RetryTrace st (OrderSeeder.getRegularUsers db st).2 n ∧
      (n < 3 → (OrderSeeder.getRegularUsers db st).1.1 ≠ [])) ∧
    ReviewSeeder.getRegularUsers db st
      = (if (ReviewSeeder.threeAttempts db st).1.length = 0 then
          (.error "no regular users found after 3 retries", (ReviewSeeder.threeAttempts db st).2)
        else (.ok (ReviewSeeder.threeAttempts db st).1, (ReviewSeeder.threeAttempts db st).2)) ∧
    (∃ n, RetryTrace st (ReviewSeeder.getRegularUsers db st).2 n ∧
      (n < 3 → ∃ users, (ReviewSeeder.getRegularUsers db st).1 = .ok users ∧ users ≠ [])) :=
  ⟨OrderSeeder.getRegularUsers_eq_threeAttempts db st, OrderSeeder.getRegularUsers_trace db st,
    ReviewSeeder.review_getRegularUsers_eq_threeAttempts db st,
    ReviewSeeder.review_getRegularUsers_trace db st⟩

/-- C16, on a database without rows and on one with two users: three attempts with
the sleeps 500, 1000, 1500 ms each before its query, and one attempt after 500 ms. -/
theorem getRegularUsers_retry_schedule_witness :
    (OrderSeeder.getRegularUsers emptyDB (freshState ())).2.events
      = [{ stmt := .sleep 500, ok := true }, { stmt := .selectUserIds, ok := true },
         { stmt := .sleep 1000, ok := true }, { stmt := .selectUserIds, ok := true },
         { stmt := .sleep 1500, ok := true }, { stmt := .selectUserIds, ok := true }] ∧
    (ReviewSeeder.getRegularUsers reviewDB (freshState ())).2.events
      = [{ stmt := .sleep 500, ok := true }, { stmt := .selectUsers, ok := true },
         { stmt := .userExists "u1", ok := true }, { stmt := .userExists "u2", ok := true }] ∧
    (ReviewSeeder.getRegularUsers reviewDB (freshState ())).2.sleeps = [500] ∧
    (∃ n, RetryTrace (freshState ()) (OrderSeeder.getRegularUsers emptyDB (freshState ())).2 n ∧
      (n < 3 → (OrderSeeder.getRegularUsers emptyDB (freshState ())).1.1 ≠ [])) :=
  ⟨by decide, by decide, by decide,
    (getRegularUsers_retry_schedule emptyDB (freshState ())).2.1⟩

/-- C18: `OrderSeeder.getRegularUsers` returns a nil error on every database, so
`OrderSeeder.Seed` never returns a "failed to get users" error; when every user
query fails, three queries are made, the user list is empty and `Seed` returns
"no regular users found for seeding orders". -/
theorem orderSeeder_getRegularUsers_error_is_nil {σ μ : Type} (db : Database σ μ)
    (st : SeedState σ μ) :
    (OrderSeeder.getRegularUsers db st).1.2 = none ∧
    (∀ (ar : Arith μ) (src : Nat → Nat) (e : String),
      (OrderSeeder.Seed ar db src st).err ≠ some ("failed to get users: " ++ e)) ∧
    ((∀ s, ∃ e, (db.queryUserIds s).2 = .error e) →
      (OrderSeeder.getRegularUsers db st).1 = ([], none) ∧
      RetryTrace st (OrderSeeder.getRegularUsers db st).2 3 ∧
      ∀ (ar : Arith μ) (src : Nat → Nat),
        (OrderSeeder.Seed ar db src st).err
          = some "no regular users found for seeding orders") := by
  refine ⟨OrderSeeder.getRegularUsers_err db st, ?_, ?_⟩
  · intro ar src e
    obtain ⟨c1, c2, c3, c4⟩ := OrderSeeder.seed_cases ar db src st
    by_cases hu : (OrderSeeder.getRegularUsers db st).1.1 = []
    · rw [c1 hu]
      intro h
      exact ne_of_prefix _ "failed to get users: " e 1 (by decide) (by decide) (by decide)
        (Option.some.inj h)
    · cases hp : (OrderSeeder.getProducts ar db (OrderSeeder.getRegularUsers db st).2).1 with
      | error e2 =>
        rw [c2 hu e2 hp]
        intro h
        exact append_ne_of_prefix "failed to get products: " "failed to get users: " e2 e 15
          (by decide) (by decide) (by decide) (Option.some.inj h)
      | ok products =>
        by_cases hne : products = []
        · rw [c3 hu (by rw [hp, hne])]
          intro h
          exact ne_of_prefix _ "failed to get users: " e 1 (by decide) (by decide) (by decide)
            (Option.some.inj h)
        · rw [c4 hu products hne hp]
          intro h
          cases h
  · intro hfail
    have hat : ∀ s : SeedState σ μ, (OrderSeeder.attempt db s).1 = [] := by
      intro s
      obtain ⟨e, he⟩ := hfail s.db
      have hq : (OrderSeeder.queryUserIds db s).1 = .error e := he
      simp only [OrderSeeder.attempt, hq]
    have hthree : (OrderSeeder.threeAttempts db st).1 = [] := by
      unfold OrderSeeder.threeAttempts
      simp only [hat, List.length_nil, gt_iff_lt, lt_self_iff_false, if_false]
    have hu : (OrderSeeder.getRegularUsers db st).1.1 = [] := by
      rw [OrderSeeder.getRegularUsers_eq_threeAttempts]; exact hthree
    obtain ⟨n, ht, hn⟩ := OrderSeeder.getRegularUsers_trace db st
    have hn3 : n = 3 := by
      have h1 := ht.2.1
      by_contra hne
      exact hn (by omega) hu
    refine ⟨?_, hn3 ▸ ht, ?_⟩
    · rw [OrderSeeder.getRegularUsers_eq_threeAttempts, hthree]
    · intro ar src
      rw [(OrderSeeder.seed_cases ar db src st).1 hu]

/-- C18, on a database whose every call fails. -/
theorem orderSeeder_getRegularUsers_error_is_nil_witness :
    (∀ s, ∃ e, (downDB.queryUserIds s).2 = .error e) ∧
    (OrderSeeder.Seed intArith downDB twoItemsSrc (freshState ())).err
      = some "no regular users found for seeding orders" ∧
    (OrderSeeder.getRegularUsers downDB (freshState ())).2.sleeps = [500, 1000, 1500] := by
  have h : ∀ s, ∃ e, (downDB.queryUserIds s).2 = .error e := fun _ => ⟨_, rfl⟩
  exact ⟨h,
    ((orderSeeder_getRegularUsers_error_is_nil downDB (freshState ())).2.2 h).2.2
      intArith twoItemsSrc,
    by decide⟩

theorem replayOrders_append {μ : Type} (a b : List (Event μ)) :
    ∀ p : List String, replayOrders (a ++ b) p = replayOrders b (replayOrders a p) := by
  induction a with
  | nil => intro p; rfl
  | cons e a ih =>
    intro p
    simp only [List.cons_append, replayOrders]
    split <;> exact ih _

theorem replayOrders_neutral {μ : Type} (l : List (Event μ))
    (h : ∀ e ∈ l, ∀ p, replayOrders [e] p = p) : ∀ p, replayOrders l p = p := by
  induction l with
  | nil => intro p; rfl
  | cons e l ih =>
    intro p
    have := replayOrders_append [e] l p
    simp only [List.singleton_append] at this
    rw [this, h e (List.mem_cons_self _ _) p]
    exact ih (fun x hx => h x (List.mem_cons_of_mem _ hx)) p

theorem replay_read {μ : Type} (e : Event μ) (h : isRead e.stmt = true) (p : List String) :
    replayOrders [e] p = p := by
  rcases e with ⟨s, ok, id⟩
  cases s <;> simp [isRead] at h <;> rfl

theorem replay_line {μ : Type} (e : Event μ) (oid : String) (h : isLineOf oid e.stmt = true)
    (p : List String) : replayOrders [e] p = p := by
  rcases e with ⟨s, ok, id⟩
  cases s <;> simp [isLineOf] at h
  rfl

theorem hasLine_append_left {μ : Type} (oid : String) (a b : List (Event μ))
    (h : hasLine oid a) : hasLine oid (a ++ b) := by
  obtain ⟨e, he, hp⟩ := h
  exact ⟨e, List.mem_append_left _ he, hp⟩

theorem hasLine_append_right {μ : Type} (oid : String) (a b : List (Event μ))
    (h : hasLine oid b) : hasLine oid (a ++ b) := by
  obtain ⟨e, he, hp⟩ := h
  exact ⟨e, List.mem_append_right _ he, hp⟩

theorem Good.nil {μ : Type} : Good ([] : List (Event μ)) := by
  intro E h
  simpa using h

theorem Good.append {μ : Type} {a b : List (Event μ)} (ha : Good a) (hb : Good b) :
    Good (a ++ b) := by
  intro E h
  rw [← List.append_assoc]
  exact hb (E ++ a) (ha E h)

theorem Good.of_neutral {μ : Type} (l : List (Event μ))
    (h : ∀ e ∈ l, ∀ p, replayOrders [e] p = p) : Good l := by
  intro E hE oid ho
  unfold storedOrders at ho
  rw [replayOrders_append, replayOrders_neutral l h] at ho
  exact hasLine_append_left oid E l (hE oid ho)

namespace OrderSeeder

theorem pickLoop_events {σ μ : Type} (src : Nat → Nat) (products : List (OrderProduct μ))
    (used : List String) :
    ∀ (fuel attempts : Nat) (product : OrderProduct μ) (st : SeedState σ μ),
      (pickLoop src products used fuel attempts product st).2.events = st.events := by
  intro fuel
  induction fuel with
  | zero => intro attempts product st; rfl
  | succ fuel ih =>
    intro attempts product st
    simp only [pickLoop]
    split
    · split
      · rfl
      · rw [ih]; rfl
    · rfl

theorem pickProduct_events {σ μ : Type} (ar : Arith μ) (src : Nat → Nat)
    (products : List (OrderProduct μ)) (used : List String) (st : SeedState σ μ) :
    (pickProduct ar src products used st).2.events = st.events := by
  simp only [pickProduct]
  split
  · exact pickLoop_events src products used _ _ _ _
  · simp only [Intn_events]
    exact pickLoop_events src products used _ _ _ _

/-- An iteration of the items loop issues one order line insert for the order and
counts it when it succeeded. -/
theorem addItem_spec {σ μ : Type} (ar : Arith μ) (db : Database σ μ) (src : Nat → Nat)
    (orderID : String) (daysAgo : Nat) (product : OrderProduct μ) (items : ItemsState μ)
    (st : SeedState σ μ) :
    ∃ e, (addItem ar db src orderID daysAgo product items st).2.events = st.events ++ [e] ∧
      isLineOf orderID e.stmt = true ∧
      (addItem ar db src orderID daysAgo product items st).1.itemsAdded
        = items.itemsAdded + (if e.ok then 1 else 0) := by
  refine ⟨{ stmt := .insertOrderItem orderID product.ID (1 + (Intn src 3 st).1) product.Price
              daysAgo,
            ok := (exec db (.insertOrderItem orderID product.ID (1 + (Intn src 3 st).1)
              product.Price daysAgo) (Intn src 3 st).2).1.isNone }, ?_, by simp [isLineOf], ?_⟩
  · simp only [addItem]
    split <;> simp only [exec_events, Intn_events]
  · simp only [addItem]
    cases h : (exec db (.insertOrderItem orderID product.ID (1 + (Intn src 3 st).1)
        product.Price daysAgo) (Intn src 3 st).2).1 <;> simp

/-- The items loop issues order line inserts for the order only, and `itemsAdded`
grows by the number of them that succeeded. -/
theorem itemsLoop_spec {σ μ : Type} (ar : Arith μ) (db : Database σ μ) (src : Nat → Nat)
    (products : List (OrderProduct μ)) (orderID : String) (daysAgo : Nat) :
    ∀ (n : Nat) (items : ItemsState μ) (st : SeedState σ μ),
      ∃ new, (itemsLoop ar db src products orderID daysAgo n items st).2.events
          = st.events ++ new ∧
        (∀ e ∈ new, isLineOf orderID e.stmt = true) ∧
        (itemsLoop ar db src products orderID daysAgo n items st).1.itemsAdded
          = items.itemsAdded + new.countP (fun e => e.ok) := by
  intro n
  induction n with
  | zero => intro items st; exact ⟨[], by simp [itemsLoop], by simp, by simp [itemsLoop]⟩
  | succ n ih =>
    intro items st
    simp only [itemsLoop]
    obtain ⟨e, he, hl, hc⟩ := addItem_spec ar db src orderID daysAgo
      (pickProduct ar src products items.usedProducts st).1 items
      (pickProduct ar src products items.usedProducts st).2
    obtain ⟨new, hn, hp, hk⟩ := ih
      (addItem ar db src orderID daysAgo
        (pickProduct ar src products items.usedProducts st).1 items
        (pickProduct ar src products items.usedProducts st).2).1
      (addItem ar db src orderID daysAgo
        (pickProduct ar src products items.usedProducts st).1 items
        (pickProduct ar src products items.usedProducts st).2).2
    rw [pickProduct_events] at he
    refine ⟨e :: new, by rw [hn, he]; simp, ?_, ?_⟩
    · intro x hx
      rcases List.mem_cons.mp hx with rfl | hx
      · exact hl
      · exact hp x hx
    · rw [hk, hc]
      cases hok : e.ok <;> simp [hok, List.countP_cons]
      omega

end OrderSeeder

theorem replay_insert_ok {μ : Type} (e : Event μ) (u s a b : String) (d : Nat)
    (h : e.stmt = .insertOrder u s a b d) (hok : e.ok = true) (p : List String) :
    replayOrders [e] p = p ++ [e.id] := by
  rcases e with ⟨st, ok, id⟩
  simp only at h hok
  subst h hok
  rfl

theorem replay_insert_failed {μ : Type} (e : Event μ) (u s a b : String) (d : Nat)
    (h : e.stmt = .insertOrder u s a b d) (hok : e.ok = false) (p : List String) :
    replayOrders [e] p = p := by
  rcases e with ⟨st, ok, id⟩
  simp only at h hok
  subst h hok
  rfl

theorem replay_update {μ : Type} (e : Event μ) (t : μ) (oid : String)
    (h : e.stmt = .updateOrderTotal t oid) (p : List String) : replayOrders [e] p = p := by
  rcases e with ⟨st, ok, id⟩
  simp only at h
  subst h
  rfl

theorem replay_delete {μ : Type} (e : Event μ) (oid : String)
    (h : e.stmt = .deleteOrder oid) (p : List String) :
    replayOrders [e] p = p.filter (fun x => x ≠ oid) := by
  rcases e with ⟨st, ok, id⟩
  simp only at h
  subst h
  rfl

theorem stored_order_events {μ : Type} (E : List (Event μ)) (ins fin : Event μ)
    (items : List (Event μ)) (oid : String)
    (hitems : ∀ e ∈ items, isLineOf oid e.stmt = true) :
    storedOrders (E ++ ins :: (items ++ [fin]))
      = replayOrders [fin] (replayOrders [ins] (storedOrders E)) := by
  unfold storedOrders
  rw [show E ++ ins :: (items ++ [fin]) = E ++ ([ins] ++ (items ++ [fin])) by simp,
    replayOrders_append, replayOrders_append, replayOrders_append,
    replayOrders_neutral items (fun e he p => replay_line e oid (hitems e he) p)]

/-- An order that got a line and whose total is then updated keeps the property. -/
theorem Good.kept {μ : Type} (ins fin : Event μ) (items : List (Event μ)) (oid : String)
    (u s a b : String) (d : Nat) (t : μ)
    (h1 : ins.stmt = .insertOrder u s a b d) (h2 : ins.ok = true) (h3 : ins.id = oid)
    (hitems : ∀ e ∈ items, isLineOf oid e.stmt = true) (hline : ∃ e ∈ items, e.ok = true)
    (hfin : fin.stmt = .updateOrderTotal t oid) : Good (ins :: (items ++ [fin])) := by
  intro E hE x hx
  rw [stored_order_events E ins fin items oid hitems, replay_update fin t oid hfin,
    replay_insert_ok ins u s a b d h1 h2, h3] at hx
  rcases List.mem_append.mp hx with hx | hx
  · exact hasLine_append_left x E _ (hE x hx)
  · rw [List.mem_singleton.mp hx]
    obtain ⟨e, he, hok⟩ := hline
    exact hasLine_append_right oid E _
      ⟨e, List.mem_cons_of_mem _ (List.mem_append_left _ he), hok, hitems e he⟩

/-- An order that is deleted again keeps the property. -/
theorem Good.deleted {μ : Type} (ins fin : Event μ) (items : List (Event μ)) (oid : String)
    (u s a b : String) (d : Nat)
    (h1 : ins.stmt = .insertOrder u s a b d) (h2 : ins.ok = true) (h3 : ins.id = oid)
    (hitems : ∀ e ∈ items, isLineOf oid e.stmt = true)
    (hfin : fin.stmt = .deleteOrder oid) : Good (ins :: (items ++ [fin])) := by
  intro E hE x hx
  rw [stored_order_events E ins fin items oid hitems, replay_delete fin oid hfin,
    replay_insert_ok ins u s a b d h1 h2, h3] at hx
  have hx2 := (List.mem_filter.mp hx)
  rcases List.mem_append.mp hx2.1 with hm | hm
  · exact hasLine_append_left x E _ (hE x hm)
  · have : x = oid := List.mem_singleton.mp hm
    simp [this] at hx2

theorem totalsPersisted_append {μ : Type} (a b : List (Event μ)) :
    totalsPersisted (a ++ b) = totalsPersisted a + totalsPersisted b := by
  simp [totalsPersisted, List.countP_append]

theorem totalsPersisted_of_not_update {μ : Type} (l : List (Event μ))
    (h : ∀ e ∈ l, isTotalUpdate e.stmt = false) : totalsPersisted l = 0 := by
  unfold totalsPersisted
  apply List.countP_eq_zero.mpr
  intro e he
  simp [h e he]

theorem isTotalUpdate_of_line {μ : Type} (oid : String) (s : Stmt μ)
    (h : isLineOf oid s = true) : isTotalUpdate s = false := by
  cases s <;> simp [isLineOf] at h
  rfl

theorem isTotalUpdate_of_read {μ : Type} (s : Stmt μ) (h : isRead s = true) :
    isTotalUpdate s = false := by
  cases s <;> simp [isRead] at h <;> rfl

namespace OrderSeeder

@[simp]
theorem generateAddress_events {σ μ : Type} (src : Nat → Nat) (st : SeedState σ μ) :
    (generateAddress src st).2.events = st.events := rfl

/-- What the end of an iteration adds: one update of the total, counted when it
succeeded, if a line was added; one delete of the order, not counted, otherwise. -/
theorem finishOrder_spec {σ μ : Type} (db : Database σ μ) (orderID : String)
    (items : ItemsState μ) (successCount : Nat) (st : SeedState σ μ) :
    (0 < items.itemsAdded →
      ∃ ok, (finishOrder db orderID items successCount st).2.events
          = st.events ++ [{ stmt := .updateOrderTotal items.total orderID, ok := ok }] ∧
        (finishOrder db orderID items successCount st).1
          = successCount + (if ok then 1 else 0)) ∧
    (items.itemsAdded = 0 →
      (∃ ok, (finishOrder db orderID items successCount st).2.events
          = st.events ++ [{ stmt := .deleteOrder orderID, ok := ok }]) ∧
      (finishOrder db orderID items successCount st).1 = successCount) := by
  constructor
  · intro h
    have hpos : items.itemsAdded > 0 := h
    refine ⟨(exec db (.updateOrderTotal items.total orderID) st).1.isNone, ?_, ?_⟩
    · simp only [finishOrder, if_pos hpos]
      split <;> simp only [exec_events]
    · simp only [finishOrder, if_pos hpos]
      cases hu : (exec db (.updateOrderTotal items.total orderID) st).1 <;> simp
  · intro h
    have hn : ¬ items.itemsAdded > 0 := by omega
    simp only [finishOrder, if_neg hn, exec_events]
    exact ⟨⟨_, rfl⟩, trivial⟩

/-- An iteration from the order insert on keeps every stored order with a line and
counts exactly the totals it persisted. -/
theorem createOrder_spec {σ μ : Type} (ar : Arith μ) (db : Database σ μ) (src : Nat → Nat)
    (products : List (OrderProduct μ)) (userID : String) (numItems : Nat) (status : String)
    (daysAgo successCount : Nat) (st : SeedState σ μ) :
    ∃ new, (createOrder ar db src products userID numItems status daysAgo successCount st).2.events
        = st.events ++ new ∧ Good new ∧
      (createOrder ar db src products userID numItems status daysAgo successCount st).1
        = successCount + totalsPersisted new := by
  simp only [createOrder]
  generalize hstmt : (Stmt.insertOrder userID status (generateAddress src st).1
      (generateAddress src (generateAddress src st).2).1 daysAgo : Stmt μ) = stmt
  have hev0 : (generateAddress src (generateAddress src st).2).2.events = st.events := by simp
  generalize (generateAddress src (generateAddress src st).2).2 = s0 at hev0 ⊢
  cases hq : (queryRowId db stmt s0).1 with
  | error e =>
    simp only []
    refine ⟨[{ stmt := stmt, ok := false }], ?_, ?_, ?_⟩
    · rw [queryRowId_events, hq, hev0]; rfl
    · apply Good.of_neutral
      intro e he p
      rw [List.mem_singleton.mp he]
      exact replay_insert_failed _ _ _ _ _ _ hstmt.symm rfl p
    · rw [totalsPersisted_of_not_update]
      · rfl
      · intro e he
        rw [List.mem_singleton.mp he, ← hstmt]
        rfl
  | ok orderID =>
    simp only []
    obtain ⟨items, hi, hl, hc⟩ := itemsLoop_spec ar db src products orderID daysAgo numItems
      { usedProducts := [], itemsAdded := 0, total := ar.zero } (queryRowId db stmt s0).2
    generalize itemsLoop ar db src products orderID daysAgo numItems
      { usedProducts := [], itemsAdded := 0, total := ar.zero } (queryRowId db stmt s0).2
      = il at hi hc ⊢
    rw [queryRowId_events, hq, hev0] at hi
    simp only [Nat.zero_add] at hc
    obtain ⟨fpos, fzero⟩ := finishOrder_spec db orderID il.1 successCount il.2
    have hnu : totalsPersisted ({ stmt := stmt, ok := true, id := orderID } :: items) = 0 := by
      apply totalsPersisted_of_not_update
      intro e he
      rcases List.mem_cons.mp he with rfl | he
      · rw [← hstmt]; rfl
      · exact isTotalUpdate_of_line orderID _ (hl e he)
    by_cases hz : il.1.itemsAdded = 0
    · obtain ⟨⟨ok, hev⟩, hcnt⟩ := fzero hz
      refine ⟨{ stmt := stmt, ok := true, id := orderID } ::
        (items ++ [{ stmt := .deleteOrder orderID, ok := ok }]), ?_, ?_, ?_⟩
      · rw [hev, hi]; simp [isOk, scannedId]
      · exact Good.deleted _ _ items orderID _ _ _ _ _ hstmt.symm rfl rfl hl rfl
      · rw [hcnt, ← List.cons_append, totalsPersisted_append, hnu]
        simp [totalsPersisted, isTotalUpdate]
    · obtain ⟨ok, hev, hcnt⟩ := fpos (by omega)
      refine ⟨{ stmt := stmt, ok := true, id := orderID } ::
        (items ++ [{ stmt := .updateOrderTotal il.1.total orderID, ok := ok }]), ?_, ?_, ?_⟩
      · rw [hev, hi]; simp [isOk, scannedId]
      · refine Good.kept _ _ items orderID _ _ _ _ _ il.1.total hstmt.symm rfl rfl hl ?_ rfl
        have : 0 < items.countP (fun e => e.ok) := by omega
        obtain ⟨e, he, hok⟩ := List.countP_pos_iff.mp this
        exact ⟨e, he, hok⟩
      · rw [hcnt, ← List.cons_append, totalsPersisted_append, hnu]
        cases ok <;> simp [totalsPersisted, isTotalUpdate]

/-- The body of the orders loop keeps every stored order with a line and counts
exactly the totals it persisted. -/
theorem orderBody_spec {σ μ : Type} (ar : Arith μ) (db : Database σ μ) (src : Nat → Nat)
    (users : List OrderUser) (products : List (OrderProduct μ)) (successCount : Nat)
    (st : SeedState σ μ) :
    ∃ new, (orderBody ar db src users products successCount st).2.events = st.events ++ new ∧
      Good new ∧
      (orderBody ar db src users products successCount st).1
        = successCount + totalsPersisted new := by
  simp only [orderBody]
  generalize hstmt : (Stmt.regularUserExists
    (users.getD (Intn src users.length st).1 { ID := "" }).ID : Stmt μ) = stmt
  have hcheck : Good [({ stmt := stmt, ok := isOk (queryRowBool db stmt
      (Intn src users.length st).2).1 } : Event μ)] := by
    apply Good.of_neutral
    intro e he p
    rw [List.mem_singleton.mp he]
    exact replay_read _ (by rw [← hstmt]; rfl) p
  have hcu : totalsPersisted [({ stmt := stmt, ok := isOk (queryRowBool db stmt
      (Intn src users.length st).2).1 } : Event μ)] = 0 := by
    apply totalsPersisted_of_not_update
    intro e he
    rw [List.mem_singleton.mp he, ← hstmt]
    rfl
  split
  · obtain ⟨new, hn, hg, hc⟩ := createOrder_spec ar db src products
      (users.getD (Intn src users.length st).1 { ID := "" }).ID
      (1 + (Intn src 5 (queryRowBool db stmt (Intn src users.length st).2).2).1)
      (orderStatuses.getD (Intn src orderStatuses.length
        (Intn src 5 (queryRowBool db stmt (Intn src users.length st).2).2).2).1 "")
      (Intn src 180 (Intn src orderStatuses.length
        (Intn src 5 (queryRowBool db stmt (Intn src users.length st).2).2).2).2).1
      successCount
      (Intn src 180 (Intn src orderStatuses.length
        (Intn src 5 (queryRowBool db stmt (Intn src users.length st).2).2).2).2).2
    simp only [Intn_events, queryRowBool_events] at hn
    refine ⟨({ stmt := stmt, ok := isOk (queryRowBool db stmt
      (Intn src users.length st).2).1 } : Event μ) :: new, by rw [hn]; simp, ?_, ?_⟩
    · exact Good.append hcheck hg
    · rw [hc, show ∀ (x : Event μ), x :: new = [x] ++ new from fun _ => rfl,
        totalsPersisted_append, hcu]
      omega
  · exact ⟨[({ stmt := stmt, ok := isOk (queryRowBool db stmt
      (Intn src users.length st).2).1 } : Event μ)],
      by simp only [queryRowBool_events, Intn_events], hcheck, by rw [hcu]; rfl⟩

/-- The orders loop keeps every stored order with a line and counts exactly the
totals it persisted. -/
theorem ordersLoop_spec {σ μ : Type} (ar : Arith μ) (db : Database σ μ) (src : Nat → Nat)
    (users : List OrderUser) (products : List (OrderProduct μ)) :
    ∀ (n successCount : Nat) (st : SeedState σ μ),
      ∃ new, (ordersLoop ar db src users products n successCount st).2.events
          = st.events ++ new ∧ Good new ∧
        (ordersLoop ar db src users products n successCount st).1
          = successCount + totalsPersisted new := by
  intro n
  induction n with
  | zero =>
    intro c st
    exact ⟨[], by simp [ordersLoop], Good.nil, by simp [ordersLoop, totalsPersisted]⟩
  | succ n ih =>
    intro c st
    simp only [ordersLoop]
    obtain ⟨n1, h1, g1, c1⟩ := orderBody_spec ar db src users products c st
    obtain ⟨n2, h2, g2, c2⟩ := ih (orderBody ar db src users products c st).1
      (orderBody ar db src users products c st).2
    refine ⟨n1 ++ n2, by rw [h2, h1, List.append_assoc], Good.append g1 g2, ?_⟩
    rw [c2, c1, totalsPersisted_append]
    omega

end OrderSeeder

theorem isRead_of_retry_stmt {μ : Type} (s : Stmt μ)
    (h : isSleep s = true ∨ isUserQuery s = true ∨ isUserCheck s = true) :
    isRead s = true := by
  cases s <;> simp [isSleep, isUserQuery, isUserCheck] at h <;> rfl

theorem reads_stored {μ : Type} (R : List (Event μ)) (h : ∀ e ∈ R, isRead e.stmt = true) :
    storedOrders R = [] ∧ totalsPersisted R = 0 :=
  ⟨replayOrders_neutral R (fun e he p => replay_read e (h e he) p) [],
    totalsPersisted_of_not_update R (fun e he => isTotalUpdate_of_read _ (h e he))⟩

namespace OrderSeeder

theorem getRegularUsers_reads {σ μ : Type} (db : Database σ μ) (st : SeedState σ μ) :
    ∃ new, (getRegularUsers db st).2.events = st.events ++ new ∧
      ∀ e ∈ new, isRead e.stmt = true := by
  obtain ⟨n, ⟨_, _, ⟨new, he, _, hp, _⟩, _, _⟩, _⟩ := getRegularUsers_trace db st
  exact ⟨new, he, fun e hm => isRead_of_retry_stmt e.stmt (hp e hm)⟩

theorem getProducts_reads {σ μ : Type} (ar : Arith μ) (db : Database σ μ)
    (st : SeedState σ μ) :
    ∃ new, (getProducts ar db st).2.events = st.events ++ new ∧
      ∀ e ∈ new, isRead e.stmt = true := by
  unfold getProducts
  simp only []
  split
  · exact ⟨_, rfl, by simp [isRead]⟩
  · exact ⟨_, rfl, by simp [isRead]⟩

/-- On a fresh run every order left in storage has a line, and the returned count
is the number of totals persisted. -/
theorem seed_stored_orders {σ μ : Type} (ar : Arith μ) (db : Database σ μ) (src : Nat → Nat)
    (st : SeedState σ μ) (hfresh : st.events = []) :
    (∀ oid ∈ storedOrders (Seed ar db src st).st.events,
      hasLine oid (Seed ar db src st).st.events) ∧
    (Seed ar db src st).count = totalsPersisted (Seed ar db src st).st.events := by
  obtain ⟨r1, he1, hr1⟩ := getRegularUsers_reads db st
  obtain ⟨r2, he2, hr2⟩ := getProducts_reads ar db (getRegularUsers db st).2
  rw [hfresh, List.nil_append] at he1
  rw [he1] at he2
  have hr12 : ∀ e ∈ r1 ++ r2, isRead e.stmt = true := by
    intro e he
    rcases List.mem_append.mp he with he | he
    · exact hr1 e he
    · exact hr2 e he
  have hreads : ∀ R : List (Event μ), (∀ e ∈ R, isRead e.stmt = true) →
      (∀ oid ∈ storedOrders R, hasLine oid R) ∧ 0 = totalsPersisted R := by
    intro R hR
    obtain ⟨hs, ht⟩ := reads_stored R hR
    rw [hs, ht]
    exact ⟨by simp, rfl⟩
  obtain ⟨c1, c2, c3, c4⟩ := seed_cases ar db src st
  by_cases hu : (getRegularUsers db st).1.1 = []
  · rw [c1 hu]
    simp only [he1]
    exact hreads r1 hr1
  · cases hp : (getProducts ar db (getRegularUsers db st).2).1 with
    | error e =>
      rw [c2 hu e hp]
      simp only [he2]
      exact hreads _ hr12
    | ok products =>
      by_cases hne : products = []
      · rw [c3 hu (by rw [hp, hne])]
        simp only [he2]
        exact hreads _ hr12
      · rw [c4 hu products hne hp]
        simp only []
        obtain ⟨new, hn, hg, hc⟩ := ordersLoop_spec ar db src (getRegularUsers db st).1.1
          products (50 + (Intn src 51 (getProducts ar db (getRegularUsers db st).2).2).1) 0
          (Intn src 51 (getProducts ar db (getRegularUsers db st).2).2).2
        rw [Intn_events, he2] at hn
        rw [hn, hc, totalsPersisted_append, ← (hreads _ hr12).2]
        exact ⟨hg _ (hreads _ hr12).1, rfl⟩

end OrderSeeder

/-- C13: an order whose order line inserts all fail gets a DELETE for its id and is
not counted: `itemsAdded` is the number of line inserts of the order that succeeded,
and with `itemsAdded` zero the iteration ends with the delete and leaves
`successCount` as it was. So, over a storage model in which the delete takes effect,
every order of a run still in storage when `Seed` returns has an inserted line, and
the count `Seed` reports is the number of totals it persisted. -/
theorem orderSeeder_deletes_order_without_lines {σ μ : Type} (ar : Arith μ)
    (db : Database σ μ) (src : Nat → Nat) (st : SeedState σ μ) (hfresh : st.events = []) :
    (∀ oid ∈ storedOrders (OrderSeeder.Seed ar db src st).st.events,
      hasLine oid (OrderSeeder.Seed ar db src st).st.events) ∧
    (OrderSeeder.Seed ar db src st).count
      = totalsPersisted (OrderSeeder.Seed ar db src st).st.events ∧
    (∀ (orderID : String) (items : ItemsState μ) (successCount : Nat) (s : SeedState σ μ),
      items.itemsAdded = 0 →
        (∃ ok, (OrderSeeder.finishOrder db orderID items successCount s).2.events
          = s.events ++ [{ stmt := .deleteOrder orderID, ok := ok }]) ∧
        (OrderSeeder.finishOrder db orderID items successCount s).1 = successCount) ∧
    (∀ (products : List (OrderProduct μ)) (orderID : String) (daysAgo n : Nat)
        (items : ItemsState μ) (s : SeedState σ μ),
      ∃ new, (OrderSeeder.itemsLoop ar db src products orderID daysAgo n items s).2.events
          = s.events ++ new ∧
        (∀ e ∈ new, isLineOf orderID e.stmt = true) ∧
        (OrderSeeder.itemsLoop ar db src products orderID daysAgo n items s).1.itemsAdded
          = items.itemsAdded + new.countP (fun e => e.ok)) :=
  ⟨(OrderSeeder.seed_stored_orders ar db src st hfresh).1,
    (OrderSeeder.seed_stored_orders ar db src st hfresh).2,
    fun orderID items successCount s =>
      (OrderSeeder.finishOrder_spec db orderID items successCount s).2,
    fun products orderID daysAgo n items s =>
      OrderSeeder.itemsLoop_spec ar db src products orderID daysAgo n items s⟩

/-- C13, on a database in which every order line insert fails: the one order
created is deleted again, nothing is left in storage and nothing is counted. -/
theorem orderSeeder_deletes_order_without_lines_witness :
    (∀ oid ∈ storedOrders
        (OrderSeeder.Seed intArith noLinesDB twoItemsSrc (freshState (0, 0))).st.events,
      hasLine oid
        (OrderSeeder.Seed intArith noLinesDB twoItemsSrc (freshState (0, 0))).st.events) ∧
    storedOrders
      (OrderSeeder.Seed intArith noLinesDB twoItemsSrc (freshState (0, 0))).st.events = [] ∧
    (OrderSeeder.Seed intArith noLinesDB twoItemsSrc (freshState (0, 0))).count = 0 ∧
    ((OrderSeeder.Seed intArith noLinesDB twoItemsSrc (freshState (0, 0))).st.events.filter
        (fun e => isInsert e.stmt || !isRead e.stmt)).map (fun e => (e.stmt, e.ok))
      = [ (.insertOrder "u1" "pending"
            "\x7b\"street\": \"123 Main St\", \"city\": \"New York\", \"state\": \"NY\", \"zip\": \"10001\", \"country\": \"USA\"\x7d"
            "\x7b\"street\": \"123 Main St\", \"city\": \"New York\", \"state\": \"NY\", \"zip\": \"10001\", \"country\": \"USA\"\x7d"
            0, true),
          (.insertOrderItem "o1" "p1" 1 10 0, false),
          (.insertOrderItem "o1" "p1" 1 10 0, false),
          (.deleteOrder "o1", true) ] := by
  refine ⟨(orderSeeder_deletes_order_without_lines intArith noLinesDB twoItemsSrc
    (freshState (0, 0)) rfl).1, ?_, ?_, ?_⟩
  · decide
  · decide
  · decide

/-- C14 fails on the code: on a database where the first order line insert fails
and the second succeeds, the order keeps one line of price 10 and quantity 1, yet
the total persisted with the UPDATE is 20: the failed line is in it too. -/
theorem orderSeeder_total_includes_failed_line :
    ((OrderSeeder.Seed intArith flakyDB twoItemsSrc (freshState (0, 0))).st.events.filter
        (fun e => isTotalUpdate e.stmt || isLineInsert e.stmt)) =
      [ { stmt := .insertOrderItem "o1" "p1" 1 10 0, ok := false },
        { stmt := .insertOrderItem "o1" "p1" 1 10 0, ok := true },
        { stmt := .updateOrderTotal 20 "o1", ok := true } ] ∧
    (OrderSeeder.Seed intArith flakyDB twoItemsSrc (freshState (0, 0))).err = none ∧
    (OrderSeeder.Seed intArith flakyDB twoItemsSrc (freshState (0, 0))).count = 1 := by
  decide

theorem reviewAttempts_append {μ : Type} (pid : String) (a b : List (Event μ)) :
    reviewAttempts pid (a ++ b) = reviewAttempts pid a ++ reviewAttempts pid b := by
  induction a with
  | nil => rfl
  | cons e a ih =>
    simp only [List.cons_append, reviewAttempts]
    split
    · split
      · show _ :: reviewAttempts pid (a ++ b) = _
        rw [ih]; rfl
      · exact ih
    · exact ih

theorem reviewAttempts_filter_sublist {μ : Type} (pid : String) (l : List (Event μ))
    (p : Event μ → Bool) :
    (reviewAttempts pid (l.filter p)).Sublist (reviewAttempts pid l) := by
  induction l with
  | nil => exact List.Sublist.refl _
  | cons e l ih =>
    by_cases hp : p e = true
    · rw [List.filter_cons_of_pos hp]
      simp only [reviewAttempts]
      split
      · split
        · exact ih.cons₂ _
        · exact ih
      · exact ih
    · rw [List.filter_cons_of_neg hp]
      simp only [reviewAttempts]
      split
      · split
        · exact ih.cons _
        · exact ih
      · exact ih

theorem reviewAttempts_of_read {μ : Type} (pid : String) (l : List (Event μ))
    (h : ∀ e ∈ l, isRead e.stmt = true) : reviewAttempts pid l = [] := by
  induction l with
  | nil => rfl
  | cons e l ih =>
    have he := h e (List.mem_cons_self _ _)
    have hl := ih (fun x hx => h x (List.mem_cons_of_mem _ hx))
    rcases e with ⟨s, ok, id⟩
    cases s <;> simp [isRead] at he <;> simpa [reviewAttempts] using hl

namespace ReviewSeeder

/-- The user pick issues no statement, and a user it finds is not yet used. -/
theorem pickLoop_spec {σ μ : Type} (src : Nat → Nat) (users : List ReviewUser)
    (used : List String) :
    ∀ (fuel attempts : Nat) (user : ReviewUser) (st : SeedState σ μ),
      (pickLoop src users used fuel attempts user st).2.events = st.events ∧
      ((pickLoop src users used fuel attempts user st).1.2 = true →
        (pickLoop src users used fuel attempts user st).1.1.ID ∉ used) := by
  intro fuel
  induction fuel with
  | zero => intro attempts user st; exact ⟨rfl, by simp [pickLoop]⟩
  | succ fuel ih =>
    intro attempts user st
    simp only [pickLoop]
    split
    · split
      · next h => exact ⟨rfl, fun _ => h⟩
      · obtain ⟨h1, h2⟩ := ih (attempts + 1) (users.getD (Intn src users.length st).1 user)
          (Intn src users.length st).2
        exact ⟨by rw [h1]; rfl, h2⟩
    · exact ⟨rfl, by simp⟩

/-- Thirty picks that all hit used users end the pick without a user, thirty
random values later. -/
theorem pickLoop_all_used {σ μ : Type} (src : Nat → Nat) (users : List ReviewUser)
    (used : List String) :
    ∀ (fuel attempts : Nat) (user : ReviewUser) (st : SeedState σ μ),
      attempts + fuel = maxAttempts →
      (∀ k < fuel, ∃ u, users[src (st.calls + k) % users.length]? = some u ∧ u.ID ∈ used) →
      (pickLoop src users used fuel attempts user st).1.2 = false ∧
      (pickLoop src users used fuel attempts user st).2
        = { st with calls := st.calls + fuel } := by
  intro fuel
  induction fuel with
  | zero => intro attempts user st _ _; exact ⟨rfl, rfl⟩
  | succ fuel ih =>
    intro attempts user st hsum hall
    have hlt : attempts < maxAttempts := by omega
    obtain ⟨u, hu, hused⟩ := hall 0 (by omega)
    have hpick : users.getD (Intn src users.length st).1 user = u := by
      rw [List.getD_eq_getElem?_getD]
      simp only [Intn]
      rw [Nat.add_zero] at hu
      rw [hu]; rfl
    simp only [pickLoop, if_pos hlt, hpick]
    have hin : ¬ u.ID ∉ used := fun h => h hused
    rw [if_neg hin]
    obtain ⟨h1, h2⟩ := ih (attempts + 1) u (Intn src users.length st).2 (by omega) (by
      intro k hk
      have := hall (k + 1) (by omega)
      simpa [Intn, Nat.add_assoc, Nat.add_comm 1 k] using this)
    refine ⟨h1, ?_⟩
    rw [h2]
    simp [Intn, Nat.add_assoc, Nat.add_comm 1 fuel]

@[simp]
theorem generateComment_events {σ μ : Type} (src : Nat → Nat) (rating : Nat)
    (name : String) (st : SeedState σ μ) :
    (generateComment src rating name st).2.events = st.events := by
  simp only [generateComment]
  split <;> rfl

/-- An iteration of the reviews loop issues at most one review insert, for this
product and for a user not used before, and marks that user used. -/
theorem reviewBody_spec {σ μ : Type} (db : Database σ μ) (src : Nat → Nat)
    (users : List ReviewUser) (product : ReviewProduct) (rs : ReviewsState)
    (st : SeedState σ μ) :
    ∃ add, (reviewBody db src users product rs st).2.events = st.events ++ add ∧
      (∀ q, q ≠ product.ID → reviewAttempts q add = []) ∧
      (reviewAttempts product.ID add = [] ∨
        ∃ u, reviewAttempts product.ID add = [u] ∧ u ∉ rs.usedUsers ∧
          u ∈ (reviewBody db src users product rs st).1.usedUsers) ∧
      (∀ x ∈ rs.usedUsers, x ∈ (reviewBody db src users product rs st).1.usedUsers) := by
  obtain ⟨hpe, hpf⟩ := pickLoop_spec (σ := σ) (μ := μ) src users rs.usedUsers maxAttempts 0
    { ID := "", Name := "" } st
  simp only [reviewBody]
  generalize pickLoop src users rs.usedUsers maxAttempts 0 { ID := "", Name := "" } st = p
    at hpe hpf ⊢
  by_cases hfound : p.1.2 = true
  · rw [if_pos hfound]
    have hnew := hpf hfound
    by_cases hex : existsTrue (queryRowBool db (.userExists p.1.1.ID) p.2).1 = true
    · rw [if_pos hex]
      have e1 : (queryRowBool db (.userExists p.1.1.ID) p.2).2.events
          = st.events
            ++ [⟨.userExists p.1.1.ID, isOk (queryRowBool db (.userExists p.1.1.ID) p.2).1, ""⟩] := by
        rw [queryRowBool_events, hpe]
      generalize queryRowBool db (.userExists p.1.1.ID) p.2 = c at e1 ⊢
      have e2 : (Intn src 90 (generateComment src (1 + (Intn src 5 c.2).1) product.Name
          (Intn src 5 c.2).2).2).2.events = c.2.events := by simp
      generalize hstmt : (Stmt.insertReview p.1.1.ID product.ID (1 + (Intn src 5 c.2).1)
        (generateComment src (1 + (Intn src 5 c.2).1) product.Name (Intn src 5 c.2).2).1
        (Intn src 90 (generateComment src (1 + (Intn src 5 c.2).1) product.Name
          (Intn src 5 c.2).2).2).1 : Stmt μ) = stmt
      generalize (Intn src 90 (generateComment src (1 + (Intn src 5 c.2).1) product.Name
          (Intn src 5 c.2).2).2).2 = s3 at e2 ⊢
      have hev : (exec db stmt s3).2.events
          = st.events
            ++ [⟨.userExists p.1.1.ID, isOk c.1, ""⟩, ⟨stmt, (exec db stmt s3).1.isNone, ""⟩] := by
        rw [exec_events, e2, e1]; simp
      have hone : ∀ ok : Bool, reviewAttempts product.ID
          [(⟨.userExists p.1.1.ID, isOk c.1, ""⟩ : Event μ), ⟨stmt, ok, ""⟩] = [p.1.1.ID] := by
        intro ok
        subst hstmt
        simp [reviewAttempts]
      have hoth : ∀ (ok : Bool) (q : String), q ≠ product.ID → reviewAttempts q
          [(⟨.userExists p.1.1.ID, isOk c.1, ""⟩ : Event μ), ⟨stmt, ok, ""⟩] = [] := by
        intro ok q hq
        subst hstmt
        simp [reviewAttempts, Ne.symm hq]
      split
      · exact ⟨_, hev, hoth _, Or.inr ⟨p.1.1.ID, hone _, hnew, by simp⟩,
          fun x hx => List.mem_cons_of_mem _ hx⟩
      · exact ⟨_, hev, hoth _, Or.inr ⟨p.1.1.ID, hone _, hnew, by simp⟩,
          fun x hx => List.mem_cons_of_mem _ hx⟩
    · rw [if_neg hex]
      refine ⟨[⟨.userExists p.1.1.ID, isOk (queryRowBool db (.userExists p.1.1.ID) p.2).1, ""⟩],
        by simp only [queryRowBool_events, hpe],
        fun q _ => rfl, Or.inl rfl, ?_⟩
      intro x hx
      exact List.mem_cons_of_mem _ hx
  · rw [if_neg hfound]
    exact ⟨[], by simp [hpe], fun q _ => rfl, Or.inl rfl, fun x hx => hx⟩

/-- The reviews loop of a product issues review inserts for this product only, for
pairwise distinct users not used before, at most one an iteration. -/
theorem reviewsLoop_spec {σ μ : Type} (db : Database σ μ) (src : Nat → Nat)
    (users : List ReviewUser) (product : ReviewProduct) :
    ∀ (n : Nat) (rs : ReviewsState) (st : SeedState σ μ),
      ∃ new, (reviewsLoop db src users product n rs st).2.events = st.events ++ new ∧
        (∀ q, q ≠ product.ID → reviewAttempts q new = []) ∧
        (reviewAttempts product.ID new).Nodup ∧
        (∀ u ∈ reviewAttempts product.ID new, u ∉ rs.usedUsers) ∧
        (reviewAttempts product.ID new).length ≤ n := by
  intro n
  induction n with
  | zero =>
    intro rs st
    exact ⟨[], by simp [reviewsLoop], fun q _ => rfl, by simp [reviewAttempts],
      by simp [reviewAttempts], by simp [reviewAttempts]⟩
  | succ n ih =>
    intro rs st
    simp only [reviewsLoop]
    obtain ⟨add, ha, hoa, hua, hsub⟩ := reviewBody_spec db src users product rs st
    obtain ⟨new, hn, hon, hnd, hfresh, hlen⟩ := ih
      (reviewBody db src users product rs st).1 (reviewBody db src users product rs st).2
    refine ⟨add ++ new, by rw [hn, ha, List.append_assoc], ?_, ?_, ?_, ?_⟩
    · intro q hq
      rw [reviewAttempts_append, hoa q hq, hon q hq]; rfl
    · rw [reviewAttempts_append]
      rcases hua with h0 | ⟨u, hu, _, hin⟩
      · rw [h0]; simpa using hnd
      · rw [hu]
        simp only [List.singleton_append, List.nodup_cons]
        exact ⟨fun hmem => hfresh u hmem hin, hnd⟩
    · intro u hu
      rw [reviewAttempts_append] at hu
      rcases List.mem_append.mp hu with hu | hu
      · rcases hua with h0 | ⟨v, hv, hnot, _⟩
        · rw [h0] at hu; simp at hu
        · rw [hv] at hu
          rw [List.mem_singleton.mp hu]; exact hnot
      · exact fun hmem => hfresh u hu (hsub u hmem)
    · rw [reviewAttempts_append, List.length_append]
      rcases hua with h0 | ⟨u, hu, _, _⟩
      · rw [h0]; simp; omega
      · rw [hu]; simp; omega

/-- The iteration for one product issues review inserts for this product only, for
pairwise distinct users, fifteen at most. -/
theorem productBody_spec {σ μ : Type} (db : Database σ μ) (src : Nat → Nat)
    (users : List ReviewUser) (product : ReviewProduct) (totalReviews : Nat)
    (st : SeedState σ μ) :
    ∃ new, (productBody db src users product totalReviews st).2.events = st.events ++ new ∧
      (∀ q, q ≠ product.ID → reviewAttempts q new = []) ∧
      (reviewAttempts product.ID new).Nodup ∧
      (reviewAttempts product.ID new).length ≤ 15 := by
  simp only [productBody]
  have hlt : (Intn src 16 st).1 ≤ 15 := by
    have : (Intn src 16 st).1 < 16 := Nat.mod_lt _ (by omega)
    omega
  split
  · exact ⟨[], by simp, fun q _ => rfl, by simp [reviewAttempts], by simp [reviewAttempts]⟩
  · obtain ⟨new, hn, ho, hnd, _, hlen⟩ := reviewsLoop_spec db src users product
      (Intn src 16 st).1 { usedUsers := [], reviewsAdded := 0 } (Intn src 16 st).2
    rw [Intn_events] at hn
    split
    · exact ⟨new, hn, ho, hnd, by omega⟩
    · exact ⟨new, hn, ho, hnd, by omega⟩

/-- Over products with pairwise distinct ids the products loop issues, for every
product id, review inserts for pairwise distinct users, fifteen at most. -/
theorem productsLoop_spec {σ μ : Type} (db : Database σ μ) (src : Nat → Nat)
    (users : List ReviewUser) :
    ∀ (products : List ReviewProduct) (totalReviews : Nat) (st : SeedState σ μ),
      (products.map (fun p => p.ID)).Nodup →
      ∃ new, (productsLoop db src users products totalReviews st).2.events
          = st.events ++ new ∧
        (∀ q, q ∉ products.map (fun p => p.ID) → reviewAttempts q new = []) ∧
        (∀ q, (reviewAttempts q new).Nodup ∧ (reviewAttempts q new).length ≤ 15) := by
  intro products
  induction products with
  | nil =>
    intro t st _
    exact ⟨[], by simp [productsLoop], fun q _ => rfl, fun q => by simp [reviewAttempts]⟩
  | cons product rest ih =>
    intro t st hnd
    simp only [productsLoop]
    obtain ⟨n1, h1, o1, d1, l1⟩ := productBody_spec db src users product t st
    have hnd2 : product.ID ∉ rest.map (fun p => p.ID) ∧ (rest.map (fun p => p.ID)).Nodup :=
      List.nodup_cons.mp hnd
    obtain ⟨n2, h2, o2, p2⟩ := ih (productBody db src users product t st).1
      (productBody db src users product t st).2 hnd2.2
    refine ⟨n1 ++ n2, by rw [h2, h1, List.append_assoc], ?_, ?_⟩
    · intro q hq
      have hq1 : q ≠ product.ID := fun h => hq (by simp [h])
      have hq2 : q ∉ rest.map (fun p => p.ID) := fun h => hq (by
        simp only [List.map_cons, List.mem_cons]; exact Or.inr h)
      rw [reviewAttempts_append, o1 q hq1, o2 q hq2]; rfl
    · intro q
      rw [reviewAttempts_append]
      by_cases hq : q = product.ID
      · rw [o2 q (by rw [hq]; exact hnd2.1), List.append_nil, hq]
        exact ⟨d1, l1⟩
      · rw [o1 q hq, List.nil_append]
        exact p2 q

theorem review_getRegularUsers_reads {σ μ : Type} (db : Database σ μ) (st : SeedState σ μ) :
    ∃ new, (getRegularUsers db st).2.events = st.events ++ new ∧
      ∀ e ∈ new, isRead e.stmt = true := by
  obtain ⟨n, ⟨_, _, ⟨new, he, _, hp, _⟩, _, _⟩, _⟩ := review_getRegularUsers_trace db st
  exact ⟨new, he, fun e hm => isRead_of_retry_stmt e.stmt (hp e hm)⟩

theorem review_getProducts_reads {σ μ : Type} (db : Database σ μ) (st : SeedState σ μ) :
    ∃ new, (getProducts db st).2.events = st.events ++ new ∧
      ∀ e ∈ new, isRead e.stmt = true := by
  unfold getProducts
  simp only []
  split
  · exact ⟨_, rfl, by simp [isRead]⟩
  · exact ⟨_, rfl, by simp [isRead]⟩

/-- On a fresh run over products with pairwise distinct ids, the review inserts
issued for a product id are for pairwise distinct users, fifteen at most. -/
theorem seed_attempts {σ μ : Type} (db : Database σ μ) (src : Nat → Nat)
    (st : SeedState σ μ) (hfresh : st.events = [])
    (hids : ∀ products, (getProducts db (getRegularUsers db st).2).1 = .ok products →
      (products.map (fun p => p.ID)).Nodup) (q : String) :
    (reviewAttempts q (Seed db src st).st.events).Nodup ∧
    (reviewAttempts q (Seed db src st).st.events).length ≤ 15 := by
  obtain ⟨r1, he1, hr1⟩ := review_getRegularUsers_reads db st
  obtain ⟨r2, he2, hr2⟩ := review_getProducts_reads db (getRegularUsers db st).2
  rw [hfresh, List.nil_append] at he1
  rw [he1] at he2
  have hr12 : ∀ e ∈ r1 ++ r2, isRead e.stmt = true := by
    intro e he
    rcases List.mem_append.mp he with he | he
    · exact hr1 e he
    · exact hr2 e he
  have hreads : ∀ R : List (Event μ), (∀ e ∈ R, isRead e.stmt = true) →
      (reviewAttempts q R).Nodup ∧ (reviewAttempts q R).length ≤ 15 := by
    intro R hR
    rw [reviewAttempts_of_read q R hR]
    exact ⟨List.nodup_nil, by simp⟩
  obtain ⟨c1, c2, c3, c4⟩ := review_seed_cases db src st
  by_cases hu : (threeAttempts db st).1 = []
  · rw [c1 hu]
    simp only [he1]
    exact hreads r1 hr1
  · cases hp : (getProducts db (getRegularUsers db st).2).1 with
    | error e =>
      rw [c2 hu e hp]
      simp only [he2]
      exact hreads _ hr12
    | ok products =>
      by_cases hne : products = []
      · rw [c3 hu (by rw [hp, hne])]
        simp only [he2]
        exact hreads _ hr12
      · rw [c4 hu products hne hp]
        simp only []
        obtain ⟨new, hn, _, hq⟩ := productsLoop_spec db src (threeAttempts db st).1 products 0
          (getProducts db (getRegularUsers db st).2).2 (hids products hp)
        rw [he2] at hn
        rw [hn, reviewAttempts_append, reviewAttempts_of_read q _ hr12, List.nil_append]
        exact hq q

theorem reviewers_of_attempts {μ : Type} (q : String) (E : List (Event μ)) (n : Nat)
    (h : (reviewAttempts q E).Nodup ∧ (reviewAttempts q E).length ≤ n) :
    (reviewers q E).Nodup ∧ (reviewers q E).length ≤ n := by
  have hs := reviewAttempts_filter_sublist q E (fun e => e.ok)
  exact ⟨h.1.sublist hs, le_trans hs.length_le h.2⟩

end ReviewSeeder

/-- C15: the iteration of `ReviewSeeder.Seed` for a product issues review inserts
for pairwise distinct users only, at most fifteen, so the rows it inserts are one
per user; over products with pairwise distinct ids the same holds for every product
id in the whole run; and an iteration whose thirty picks all hit users already used
issues no statement and changes neither the used users nor the count. -/
theorem reviewSeeder_one_review_per_user {σ μ : Type} (db : Database σ μ)
    (src : Nat → Nat) :
    (∀ (users : List ReviewUser) (product : ReviewProduct) (totalReviews : Nat)
        (st : SeedState σ μ),
      ∃ new, (ReviewSeeder.productBody db src users product totalReviews st).2.events
          = st.events ++ new ∧
        (reviewAttempts product.ID new).Nodup ∧ (reviewAttempts product.ID new).length ≤ 15 ∧
        (reviewers product.ID new).Nodup ∧ (reviewers product.ID new).length ≤ 15) ∧
    (∀ st : SeedState σ μ, st.events = [] →
      (∀ products,
        (ReviewSeeder.getProducts db (ReviewSeeder.getRegularUsers db st).2).1 = .ok products →
          (products.map (fun p => p.ID)).Nodup) →
      ∀ q, (reviewers q (ReviewSeeder.Seed db src st).st.events).Nodup ∧
        (reviewers q (ReviewSeeder.Seed db src st).st.events).length ≤ 15) ∧
    (∀ (users : List ReviewUser) (product : ReviewProduct) (rs : ReviewsState)
        (st : SeedState σ μ),
      (∀ k < 30, ∃ u, users[src (st.calls + k) % users.length]? = some u ∧
        u.ID ∈ rs.usedUsers) →
      (ReviewSeeder.reviewBody db src users product rs st).1.usedUsers = rs.usedUsers ∧
      (ReviewSeeder.reviewBody db src users product rs st).1.reviewsAdded = rs.reviewsAdded ∧
      (ReviewSeeder.reviewBody db src users product rs st).2
        = { st with calls := st.calls + 30 }) := by
  refine ⟨?_, ?_, ?_⟩
  · intro users product t st
    obtain ⟨new, hn, _, hd, hl⟩ := ReviewSeeder.productBody_spec db src users product t st
    obtain ⟨hd2, hl2⟩ := ReviewSeeder.reviewers_of_attempts product.ID new 15 ⟨hd, hl⟩
    exact ⟨new, hn, hd, hl, hd2, hl2⟩
  · intro st hfresh hids q
    exact ReviewSeeder.reviewers_of_attempts q _ 15
      (ReviewSeeder.seed_attempts db src st hfresh hids q)
  · intro users product rs st hall
    obtain ⟨hf, hs⟩ := ReviewSeeder.pickLoop_all_used src users rs.usedUsers
      ReviewSeeder.maxAttempts 0 { ID := "", Name := "" } st (by simp) hall
    have hnf : ¬ (ReviewSeeder.pickLoop src users rs.usedUsers ReviewSeeder.maxAttempts 0
        { ID := "", Name := "" } st).1.2 = true := by rw [hf]; simp
    simp only [ReviewSeeder.reviewBody, if_neg hnf]
    exact ⟨trivial, trivial, hs⟩

/-- C15, on a database with two users and one product, with a random source that
asks for three reviews and always picks the first user: one review is inserted,
the two later iterations find no unused user in thirty picks and insert nothing. -/
theorem reviewSeeder_one_review_per_user_witness :
    (reviewers "p1" (ReviewSeeder.Seed reviewDB threeReviewsSrc (freshState ())).st.events).Nodup ∧
    reviewers "p1" (ReviewSeeder.Seed reviewDB threeReviewsSrc (freshState ())).st.events
      = ["u1"] ∧
    (ReviewSeeder.Seed reviewDB threeReviewsSrc (freshState ())).count = 1 ∧
    (ReviewSeeder.Seed reviewDB threeReviewsSrc (freshState ())).st.calls = 65 := by
  have hids : ∀ products,
      (ReviewSeeder.getProducts reviewDB
        (ReviewSeeder.getRegularUsers reviewDB (freshState ())).2).1 = .ok products →
      (products.map (fun p => p.ID)).Nodup := by
    intro products h
    have h2 : (ReviewSeeder.getProducts reviewDB
        (ReviewSeeder.getRegularUsers reviewDB (freshState ())).2).1
        = .ok [{ ID := "p1", Name := "Lamp" }] := rfl
    rw [h2] at h
    rw [← Except.ok.inj h]
    decide
  exact ⟨((reviewSeeder_one_review_per_user reviewDB threeReviewsSrc).2.1
    (freshState ()) rfl hids "p1").1, by decide, by decide, by decide⟩

/-- C17: after a `RunSpecific` call that matches a unit the manager holds the
matched units only, sorted by priority: `ListAvailableSeeders` returns their names
in that order, every listed name is in the name list, and a later `Run` calls
`Seed` on exactly these units. -/
theorem runSpecific_replaces_unit_list {σ : Type} (sm : SeedManager σ) (names : List String)
    (hmatch : ∃ s ∈ sm.seeders, s.name ∈ names) :
    (RunSpecific sm names).sm.seeders
      = sortSeedersByPriority (sm.seeders.filter (fun s => decide (s.name ∈ names))) ∧
    ListAvailableSeeders (RunSpecific sm names).sm
      = (sortSeedersByPriority
          (sm.seeders.filter (fun s => decide (s.name ∈ names)))).map (fun s => s.name) ∧
    (RunSpecific sm names).sm.seeders.Pairwise (fun a b => a.priority ≤ b.priority) ∧
    (RunSpecific sm names).sm.seeders.Perm
      (sm.seeders.filter (fun s => decide (s.name ∈ names))) ∧
    (∀ n ∈ ListAvailableSeeders (RunSpecific sm names).sm, n ∈ names) ∧
    (Run (RunSpecific sm names).sm).executed.map Prod.fst
      = sortSeedersByPriority (sm.seeders.filter (fun s => decide (s.name ∈ names))) := by
  have hs : (RunSpecific sm names).sm.seeders
      = sortSeedersByPriority (sm.seeders.filter (fun s => decide (s.name ∈ names))) := by
    rw [runSpecific_of_match sm names hmatch]
    exact sort_idem _
  refine ⟨hs, ?_, ?_, ?_, ?_, ?_⟩
  · simp only [ListAvailableSeeders, hs]
  · rw [hs]; exact sort_sorted _
  · rw [hs]; exact sort_perm _
  · intro n hn
    simp only [ListAvailableSeeders, hs, List.mem_map] at hn
    obtain ⟨s, hsm, rfl⟩ := hn
    have := (sort_perm _).subset hsm
    simpa using (List.mem_filter.mp this).2
  · rw [run_executed, hs]
    exact sort_idem _

/-- C17, at a manager with three units and a name list that matches two. -/
theorem runSpecific_replaces_unit_list_witness :
    ListAvailableSeeders (RunSpecific { db := (), seeders := [okUnit "orders" 4,
        badUnit "categories" 1, okUnit "products" 2] } ["products", "orders"]).sm
      = ["products", "orders"] ∧
    (Run (RunSpecific { db := (), seeders := [okUnit "orders" 4,
        badUnit "categories" 1, okUnit "products" 2] } ["products", "orders"]).sm).executed.map
        (fun r => r.1.name) = ["products", "orders"] ∧
    (RunSpecific { db := (), seeders := [okUnit "orders" 4,
        badUnit "categories" 1, okUnit "products" 2] } ["products", "orders"]).sm.seeders.Pairwise
        (fun a b => a.priority ≤ b.priority) := by
  have hm : ∃ s ∈ [okUnit "orders" 4, badUnit "categories" 1, okUnit "products" 2],
      s.name ∈ ["products", "orders"] := ⟨okUnit "orders" 4, by simp, by simp [okUnit]⟩
  exact ⟨by decide, by decide,
    (runSpecific_replaces_unit_list
      { db := (), seeders := [okUnit "orders" 4, badUnit "categories" 1, okUnit "products" 2] }
      ["products", "orders"] hm).2.2.1⟩

end Seeds
